import Mathlib

/-!
# Griddy MIDI effect: pattern engines and transport scheduler

A shallow embedding of the pattern engines (`GridsEngine`, `EuclideanTables`) and of the
transport/reset scheduler (`GridsAudioProcessor::processBlock`) of the Griddy plugin,
followed by theorems about them.

Conventions of the embedding:

* `float` and `double` values are exact rationals (`ℚ`): rounding error of the binary
  formats is not modelled.  Concrete inputs used below are dyadic, so the C++ arithmetic
  on them is exact as well.
* `int` values are `ℤ`; `uint8_t` and `uint32_t` values are `ℕ`, reduced modulo `2^8` or
  `2^32` where the C++ conversion does so.
* C++ `%` and the float-to-int conversions truncate toward zero (`Int.tmod`, `truncQ`).
* Random generators are streams of draws (`ℕ → ℚ`); a consumer reads element `0` and
  leaves the tail.
-/

namespace Griddy

/-! ## Numeric helpers -/

/-- Conversion `static_cast<int>(q)` of a floating value: truncation toward zero. -/
def truncQ (q : ℚ) : ℤ := if 0 ≤ q then ⌊q⌋ else ⌈q⌉

/-- Conversion `static_cast<uint8_t>(q)`: truncation toward zero, kept in 8 bits. -/
def toUInt8 (q : ℚ) : ℕ := (truncQ q % 256).toNat

/-- The library function `std::fmod(x, y)`: the remainder of the truncated quotient. -/
def fmodQ (x y : ℚ) : ℚ := x - y * (truncQ (x / y) : ℚ)

/-- The JUCE helper `juce::jlimit(lo, hi, v)`. -/
def jlimit {α : Type} [LT α] [DecidableRel (fun a b : α => a < b)] (lo hi v : α) : α :=
  if v < lo then lo else if hi < v then hi else v

/-- The JUCE helper `juce::jmin(a, b)`. -/
def jmin (a b : ℤ) : ℤ := if b < a then b else a

/-- Number of set bits among the 32 bits of a `uint32_t`. -/
def popCount32 (p : ℕ) : ℕ := ((List.range 32).filter (fun i => p.testBit i)).length

/-! ## EuclideanTables (Source/Grids/EuclideanTables.h) -/

namespace EuclideanTables

/-- State `(pattern, bucket)` of the loop of `computeEuclideanPattern` after `i` rounds. -/
def euclidLoop (hits steps : ℤ) : ℕ → ℕ × ℤ
  | 0 => (0, 0)
  | i + 1 =>
    let st := euclidLoop hits steps i
    let bucket := st.2 + hits
    if bucket ≥ steps then ((st.1 ||| (1 <<< i)) % 2 ^ 32, bucket - steps)
    else (st.1, bucket)

/-- The function `computeEuclideanPattern(hits, steps)`. -/
def computeEuclideanPattern (hits steps : ℤ) : ℕ :=
  if hits ≥ steps then 0xFFFFFFFF
  else if hits = 0 then 0
  else (euclidLoop hits steps steps.toNat).1

/-- The cache `patterns_[row][hits]` as filled by the constructor of `PatternTable`:
row `steps - 1` holds the patterns of `steps`. -/
def patterns_ (row : ℕ) (hits : ℕ) : ℕ := computeEuclideanPattern hits ((row : ℤ) + 1)

/-- The lookup `PatternTable::getPattern(steps, hits)`, also `EuclideanTables::getPattern`. -/
def getPattern (steps hits : ℤ) : ℕ :=
  if steps < 1 ∨ steps > 32 then 0
  else if hits < 0 then 0
  else if hits > steps then 0xFFFFFFFF
  else patterns_ (steps - 1).toNat hits.toNat

/-- The test `EuclideanTables::shouldTrigger(pattern, step)`. -/
def shouldTrigger (pattern : ℕ) (step : ℤ) : Bool :=
  (pattern >>> (step.tmod 32).toNat) &&& 1 = 1

/-- Slots `0 .. length-1` of a pattern that carry a hit, in increasing order. -/
def hitSlots (length : ℕ) (pattern : ℕ) : List ℕ :=
  (List.range length).filter (fun i => pattern.testBit i)

/-- Distances between consecutive entries of a list of slots. -/
def innerGaps : List ℕ → List ℕ
  | a :: b :: rest => (b - a) :: innerGaps (b :: rest)
  | _ => []

/-- Gaps between consecutive hits around the cycle of `length` slots: the inner gaps and
the gap that wraps from the last hit to the first one. -/
def cyclicGaps (length : ℕ) (slots : List ℕ) : List ℕ :=
  match slots.head?, slots.getLast? with
  | some first, some last => innerGaps slots ++ [first + length - last]
  | _, _ => []

/-- Checker: the pattern of `(n, h)` has one cyclic gap per hit and every gap is
`n / h` or its ceiling. -/
def gapsOk (n h : ℕ) : Bool :=
  let gaps := cyclicGaps n (hitSlots n (getPattern n h))
  decide (gaps.length = h) &&
    gaps.all (fun g => decide (g = n / h ∨ g = (n + h - 1) / h))

/-- Checker `gapsOk` over the whole table: every `1 ≤ h ≤ n ≤ 32`. -/
def allGapsOk : Bool :=
  (List.range 33).all fun n => (List.range 33).all fun h =>
    decide (n = 0 ∨ h = 0 ∨ n < h) || gapsOk n h

/-- Checker: the pattern of `(n, h)` has `h` set bits, all of them in its first `n` slots. -/
def countOk (n h : ℕ) : Bool :=
  decide (popCount32 (getPattern n h) = h) &&
    decide ((hitSlots n (getPattern n h)).length = h)

/-- Checker `countOk` over the whole table: every `0 ≤ h < n ≤ 32`. -/
def allCountOk : Bool :=
  (List.range 33).all fun n => (List.range 33).all fun h =>
    decide (n = 0 ∨ n ≤ h) || countOk n h

/-- Checker: the first `n` slots of the all-ones word are all hits, for `n ≤ 32`. -/
def allFullOk : Bool :=
  (List.range 33).all fun n => decide ((hitSlots n 0xFFFFFFFF).length = n)

end EuclideanTables

/-! ## GridsEngine (Source/Grids/GridsEngine.h, GridsEngine.cpp) -/

/-- The constant `grids::node_table` of `GridsPatternData.h`, a header that is not part of
the sources at hand: `node_table n o` is byte `o` of node `n`.  It is a parameter of the
embedding. -/
abbrev NodeTable := ℕ → ℕ → ℕ

/-- The read `(*grids::node_table[node])[offset]` of a `uint8_t`. -/
def readNode (node_table : NodeTable) (node offset : ℤ) : ℕ :=
  node_table node.toNat offset.toNat % 256

/-- The data members of `GridsEngine`; `rng_` stands for the draws that
`randomDist_(rng_)` will produce, in order. -/
structure GridsEngine where
  x_ : ℚ
  y_ : ℚ
  bdDensity_ : ℚ
  sdDensity_ : ℚ
  hhDensity_ : ℚ
  chaos_ : ℚ
  swing_ : ℚ
  currentStep_ : ℤ
  swingCounter_ : ℤ
  bdTrigger_ : Bool
  sdTrigger_ : Bool
  hhTrigger_ : Bool
  bdAccent_ : Bool
  sdAccent_ : Bool
  hhAccent_ : Bool
  rng_ : ℕ → ℚ

namespace GridsEngine

/-- The engine as declared in the header (member initialisers), with the given draws. -/
def init (rng : ℕ → ℚ) : GridsEngine where
  x_ := 1 / 2
  y_ := 1 / 2
  bdDensity_ := 1
  sdDensity_ := 1
  hhDensity_ := 1
  chaos_ := 0
  swing_ := 1 / 2
  currentStep_ := 0
  swingCounter_ := 0
  bdTrigger_ := false
  sdTrigger_ := false
  hhTrigger_ := false
  bdAccent_ := false
  sdAccent_ := false
  hhAccent_ := false
  rng_ := rng

/-- Setter `setX`. -/
def setX (e : GridsEngine) (x : ℚ) : GridsEngine := { e with x_ := jlimit 0 1 x }

/-- Setter `setY`. -/
def setY (e : GridsEngine) (y : ℚ) : GridsEngine := { e with y_ := jlimit 0 1 y }

/-- Setter `setBDDensity`. -/
def setBDDensity (e : GridsEngine) (density : ℚ) : GridsEngine :=
  { e with bdDensity_ := jlimit 0 1 density }

/-- Setter `setSDDensity`. -/
def setSDDensity (e : GridsEngine) (density : ℚ) : GridsEngine :=
  { e with sdDensity_ := jlimit 0 1 density }

/-- Setter `setHHDensity`. -/
def setHHDensity (e : GridsEngine) (density : ℚ) : GridsEngine :=
  { e with hhDensity_ := jlimit 0 1 density }

/-- Setter `setChaos`. -/
def setChaos (e : GridsEngine) (chaos : ℚ) : GridsEngine :=
  { e with chaos_ := jlimit 0 1 chaos }

/-- Setter `setSwing`. -/
def setSwing (e : GridsEngine) (swing : ℚ) : GridsEngine :=
  { e with swing_ := jlimit 0 1 swing }

/-- Setter `setCurrentStep`. -/
def setCurrentStep (e : GridsEngine) (step : ℤ) : GridsEngine :=
  { e with currentStep_ := step.tmod 32 }

/-- The method `GridsEngine::reset`. -/
def reset (e : GridsEngine) : GridsEngine :=
  { e with
    currentStep_ := 0
    swingCounter_ := 0
    bdTrigger_ := false
    sdTrigger_ := false
    hhTrigger_ := false
    bdAccent_ := false
    sdAccent_ := false
    hhAccent_ := false }

/-- The method `GridsEngine::readDrumMap`. -/
def readDrumMap (node_table : NodeTable) (e : GridsEngine) (instrument step : ℤ) : ℕ :=
  let scaledX : ℚ := e.x_ * 4
  let scaledY : ℚ := e.y_ * 4
  let x0 : ℤ := truncQ scaledX
  let y0 : ℤ := truncQ scaledY
  let x1 : ℤ := min (x0 + 1) 4
  let y1 : ℤ := min (y0 + 1) 4
  let fx : ℚ := scaledX - x0
  let fy : ℚ := scaledY - y0
  let node00 := y0 * 5 + x0
  let node01 := y0 * 5 + x1
  let node10 := y1 * 5 + x0
  let node11 := y1 * 5 + x1
  let offset := instrument * 32 + step
  let v00 : ℚ := readNode node_table node00 offset
  let v01 : ℚ := readNode node_table node01 offset
  let v10 : ℚ := readNode node_table node10 offset
  let v11 : ℚ := readNode node_table node11 offset
  let v0 := v00 * (1 - fx) + v01 * fx
  let v1 := v10 * (1 - fx) + v11 * fx
  let result := v0 * (1 - fy) + v1 * fy
  toUInt8 result

/-- The method `GridsEngine::applyDensity`. -/
def applyDensity (value : ℕ) (density : ℚ) : Bool :=
  if density ≤ 0 then false
  else
    let threshold := toUInt8 ((1 - density) * 254)
    decide (value > threshold)

/-- The method `GridsEngine::applyChaos`: one draw is consumed. -/
def applyChaos (e : GridsEngine) (trigger : Bool) : Bool × GridsEngine :=
  let random := e.rng_ 0
  let e1 := { e with rng_ := fun n => e.rng_ (n + 1) }
  if trigger then (decide (random > e.chaos_ * (3 / 10)), e1)
  else (decide (random < e.chaos_ * (1 / 10)), e1)

/-- The chaos block of `evaluateDrums` for one voice: `if (density > 0) t = applyChaos(t)`. -/
def chaosIfDense (e : GridsEngine) (density : ℚ) (trigger : Bool) : Bool × GridsEngine :=
  if density > 0 then applyChaos e trigger else (trigger, e)

/-- The method `GridsEngine::evaluateDrums`. -/
def evaluateDrums (node_table : NodeTable) (e : GridsEngine) : GridsEngine :=
  let bdValue := readDrumMap node_table e 0 e.currentStep_
  let sdValue := readDrumMap node_table e 1 e.currentStep_
  let hhValue := readDrumMap node_table e 2 e.currentStep_
  let bd0 := applyDensity bdValue e.bdDensity_
  let sd0 := applyDensity sdValue e.sdDensity_
  let hh0 := applyDensity hhValue e.hhDensity_
  let r1 := if e.chaos_ > 0 then chaosIfDense e e.bdDensity_ bd0 else (bd0, e)
  let r2 := if e.chaos_ > 0 then chaosIfDense r1.2 e.sdDensity_ sd0 else (sd0, r1.2)
  let r3 := if e.chaos_ > 0 then chaosIfDense r2.2 e.hhDensity_ hh0 else (hh0, r2.2)
  { r3.2 with
    bdTrigger_ := r1.1
    sdTrigger_ := r2.1
    hhTrigger_ := r3.1
    bdAccent_ := decide (bdValue > 200) && r1.1
    sdAccent_ := decide (sdValue > 200) && r2.1
    hhAccent_ := decide (hhValue > 200) && r3.1 }

/-- The method `GridsEngine::tick`. -/
def tick (node_table : NodeTable) (e : GridsEngine) : GridsEngine :=
  let e1 := evaluateDrums node_table e
  { e1 with currentStep_ := (e1.currentStep_ + 1).tmod 32 }

end GridsEngine

/-! ## GridsAudioProcessor (Source/PluginProcessor.h, PluginProcessor.cpp) -/

/-- Reset quantization options (`enum QuantizeValue`). -/
inductive QuantizeValue
  | QUANTIZE_OFF
  | QUANTIZE_2_BAR
  | QUANTIZE_1_BAR
  | QUANTIZE_1_2
  | QUANTIZE_1_4
  | QUANTIZE_1_8
  | QUANTIZE_1_16
  | QUANTIZE_1_32
  | QUANTIZE_1_4T
  | QUANTIZE_1_8T
  | QUANTIZE_1_16T
  deriving DecidableEq, Repr

/-- The MIDI messages the processor tells apart. -/
inductive MidiMessage
  | noteOn (channel note velocity : ℤ)
  | noteOff (channel note : ℤ)
  | controller (channel number value : ℤ)
  | other (raw : ℕ)
  deriving DecidableEq, Repr

/-- An entry of a `juce::MidiBuffer`: a message and its sample position in the block. -/
structure MidiEvent where
  message : MidiMessage
  samplePosition : ℤ
  deriving DecidableEq, Repr

/-- A `juce::MidiBuffer`: its events in buffer order. -/
abbrev MidiBuffer := List MidiEvent

/-- The library method `MidiBuffer::addEvent`: the event goes after every event whose
sample position is not later than its own. -/
def addEvent : MidiBuffer → MidiMessage → ℤ → MidiBuffer
  | [], msg, pos => [⟨msg, pos⟩]
  | ev :: rest, msg, pos =>
    if ev.samplePosition > pos then ⟨msg, pos⟩ :: ev :: rest
    else ev :: addEvent rest msg pos

/-- The three drum voices, as named by the last argument of `calculateVelocity`. -/
inductive Voice
  | bd
  | sd
  | hh
  deriving DecidableEq, Repr

/-- Destinations of the modulation matrix (`ModulationMatrix::Destination`). -/
inductive Destination
  | PATTERN_X
  | PATTERN_Y
  | CHAOS
  | SWING
  | PATTERN_RESET
  | BD_DENSITY
  | SD_DENSITY
  | HH_DENSITY
  | BD_VELOCITY
  | SD_VELOCITY
  | HH_VELOCITY
  | BD_MIDI_NOTE
  | SD_MIDI_NOTE
  | HH_MIDI_NOTE
  deriving DecidableEq, Repr

/-- The raw values of the parameter tree (`parameters.getRawParameterValue`). -/
structure Parameters where
  x : ℚ
  y : ℚ
  chaos : ℚ
  swing : ℚ
  midi_thru : ℚ
  live_mode : ℚ
  midi_channel : ℚ
  reset : ℚ
  reset_mode : ℚ
  density_1_bd : ℚ
  density_2_sd : ℚ
  density_3_hh : ℚ
  velocity_1_bd : ℚ
  velocity_2_sd : ℚ
  velocity_3_hh : ℚ
  note_1_bd : ℚ
  note_2_sd : ℚ
  note_3_hh : ℚ

/-- The default values of `createParameterLayout`. -/
def Parameters.defaults : Parameters where
  x := 1 / 2
  y := 1 / 2
  chaos := 0
  swing := 1 / 2
  midi_thru := 1
  live_mode := 0
  midi_channel := 1
  reset := 0
  reset_mode := 0
  density_1_bd := 1 / 2
  density_2_sd := 1 / 2
  density_3_hh := 1 / 2
  velocity_1_bd := 1 / 2
  velocity_2_sd := 1 / 2
  velocity_3_hh := 1 / 2
  note_1_bd := 36
  note_2_sd := 38
  note_3_hh := 42

/-- The transport snapshot `juce::AudioPlayHead::PositionInfo`, as far as it is read. -/
structure PositionInfo where
  ppqPosition : Option ℚ
  bpm : Option ℚ
  isPlaying : Bool
  isRecording : Bool

/-- Compile-time switches of the build. -/
structure Build where
  ENABLE_VELOCITY_SYSTEM : Bool
  ENABLE_MODULATION_MATRIX : Bool

/-- What one call of `processBlock` finds around it: the block length, the position the
playhead reports (`none` without playhead or position), and the outputs
`getModulation(dest)` of the modulation matrix on entry and after its per-block update. -/
structure BlockEnv where
  numSamples : ℕ
  position : Option PositionInfo
  modulationOnEntry : Destination → ℚ
  modulationUpdated : Destination → ℚ

/-- The data members of `GridsAudioProcessor`, with the parameter tree; `systemRandom`
stands for the draws that `juce::Random::getSystemRandom().nextFloat()` will produce, and
`resetCount` is instrumentation: the number of completed calls of `executeReset`. -/
structure Processor where
  parameters : Parameters
  gridsEngine : GridsEngine
  currentSampleRate : ℚ
  samplesPerClock : ℤ
  sampleCounter : ℤ
  lastPpqPosition : ℚ
  isPlaying : Bool
  lastResetValue : ℚ
  shouldRetrigger : Bool
  resetOccurred : Bool
  wasRetrigger : Bool
  resetArmed : Bool
  resetQuantize : QuantizeValue
  quantizePhase : ℚ
  bdNote : ℤ
  sdNote : ℤ
  hhNote : ℤ
  midiChannel : ℤ
  midiLearnActive : Bool
  resetMidiCC : ℤ
  lastCCValue : ℚ
  wasInCountIn : Bool
  currentPatternStep : ℤ
  ppqOffsetAtReset : ℚ
  hasResetOffset : Bool
  systemRandom : ℕ → ℚ
  resetCount : ℕ

namespace Processor

/-- The processor after construction: member initialisers of the header, default
parameters, and the engine set from them by the constructor. -/
def init (rng systemRandom : ℕ → ℚ) : Processor where
  parameters := Parameters.defaults
  gridsEngine :=
    ((((((GridsEngine.init rng).reset.setX Parameters.defaults.x).setY
      Parameters.defaults.y).setBDDensity Parameters.defaults.density_1_bd).setSDDensity
      Parameters.defaults.density_2_sd).setHHDensity Parameters.defaults.density_3_hh).setChaos
      Parameters.defaults.chaos |>.setSwing Parameters.defaults.swing
  currentSampleRate := 44100
  samplesPerClock := 0
  sampleCounter := 0
  lastPpqPosition := 0
  isPlaying := false
  lastResetValue := 0
  shouldRetrigger := false
  resetOccurred := false
  wasRetrigger := false
  resetArmed := false
  resetQuantize := QuantizeValue.QUANTIZE_OFF
  quantizePhase := 0
  bdNote := 36
  sdNote := 38
  hhNote := 42
  midiChannel := 1
  midiLearnActive := false
  resetMidiCC := -1
  lastCCValue := 0
  wasInCountIn := false
  currentPatternStep := 0
  ppqOffsetAtReset := 0
  hasResetOffset := false
  systemRandom := systemRandom
  resetCount := 0

/-- The method `prepareToPlay`. -/
def prepareToPlay (s : Processor) (sampleRate : ℚ) : Processor :=
  { s with
    currentSampleRate := sampleRate
    gridsEngine := s.gridsEngine.reset
    sampleCounter := 0 }

/-- Setter `setResetQuantize`. -/
def setResetQuantize (s : Processor) (value : QuantizeValue) : Processor :=
  { s with resetQuantize := value }

/-- The method `hasResetOccurred`: the flag is returned and cleared. -/
def hasResetOccurred (s : Processor) : Bool × Processor :=
  (s.resetOccurred, { s with resetOccurred := false })

/-- The method `notifyReset`. -/
def notifyReset (s : Processor) (isRetrigger : Bool) : Processor :=
  { s with resetOccurred := true, wasRetrigger := isRetrigger }

/-- The method `startMidiLearnForReset`. -/
def startMidiLearnForReset (s : Processor) : Processor := { s with midiLearnActive := true }

/-- The method `stopMidiLearn`. -/
def stopMidiLearn (s : Processor) : Processor := { s with midiLearnActive := false }

/-- Setter `setResetMidiCC`. -/
def setResetMidiCC (s : Processor) (cc : ℤ) : Processor := { s with resetMidiCC := cc }

/-- The method `ModulationMatrix::applyModulation`, on the matrix output `modulation`. -/
def applyModulation (modulation baseValue : ℚ) : ℚ := jlimit 0 1 (baseValue + modulation)

/-- The method `updateTiming`. -/
def updateTiming (s : Processor) (posInfo : PositionInfo) : Processor :=
  match posInfo.bpm with
  | some bpm =>
    if bpm > 0 then
      let beatsPerSecond := bpm / 60
      let sixteenthsPerSecond := beatsPerSecond * 4
      let samplesPerSixteenth := s.currentSampleRate / sixteenthsPerSecond
      { s with samplesPerClock := truncQ samplesPerSixteenth }
    else s
  | none => s

/-- The method `addMidiNote`; the velocity is passed through `(juce::uint8)`. -/
def addMidiNote (s : Processor) (midiMessages : MidiBuffer) (sampleOffset noteNumber : ℤ)
    (noteOn : Bool) (velocity : ℤ) : MidiBuffer :=
  let msg :=
    if noteOn then MidiMessage.noteOn s.midiChannel noteNumber (velocity % 256)
    else MidiMessage.noteOff s.midiChannel noteNumber
  addEvent midiMessages msg sampleOffset

/-- The velocity-system branch of `calculateVelocity`; a draw of the system random
generator is consumed when the chaos variation is computed. -/
def calculateVelocitySystem (b : Build) (modulation : Destination → ℚ) (s : Processor)
    (isBD isAccent : Bool) (voice : Voice) : ℤ × Processor :=
  let velocityRange0 : ℚ :=
    match voice with
    | Voice.bd => s.parameters.velocity_1_bd
    | Voice.sd => s.parameters.velocity_2_sd
    | Voice.hh => s.parameters.velocity_3_hh
  let velocityModulation : ℚ :=
    match voice with
    | Voice.bd => modulation Destination.BD_VELOCITY
    | Voice.sd => modulation Destination.SD_VELOCITY
    | Voice.hh => modulation Destination.HH_VELOCITY
  let velocityRange : ℚ :=
    if b.ENABLE_MODULATION_MATRIX then jlimit 0 1 (velocityRange0 + velocityModulation)
    else velocityRange0
  let minVel : ℤ := truncQ (80 - velocityRange * 40)
  let maxVel : ℤ := truncQ (100 + velocityRange * 27)
  let normalVel : ℤ := (minVel + maxVel).tdiv 2
  if isAccent then (maxVel, s)
  else
    let chaos := s.parameters.chaos
    let r : ℤ × Processor :=
      if chaos > 0 then
        let range : ℤ := maxVel - minVel
        let variation : ℤ :=
          truncQ ((s.systemRandom 0 - 1 / 2) * (range : ℚ) * chaos * (3 / 10))
        (jlimit minVel maxVel (normalVel + variation),
          { s with systemRandom := fun n => s.systemRandom (n + 1) })
      else (normalVel, s)
    if isBD then (jmin 127 (r.1 + 10), r.2) else r

/-- The fallback branch of `calculateVelocity`: fixed velocities. -/
def calculateVelocityFixed (isBD isAccent : Bool) (voice : Voice) : ℤ :=
  if isBD then (if isAccent then 127 else 100)
  else if voice = Voice.sd then (if isAccent then 127 else 90)
  else (if isAccent then 127 else 80)

/-- The method `calculateVelocity` under the build switch `ENABLE_VELOCITY_SYSTEM`. -/
def calculateVelocity (b : Build) (modulation : Destination → ℚ) (s : Processor)
    (isBD isAccent : Bool) (voice : Voice) : ℤ × Processor :=
  if b.ENABLE_VELOCITY_SYSTEM then calculateVelocitySystem b modulation s isBD isAccent voice
  else (calculateVelocityFixed isBD isAccent voice, s)

/-- The quantum in PPQ beats that `isQuantizePoint` selects; `QUANTIZE_OFF` has none. -/
def quantumOf : QuantizeValue → Option ℚ
  | QuantizeValue.QUANTIZE_OFF => none
  | QuantizeValue.QUANTIZE_2_BAR => some 8
  | QuantizeValue.QUANTIZE_1_BAR => some 4
  | QuantizeValue.QUANTIZE_1_2 => some 2
  | QuantizeValue.QUANTIZE_1_4 => some 1
  | QuantizeValue.QUANTIZE_1_8 => some (1 / 2)
  | QuantizeValue.QUANTIZE_1_16 => some (1 / 4)
  | QuantizeValue.QUANTIZE_1_32 => some (1 / 8)
  | QuantizeValue.QUANTIZE_1_4T => some (2 / 3)
  | QuantizeValue.QUANTIZE_1_8T => some (1 / 3)
  | QuantizeValue.QUANTIZE_1_16T => some ((1 / 2) / 3)

/-- The method `isQuantizePoint`; it stores the position in `quantizePhase`. -/
def isQuantizePoint (s : Processor) (posInfo : PositionInfo) (quantize : QuantizeValue) :
    Bool × Processor :=
  if quantize = QuantizeValue.QUANTIZE_OFF then (true, s)
  else
    match posInfo.ppqPosition with
    | none => (false, s)
    | some ppqPos =>
      match quantumOf quantize with
      | none => (false, s)
      | some quantum =>
        let remainder := fmodQ ppqPos quantum
        let prevRemainder := fmodQ (ppqPos - s.quantizePhase) quantum
        (decide (prevRemainder > remainder) || decide (remainder < 1 / 100),
          { s with quantizePhase := ppqPos })

/-- The method `executeReset`; `position` is what the playhead reports. -/
def executeReset (position : Option PositionInfo) (s : Processor) : Processor :=
  let s1 := { s with
    gridsEngine := s.gridsEngine.reset
    sampleCounter := 0
    currentPatternStep := 0 }
  let s2 :=
    match position with
    | some pos =>
      match pos.ppqPosition with
      | some p => { s1 with ppqOffsetAtReset := p, hasResetOffset := true }
      | none => s1
    | none => s1
  let resetMode : ℤ := truncQ s2.parameters.reset_mode
  let isRetrigger : Bool := decide (resetMode = 1)
  let s3 := if isRetrigger then { s2 with shouldRetrigger := true } else s2
  let s4 := notifyReset s3 isRetrigger
  { s4 with resetCount := s4.resetCount + 1 }

/-- The loop `while (ppqForStep < 0) ppqForStep += 8.0` of the step mapping. -/
def wrapForward (p : ℚ) : ℚ :=
  if p < 0 then wrapForward (p + 8) else p
termination_by (⌈-p / 8⌉).toNat
decreasing_by
  have h1 : ⌈-(p + 8) / 8⌉ = ⌈-p / 8⌉ - 1 := by
    rw [show -(p + 8) / 8 = -p / 8 - 1 by ring]
    exact Int.ceil_sub_one _
  have h2 : 0 < ⌈-p / 8⌉ := Int.ceil_pos.mpr (by linarith)
  rw [h1]
  omega

/-- The swing adjustment of the PPQ loop: `adjustedPpq` for a sample at `samplePpq`. -/
def swingAdjust (swingValue samplePpq : ℚ) : ℚ :=
  if swingValue ≠ 1 / 2 then
    let beatPosition := fmodQ samplePpq 1
    let swingOffset := (swingValue - 1 / 2) * (1 / 10)
    if (beatPosition > 1 / 5 ∧ beatPosition < 3 / 10) ∨
        (beatPosition > 7 / 10 ∧ beatPosition < 4 / 5) then samplePpq + swingOffset
    else samplePpq
  else samplePpq

/-- The step mapping of the PPQ loop: `targetStep` for an adjusted PPQ. -/
def stepForPpq (hasResetOffset : Bool) (ppqOffsetAtReset adjustedPpq : ℚ) : ℤ :=
  let ppqForStep :=
    if hasResetOffset then wrapForward (adjustedPpq - ppqOffsetAtReset) else adjustedPpq
  let targetStep := (truncQ (ppqForStep * 4)).tmod 32
  if targetStep < 0 then 0 else targetStep

/-- The loop over the incoming MIDI at the top of `processBlock` (MIDI learn and the
controller that drives the reset parameter). -/
def handleIncoming (s : Processor) : MidiBuffer → Processor
  | [] => s
  | ev :: rest =>
    let s1 :=
      match ev.message with
      | MidiMessage.controller _ cc v =>
        let value : ℚ := (v : ℚ) / 127
        if s.midiLearnActive then { s with resetMidiCC := cc, midiLearnActive := false }
        else if cc = s.resetMidiCC ∧ s.resetMidiCC ≥ 0 then
          { s with parameters := { s.parameters with reset := value } }
        else s
      | _ => s
    handleIncoming s1 rest

/-- The value `currentResetValue` that the reset check of a block observes. -/
def observedResetValue (b : Build) (env : BlockEnv) (s : Processor) : ℚ :=
  if b.ENABLE_MODULATION_MATRIX ∧ env.modulationOnEntry Destination.PATTERN_RESET > 0 then
    max s.parameters.reset (env.modulationOnEntry Destination.PATTERN_RESET)
  else s.parameters.reset

/-- First statement of the reset section: on a rising edge of the reset value through
0.5 the reset is armed when a quantization is set and executed at once when it is off. -/
def edgeStage (b : Build) (env : BlockEnv) (s : Processor) : Processor :=
  if s.lastResetValue < 1 / 2 ∧ observedResetValue b env s ≥ 1 / 2 then
    if s.resetQuantize ≠ QuantizeValue.QUANTIZE_OFF then { s with resetArmed := true }
    else executeReset env.position s
  else s

/-- Second statement of the reset section: an armed reset is executed at a quantize
point; `isQuantizePoint` is only called while a reset is armed. -/
def armedStage (env : BlockEnv) (pos : PositionInfo) (s : Processor) : Processor :=
  if s.resetArmed then
    let r := isQuantizePoint s pos s.resetQuantize
    if r.1 then { executeReset env.position r.2 with resetArmed := false } else r.2
  else s

/-- The reset section of `processBlock`: edge detection and arming, quantized firing, the
edge memory and the automatic release of the reset parameter. -/
def resetStage (b : Build) (env : BlockEnv) (pos : PositionInfo) (s : Processor) : Processor :=
  let currentResetValue := observedResetValue b env s
  let s2 := armedStage env pos (edgeStage b env s)
  let s3 := { s2 with lastResetValue := currentResetValue }
  if currentResetValue > 1 / 2 then { s3 with parameters := { s3.parameters with reset := 0 } }
  else s3

/-- The section of `processBlock` that hands the parameter values, modulated when the
matrix is built in, to the engine and reads the MIDI settings. -/
def loadParameters (b : Build) (modulation : Destination → ℚ) (s : Processor) : Processor :=
  let p := s.parameters
  let value : Destination → ℚ → ℚ := fun dest raw =>
    if b.ENABLE_MODULATION_MATRIX then applyModulation (modulation dest) raw else raw
  let e :=
    ((((((s.gridsEngine.setX (value Destination.PATTERN_X p.x)).setY
      (value Destination.PATTERN_Y p.y)).setBDDensity
      (value Destination.BD_DENSITY p.density_1_bd)).setSDDensity
      (value Destination.SD_DENSITY p.density_2_sd)).setHHDensity
      (value Destination.HH_DENSITY p.density_3_hh)).setChaos
      (value Destination.CHAOS p.chaos)).setSwing (value Destination.SWING p.swing)
  let note : Destination → ℚ → ℤ := fun dest raw =>
    let n0 : ℤ := truncQ raw
    if b.ENABLE_MODULATION_MATRIX then truncQ (jlimit 0 127 ((n0 : ℚ) + modulation dest * 12))
    else n0
  { s with
    gridsEngine := e
    bdNote := note Destination.BD_MIDI_NOTE p.note_1_bd
    sdNote := note Destination.SD_MIDI_NOTE p.note_2_sd
    hhNote := note Destination.HH_MIDI_NOTE p.note_3_hh
    midiChannel := truncQ p.midi_channel }

/-- One `if (trigger) { velocity = calculateVelocity(..); addMidiNote(.., true, velocity); }`. -/
def noteOnIf (b : Build) (modulation : Destination → ℚ) (sample : ℤ) (trigger accent isBD : Bool)
    (voice : Voice) (noteNumber : ℤ) (st : Processor × MidiBuffer) : Processor × MidiBuffer :=
  if trigger then
    let r := calculateVelocity b modulation st.1 isBD accent voice
    (r.2, addMidiNote r.2 st.2 sample noteNumber true r.1)
  else st

/-- The three note-on statements that follow an evaluation of the pattern. -/
def emitNoteOns (b : Build) (modulation : Destination → ℚ) (sample : ℤ)
    (st : Processor × MidiBuffer) : Processor × MidiBuffer :=
  let e := st.1.gridsEngine
  let st1 := noteOnIf b modulation sample e.bdTrigger_ e.bdAccent_ true Voice.bd st.1.bdNote st
  let st2 := noteOnIf b modulation sample e.sdTrigger_ e.sdAccent_ false Voice.sd st.1.sdNote st1
  noteOnIf b modulation sample e.hhTrigger_ e.hhAccent_ false Voice.hh st.1.hhNote st2

/-- The three note-off statements for the voices that were triggering. -/
def emitNoteOffs (s : Processor) (midiMessages : MidiBuffer) (sample : ℤ)
    (prevBD prevSD prevHH : Bool) : MidiBuffer :=
  let m1 := if prevBD then addMidiNote s midiMessages sample s.bdNote false 0 else midiMessages
  let m2 := if prevSD then addMidiNote s m1 sample s.sdNote false 0 else m1
  if prevHH then addMidiNote s m2 sample s.hhNote false 0 else m2

/-- The retrigger section at the start of the buffer. -/
def retriggerStage (b : Build) (node_table : NodeTable) (modulation : Destination → ℚ)
    (st : Processor × MidiBuffer) : Processor × MidiBuffer :=
  if st.1.shouldRetrigger then
    let s1 := { st.1 with gridsEngine := st.1.gridsEngine.evaluateDrums node_table }
    let st2 := emitNoteOns b modulation 0 (s1, st.2)
    ({ st2.1 with shouldRetrigger := false }, st2.2)
  else st

/-- Body of the PPQ-synchronised sample loop, for one sample. -/
def ppqSample (b : Build) (node_table : NodeTable) (modulation : Destination → ℚ)
    (currentPpq ppqPerSample : ℚ) (justExitedCountIn : Bool)
    (st : Processor × MidiBuffer) (sample : ℕ) : Processor × MidiBuffer :=
  let s := st.1
  let samplePpq : ℚ := currentPpq + (sample : ℚ) * ppqPerSample
  let adjustedPpq := swingAdjust s.parameters.swing samplePpq
  let targetStep := stepForPpq s.hasResetOffset s.ppqOffsetAtReset adjustedPpq
  if targetStep ≠ s.currentPatternStep ∨ (justExitedCountIn ∧ targetStep = 0 ∧ sample = 0) then
    let prevBD := s.gridsEngine.bdTrigger_
    let prevSD := s.gridsEngine.sdTrigger_
    let prevHH := s.gridsEngine.hhTrigger_
    let e := (s.gridsEngine.setCurrentStep targetStep).evaluateDrums node_table
    let s1 := { s with gridsEngine := e, currentPatternStep := targetStep }
    let m1 := emitNoteOffs s1 st.2 sample prevBD prevSD prevHH
    emitNoteOns b modulation sample (s1, m1)
  else st

/-- Body of the sample-counting fallback loop, for one sample. -/
def fallbackSample (b : Build) (node_table : NodeTable) (modulation : Destination → ℚ)
    (st : Processor × MidiBuffer) (sample : ℕ) : Processor × MidiBuffer :=
  let s := st.1
  if s.samplesPerClock > 0 then
    let s0 := { s with sampleCounter := s.sampleCounter + 1 }
    if s0.sampleCounter ≥ s0.samplesPerClock then
      let prevBD := s0.gridsEngine.bdTrigger_
      let prevSD := s0.gridsEngine.sdTrigger_
      let prevHH := s0.gridsEngine.hhTrigger_
      let s1 := { s0 with
        sampleCounter := 0
        gridsEngine := s0.gridsEngine.tick node_table
        currentPatternStep := (s0.currentPatternStep + 1).tmod 32 }
      let m1 := emitNoteOffs s1 st.2 sample prevBD prevSD prevHH
      emitNoteOns b modulation sample (s1, m1)
    else (s0, st.2)
  else st

/-- The two sample loops of `processBlock`: PPQ-synchronised when position and tempo are
usable, sample counting otherwise. -/
def sampleLoops (b : Build) (node_table : NodeTable) (modulation : Destination → ℚ)
    (numSamples : ℕ) (pos : PositionInfo) (justExitedCountIn : Bool)
    (st : Processor × MidiBuffer) : Processor × MidiBuffer :=
  match pos.ppqPosition, pos.bpm with
  | some currentPpq, some bpm =>
    if bpm > 0 then
      let ppqPerSample := (bpm / 60) / st.1.currentSampleRate
      (List.range numSamples).foldl
        (ppqSample b node_table modulation currentPpq ppqPerSample justExitedCountIn) st
    else (List.range numSamples).foldl (fallbackSample b node_table modulation) st
  | _, _ => (List.range numSamples).foldl (fallbackSample b node_table modulation) st

/-- The outputs of the modulation matrix after the per-block update, which happens only
when the host reports a positive tempo. -/
def modulationInBlock (env : BlockEnv) (pos : PositionInfo) : Destination → ℚ :=
  match pos.bpm with
  | some bpm => if bpm > 0 then env.modulationUpdated else env.modulationOnEntry
  | none => env.modulationOnEntry

/-- The transport section of `processBlock`: the reset on transport start or loop (not
right after count-in), the playing flag, the last PPQ position and the timing. -/
def transportStage (pos : PositionInfo) (justExitedCountIn liveMode : Bool) (s : Processor) :
    Processor :=
  let rewound : Bool :=
    match pos.ppqPosition with
    | some p => decide (p < s.lastPpqPosition)
    | none => false
  let s1 :=
    if !justExitedCountIn && (!s.isPlaying || rewound) then
      { s with
        gridsEngine := s.gridsEngine.reset
        sampleCounter := 0
        currentPatternStep := 0
        hasResetOffset := false
        ppqOffsetAtReset := 0 }
    else s
  let s2 := { s1 with isPlaying := pos.isPlaying || pos.isRecording || liveMode }
  let s3 :=
    match pos.ppqPosition with
    | some p => { s2 with lastPpqPosition := p }
    | none => s2
  updateTiming s3 pos

/-- The part of `processBlock` after the check that MIDI is to be generated: the transport
section, MIDI thru, parameters, retrigger and the sample loops. -/
def runBlock (b : Build) (node_table : NodeTable) (env : BlockEnv) (pos : PositionInfo)
    (justExitedCountIn liveMode : Bool) (s : Processor) (midiMessages : MidiBuffer) :
    Processor × MidiBuffer :=
  let s4 := transportStage pos justExitedCountIn liveMode s
  let modulation := modulationInBlock env pos
  let midiThru : Bool := decide (s4.parameters.midi_thru > 1 / 2)
  let midi1 : MidiBuffer := if !midiThru then [] else midiMessages
  let s5 := loadParameters b modulation s4
  let st6 := retriggerStage b node_table modulation (s5, midi1)
  sampleLoops b node_table modulation env.numSamples pos justExitedCountIn st6

/-- The test `inCountIn` of `processBlock`: the host PPQ position is negative. -/
def inCountInOf (pos : PositionInfo) : Bool :=
  match pos.ppqPosition with
  | some p => decide (p < 0)
  | none => false

/-- The count-in branch of `processBlock` (no MIDI is generated): on entering count-in the
engine and the sample counter are reset. -/
def countInHold (s : Processor) (inCountIn : Bool) : Processor :=
  let s1 :=
    if s.wasInCountIn ≠ inCountIn then
      { s with gridsEngine := s.gridsEngine.reset, sampleCounter := 0 }
    else s
  { s1 with wasInCountIn := true }

/-- The check for the transition out of count-in: the pattern is reset to its start. -/
def countInExit (s : Processor) (inCountIn : Bool) : Processor :=
  let justExitedCountIn : Bool := s.wasInCountIn && !inCountIn
  let s1 :=
    if justExitedCountIn then
      { s with
        gridsEngine := s.gridsEngine.reset
        sampleCounter := 0
        currentPatternStep := 0 }
    else s
  { s1 with wasInCountIn := inCountIn }

/-- The method `processBlock`: the processor and the MIDI buffer after the call. -/
def processBlock (b : Build) (node_table : NodeTable) (env : BlockEnv) (s : Processor)
    (midiMessages : MidiBuffer) : Processor × MidiBuffer :=
  let s0 := handleIncoming s midiMessages
  match env.position with
  | none => (s0, midiMessages)
  | some pos =>
    let inCountIn : Bool := inCountInOf pos
    let liveMode : Bool := decide (s0.parameters.live_mode > 1 / 2)
    if inCountIn && !liveMode then (countInHold s0 inCountIn, midiMessages)
    else
      let justExitedCountIn : Bool := s0.wasInCountIn && !inCountIn
      let s3 := resetStage b env pos (countInExit s0 inCountIn)
      if !pos.isPlaying && !pos.isRecording && !liveMode then
        ({ s3 with isPlaying := false }, midiMessages)
      else runBlock b node_table env pos justExitedCountIn liveMode s3 midiMessages

/-- Whether a call of `processBlock` reaches the reset check: the playhead reports a
position and the block is not suppressed as count-in. -/
def reachesResetCheck (env : BlockEnv) (s : Processor) (midiMessages : MidiBuffer) : Bool :=
  match env.position with
  | none => false
  | some pos =>
    !(inCountInOf pos && !decide ((handleIncoming s midiMessages).parameters.live_mode > 1 / 2))

/-- What can happen to the processor between and in audio callbacks. -/
inductive Action
  | block (env : BlockEnv) (midiMessages : MidiBuffer)
  | prepare (sampleRate : ℚ)
  | setParameters (p : Parameters)
  | setQuantize (value : QuantizeValue)
  | pollReset
  | startMidiLearn
  | stopLearn
  | setMidiCC (cc : ℤ)

/-- The processor after an action. -/
def step (b : Build) (node_table : NodeTable) (s : Processor) : Action → Processor
  | Action.block env midiMessages => (processBlock b node_table env s midiMessages).1
  | Action.prepare sampleRate => prepareToPlay s sampleRate
  | Action.setParameters p => { s with parameters := p }
  | Action.setQuantize value => setResetQuantize s value
  | Action.pollReset => (hasResetOccurred s).2
  | Action.startMidiLearn => startMidiLearnForReset s
  | Action.stopLearn => stopMidiLearn s
  | Action.setMidiCC cc => setResetMidiCC s cc

/-- The processor after a sequence of actions. -/
def run (b : Build) (node_table : NodeTable) (s : Processor) (actions : List Action) :
    Processor :=
  actions.foldl (step b node_table) s

/-- The MIDI events that `processBlock` leaves in the buffer, block after block, over a
sequence of actions. -/
def sessionOutput (b : Build) (node_table : NodeTable) :
    Processor → List Action → List MidiEvent
  | _, [] => []
  | s, Action.block env midiMessages :: rest =>
    let r := processBlock b node_table env s midiMessages
    r.2 ++ sessionOutput b node_table r.1 rest
  | s, a :: rest => sessionOutput b node_table (step b node_table s a) rest

/-- Whether a stream of events keeps the note-ons and note-offs of note number `note`
paired, given whether a note-on is outstanding: no note-on while one is outstanding. -/
def pairedFrom (note : ℤ) : Bool → List MidiEvent → Bool
  | _, [] => true
  | outstanding, ev :: rest =>
    match ev.message with
    | MidiMessage.noteOn _ n _ =>
      if n = note then !outstanding && pairedFrom note true rest
      else pairedFrom note outstanding rest
    | MidiMessage.noteOff _ n =>
      if n = note then pairedFrom note false rest else pairedFrom note outstanding rest
    | _ => pairedFrom note outstanding rest

/-- Frame of the sample loops: `t` is `s` except for the engine, the pattern step, the
sample counter and the system random generator. -/
def LoopFrame (s t : Processor) : Prop :=
  ∃ e c k r, t = { s with
    gridsEngine := e, currentPatternStep := c, sampleCounter := k, systemRandom := r }

/-- Frame of `runBlock`: `t` is `s` except for the engine, the timing and transport
bookkeeping, the reset offset, the MIDI settings, the retrigger flag and the system random
generator; the parameters and the reset detection state are the same. -/
def RunFrame (s t : Processor) : Prop :=
  ∃ e k c h p pl lp spc bn sn hn mc sr r, t = { s with
    gridsEngine := e, sampleCounter := k, currentPatternStep := c, hasResetOffset := h,
    ppqOffsetAtReset := p, isPlaying := pl, lastPpqPosition := lp, samplesPerClock := spc,
    bdNote := bn, sdNote := sn, hhNote := hn, midiChannel := mc, shouldRetrigger := sr,
    systemRandom := r }

/-- The pattern step is a step of the 32-step pattern. -/
def StepInRange (s : Processor) : Prop :=
  0 ≤ s.currentPatternStep ∧ s.currentPatternStep < 32

end Processor

/-! ## Concrete inputs used in the examples below -/

namespace Example

/-- A node table whose every byte is 255. -/
def fullTable : NodeTable := fun _ _ => 255

/-- A node table with different bytes: byte `o` of node `n` is `10 * n + o` (in 8 bits). -/
def rampTable : NodeTable := fun n o => 10 * n + o

/-- The build with the velocity system and without the modulation matrix. -/
def build : Build := ⟨true, false⟩

/-- A one-sample block of a playing transport at 120 BPM and PPQ position `ppq`. -/
def playingAt (ppq : ℚ) : BlockEnv :=
  ⟨1, some ⟨some ppq, some 120, true, false⟩, fun _ => 0, fun _ => 0⟩

/-- A one-sample block of a stopped transport at 120 BPM and PPQ position `ppq`. -/
def stoppedAt (ppq : ℚ) : BlockEnv :=
  ⟨1, some ⟨some ppq, some 120, false, false⟩, fun _ => 0, fun _ => 0⟩

/-- The processor after construction and `prepareToPlay(48000, ..)`, all draws 0. -/
def start : Processor := (Processor.init (fun _ => 0) (fun _ => 0)).prepareToPlay 48000

/-- The default parameters with the reset control at `v`. -/
def resetAt (v : ℚ) : Parameters := { Parameters.defaults with reset := v }

/-- The processor `start` after a reset request under 1-bar quantization that is still
armed (the block at PPQ 1.5 is no quantize point) when the quantization is set to Off. -/
def armedThenOff : Processor :=
  Processor.run build fullTable start
    [Processor.Action.setQuantize QuantizeValue.QUANTIZE_1_BAR,
     Processor.Action.setParameters (resetAt 1),
     Processor.Action.block (stoppedAt (3 / 2)) [],
     Processor.Action.setQuantize QuantizeValue.QUANTIZE_OFF]

/-- The processor `start` with the reset control raised to 1. -/
def resetRaised : Processor := { start with parameters := resetAt 1 }

/-- An engine with bass-drum density 0, full chaos and every draw 0. -/
def silentBD : GridsEngine :=
  { GridsEngine.init (fun _ => 0) with bdDensity_ := 0, chaos_ := 1 }

end Example

/-! ## EuclideanEngine (Source/Grids/EuclideanEngine.h) -/

/-- The data members of `EuclideanEngine`: the arrays `step_[3]` and `length_[3]` of
`uint8_t`. -/
structure EuclideanEngine where
  step_ : Fin 3 → ℕ
  length_ : Fin 3 → ℕ

namespace EuclideanEngine

/-- The guard `instrument < 0 || instrument >= 3` of the accessors: the array index of a
valid voice, `none` for any other value. -/
def voiceIndex (instrument : ℤ) : Option (Fin 3) :=
  if h : 0 ≤ instrument ∧ instrument < 3 then some ⟨instrument.toNat, by omega⟩ else none

/-- The engine as declared in the header (member initialisers): steps 0, lengths 16, 12, 8. -/
def init : EuclideanEngine where
  step_ := ![0, 0, 0]
  length_ := ![16, 12, 8]

/-- The method `loadDefaults`; `bd`, `sd`, `hh` are what `settings.getInt` returns for the
three length keys (the stored value, or the default 16, 12, 8), cast to `uint8_t`. -/
def loadDefaults (e : EuclideanEngine) (bd sd hh : ℤ) : EuclideanEngine :=
  { e with length_ := ![(bd % 256).toNat, (sd % 256).toNat, (hh % 256).toNat] }

/-- The method `reset`. -/
def reset (e : EuclideanEngine) : EuclideanEngine := { e with step_ := ![0, 0, 0] }

/-- The method `tick`: every voice advances its own step and wraps at its own length. -/
def tick (e : EuclideanEngine) : EuclideanEngine :=
  { e with step_ := fun i =>
      let next := (e.step_ i + 1) % 256
      if next ≥ e.length_ i then 0 else next }

/-- The engine after `n` calls of `tick`. -/
def ticks : ℕ → EuclideanEngine → EuclideanEngine
  | 0, e => e
  | n + 1, e => ticks n (tick e)

/-- The method `shouldTrigger(instrument, density)`. -/
def shouldTrigger (e : EuclideanEngine) (instrument : ℤ) (density : ℚ) : Bool :=
  match voiceIndex instrument with
  | none => false
  | some i =>
    let hits : ℤ := truncQ (density * (e.length_ i : ℚ) + 1 / 2)
    let pattern := EuclideanTables.getPattern (e.length_ i) hits
    EuclideanTables.shouldTrigger pattern (e.step_ i)

/-- The method `setLength(instrument, length)`; `length` is a `uint8_t`. -/
def setLength (e : EuclideanEngine) (instrument : ℤ) (length : ℕ) : EuclideanEngine :=
  match voiceIndex instrument with
  | none => e
  | some i =>
    let newLength : ℕ := jlimit 1 32 (length % 256)
    let e1 := { e with length_ := Function.update e.length_ i newLength }
    if e1.step_ i ≥ e1.length_ i then { e1 with step_ := Function.update e1.step_ i 0 }
    else e1

/-- The method `getLength`. -/
def getLength (e : EuclideanEngine) (instrument : ℤ) : ℕ :=
  match voiceIndex instrument with
  | none => 16
  | some i => e.length_ i

/-- The method `getStep`. -/
def getStep (e : EuclideanEngine) (instrument : ℤ) : ℕ :=
  match voiceIndex instrument with
  | none => 0
  | some i => e.step_ i

/-- The method `getPattern(instrument, density)`. -/
def getPattern (e : EuclideanEngine) (instrument : ℤ) (density : ℚ) : ℕ :=
  match voiceIndex instrument with
  | none => 0
  | some i =>
    let hits : ℤ := truncQ (density * (e.length_ i : ℚ) + 1 / 2)
    EuclideanTables.getPattern (e.length_ i) hits

/-- The per-voice invariant of the Euclidean engine: every length is in [1,32] and every
step is below its length. -/
def Valid (e : EuclideanEngine) : Prop :=
  ∀ i : Fin 3, 1 ≤ e.length_ i ∧ e.length_ i ≤ 32 ∧ e.step_ i < e.length_ i

end EuclideanEngine

namespace Processor

end Processor

namespace Processor

/-- The processor at the retrigger section of a block that generates MIDI: after the
incoming MIDI, the count-in check, the reset section, the transport section and the
loading of the parameters. -/
def blockEntry (b : Build) (env : BlockEnv) (pos : PositionInfo) (s : Processor)
    (midiMessages : MidiBuffer) : Processor :=
  let s0 := handleIncoming s midiMessages
  loadParameters b (modulationInBlock env pos)
    (transportStage pos (s0.wasInCountIn && !inCountInOf pos)
      (decide (s0.parameters.live_mode > 1 / 2))
      (resetStage b env pos (countInExit s0 (inCountInOf pos))))

/-- The MIDI buffer at the retrigger section of a block that generates MIDI: emptied when
MIDI thru is disabled. -/
def bufferEntry (b : Build) (env : BlockEnv) (pos : PositionInfo) (s : Processor)
    (midiMessages : MidiBuffer) : MidiBuffer :=
  if !decide ((blockEntry b env pos s midiMessages).parameters.midi_thru > 1 / 2) then []
  else midiMessages

/-- The processor and the MIDI buffer at the entry of the sample loops of a block that
generates MIDI: after the retrigger section. -/
def loopEntry (b : Build) (node_table : NodeTable) (env : BlockEnv) (pos : PositionInfo)
    (s : Processor) (midiMessages : MidiBuffer) : Processor × MidiBuffer :=
  retriggerStage b node_table (modulationInBlock env pos)
    (blockEntry b env pos s midiMessages, bufferEntry b env pos s midiMessages)

/-- What the body of the PPQ loop does when it evaluates step `targetStep` at `sample`:
note-offs for the voices that were triggering, the evaluation, the note-ons. -/
def evaluatedAt (b : Build) (node_table : NodeTable) (modulation : Destination → ℚ)
    (targetStep : ℤ) (sample : ℕ) (st : Processor × MidiBuffer) : Processor × MidiBuffer :=
  emitNoteOns b modulation sample
    ({ st.1 with
        gridsEngine := (st.1.gridsEngine.setCurrentStep targetStep).evaluateDrums node_table
        currentPatternStep := targetStep },
      emitNoteOffs
        { st.1 with
          gridsEngine := (st.1.gridsEngine.setCurrentStep targetStep).evaluateDrums node_table
          currentPatternStep := targetStep }
        st.2 sample st.1.gridsEngine.bdTrigger_ st.1.gridsEngine.sdTrigger_
        st.1.gridsEngine.hhTrigger_)

end Processor

namespace Example

/-- A node table with intensity 255 for the bass drum at step 0 and 0 everywhere else. -/
def firstStepTable : NodeTable := fun _ o => if o = 0 then 255 else 0

/-- A block of 400 samples of a playing transport that reports 300 BPM and no PPQ
position: the sample-counting fallback, one tick every 400 samples at 8000 Hz. -/
def freeRunning : BlockEnv :=
  ⟨400, some ⟨none, some 300, true, false⟩, fun _ => 0, fun _ => 0⟩

/-- The processor after construction and `prepareToPlay(8000, ..)`, all draws 0. -/
def start8k : Processor := (Processor.init (fun _ => 0) (fun _ => 0)).prepareToPlay 8000

/-- The processor `start` with swing at 1, after a count-in block at PPQ -1. -/
def swungAfterCountIn : Processor :=
  Processor.run build firstStepTable start
    [Processor.Action.setParameters { Parameters.defaults with swing := 1 },
     Processor.Action.block (playingAt (-1)) []]

/-- The processor `start` after a reset request under 1-bar quantization, tested at PPQ
3.75 on a stopped transport and still armed. -/
def armedOneBar : Processor :=
  Processor.run build fullTable start
    [Processor.Action.setQuantize QuantizeValue.QUANTIZE_1_BAR,
     Processor.Action.setParameters (resetAt 1),
     Processor.Action.block (stoppedAt (15 / 4)) []]

/-- The processor `start` after one playing block at PPQ 7.75 (step 31). -/
def playedStep31 : Processor :=
  (Processor.processBlock build fullTable (playingAt (31 / 4)) start []).1

/-- The processor `start` with MIDI thru disabled. -/
def thruOff : Processor :=
  { start with parameters := { Parameters.defaults with midi_thru := 0 } }

/-- An incoming note-on of note 60 at sample 0. -/
def incomingNote : MidiEvent := ⟨MidiMessage.noteOn 1 60 100, 0⟩

end Example

namespace EuclideanTables

/-- Checker: the pattern computed for `h` hits on `n` slots has no hit on slot 0 and a
hit on its last slot `n - 1`. -/
def endsOk (n h : ℕ) : Bool :=
  !(computeEuclideanPattern h n).testBit 0 && (computeEuclideanPattern h n).testBit (n - 1)

/-- Checker `endsOk` over the whole table: every `0 < h < n ≤ 32`. -/
def allEndsOk : Bool :=
  (List.range 33).all fun n => (List.range 33).all fun h =>
    decide (h = 0 ∨ n ≤ h) || endsOk n h

end EuclideanTables

namespace GridsEngine

/-- The bilinear interpolation of `readDrumMap` before the conversion to `uint8_t`: the
value `result` computed from the cell with corner `(x0, y0)`, neighbour indices
`(x1, y1)`, interpolation factors `fx, fy` and the pattern offset. -/
def interpolate (node_table : NodeTable) (x0 y0 x1 y1 : ℤ) (fx fy : ℚ) (offset : ℤ) : ℚ :=
  let node00 := y0 * 5 + x0
  let node01 := y0 * 5 + x1
  let node10 := y1 * 5 + x0
  let node11 := y1 * 5 + x1
  let v00 : ℚ := readNode node_table node00 offset
  let v01 : ℚ := readNode node_table node01 offset
  let v10 : ℚ := readNode node_table node10 offset
  let v11 : ℚ := readNode node_table node11 offset
  let v0 := v00 * (1 - fx) + v01 * fx
  let v1 := v10 * (1 - fx) + v11 * fx
  v0 * (1 - fy) + v1 * fy

end GridsEngine

namespace Example

end Example

namespace Example

/-- A block of `n` samples of a playing transport at 300 BPM and PPQ position `ppq`; at
8000 Hz one sixteenth lasts 400 samples. -/
def playing8k (n : ℕ) (ppq : ℚ) : BlockEnv :=
  ⟨n, some ⟨some ppq, some 300, true, false⟩, fun _ => 0, fun _ => 0⟩

/-- The processor `start` after a count-in block at PPQ -1. -/
def afterCountIn : Processor :=
  (Processor.processBlock build fullTable (playingAt (-1)) start []).1

end Example

namespace Example

/-- The processor `start` with swing at 0, after a playing block at PPQ 0, with the reset
control then raised to 1 (quantization Off, mode Transparent). -/
def earlySwingReset : Processor :=
  Processor.run build fullTable start
    [Processor.Action.setParameters { Parameters.defaults with swing := 0 },
     Processor.Action.block (playingAt 0) [],
     Processor.Action.setParameters { Parameters.defaults with swing := 0, reset := 1 }]

end Example

namespace Processor

/-- The pattern position right after a reset executed at host PPQ `p`: the reset offset is
active and equal to `p`, and the pattern step, the engine step and the sample counter
are 0. -/
def ResetAt (p : ℚ) (t : Processor) : Prop :=
  t.hasResetOffset = true ∧ t.ppqOffsetAtReset = p ∧ t.currentPatternStep = 0 ∧
  t.gridsEngine.currentStep_ = 0 ∧ t.sampleCounter = 0

/-- The fields that locate the pattern (reset offset, pattern step, engine, sample counter)
are the same in `s` and `t`. -/
def SamePattern (s t : Processor) : Prop :=
  t.hasResetOffset = s.hasResetOffset ∧ t.ppqOffsetAtReset = s.ppqOffsetAtReset ∧
  t.currentPatternStep = s.currentPatternStep ∧ t.gridsEngine = s.gridsEngine ∧
  t.sampleCounter = s.sampleCounter

/-- The parameters and the transport bookkeeping are the same in `s` and `t`. -/
def SameTransport (s t : Processor) : Prop :=
  t.parameters = s.parameters ∧ t.isPlaying = s.isPlaying ∧
  t.lastPpqPosition = s.lastPpqPosition ∧ t.wasInCountIn = s.wasInCountIn ∧
  t.currentSampleRate = s.currentSampleRate ∧ t.samplesPerClock = s.samplesPerClock

end Processor

namespace Processor

end Processor

namespace Example

end Example

namespace Processor

end Processor

/-! ## Theorems -/

theorem truncQ_of_nonneg {q : ℚ} (h : 0 ≤ q) : truncQ q = ⌊q⌋ := by
  unfold truncQ
  rw [if_pos h]

theorem truncQ_le_of_le {q : ℚ} {n : ℤ} (h0 : 0 ≤ q) (h : q ≤ n) : truncQ q ≤ n := by
  rw [truncQ_of_nonneg h0]
  exact Int.floor_le_iff.mpr (by
    have : (n : ℚ) < (n : ℚ) + 1 := by linarith
    linarith)

theorem le_truncQ_of_le {q : ℚ} {n : ℤ} (h0 : 0 ≤ q) (h : (n : ℚ) ≤ q) : n ≤ truncQ q := by
  rw [truncQ_of_nonneg h0]
  exact Int.le_floor.mpr h

theorem jlimit_le {lo hi v : ℤ} (h : lo ≤ hi) : jlimit lo hi v ≤ hi := by
  unfold jlimit
  split_ifs <;> omega

theorem le_jlimit {lo hi v : ℤ} (h : lo ≤ hi) : lo ≤ jlimit lo hi v := by
  unfold jlimit
  split_ifs <;> omega

theorem jlimitQ_mem {lo hi v : ℚ} (h : lo ≤ hi) : lo ≤ jlimit lo hi v ∧ jlimit lo hi v ≤ hi := by
  unfold jlimit
  split_ifs with h1 h2
  · exact ⟨le_refl _, h⟩
  · exact ⟨h, le_refl _⟩
  · exact ⟨not_lt.mp h1, not_lt.mp h2⟩

namespace EuclideanTables

set_option maxRecDepth 100000 in
theorem allGapsOk_true : allGapsOk = true := by decide!

set_option maxRecDepth 100000 in
theorem allCountOk_true : allCountOk = true := by decide!

set_option maxRecDepth 100000 in
theorem allFullOk_true : allFullOk = true := by decide!

theorem gapsOk_of_range {n h : ℕ} (hn : 1 ≤ n) (hn32 : n ≤ 32) (hh : 1 ≤ h) (hhn : h ≤ n) :
    gapsOk n h = true := by
  have key := allGapsOk_true
  unfold allGapsOk at key
  rw [List.all_eq_true] at key
  have k1 := key n (List.mem_range.mpr (by omega))
  rw [List.all_eq_true] at k1
  have k2 := k1 h (List.mem_range.mpr (by omega))
  rw [Bool.or_eq_true, decide_eq_true_eq] at k2
  rcases k2 with k2 | k2
  · omega
  · exact k2

theorem countOk_of_range {n h : ℕ} (hn : 1 ≤ n) (hn32 : n ≤ 32) (hhn : h < n) :
    countOk n h = true := by
  have key := allCountOk_true
  unfold allCountOk at key
  rw [List.all_eq_true] at key
  have k1 := key n (List.mem_range.mpr (by omega))
  rw [List.all_eq_true] at k1
  have k2 := k1 h (List.mem_range.mpr (by omega))
  rw [Bool.or_eq_true, decide_eq_true_eq] at k2
  rcases k2 with k2 | k2
  · omega
  · exact k2

theorem fullOk_of_range {n : ℕ} (hn32 : n ≤ 32) :
    (hitSlots n 0xFFFFFFFF).length = n := by
  have key := allFullOk_true
  unfold allFullOk at key
  rw [List.all_eq_true] at key
  have k1 := key n (List.mem_range.mpr (by omega))
  exact of_decide_eq_true k1

theorem getPattern_full (length hits : ℤ) (h1 : 1 ≤ length) (h32 : length ≤ 32)
    (hh : length ≤ hits) : getPattern length hits = 0xFFFFFFFF := by
  unfold getPattern
  rw [if_neg (by omega), if_neg (by omega)]
  by_cases hgt : hits > length
  · rw [if_pos hgt]
  · rw [if_neg hgt]
    have heq : hits = length := by omega
    subst heq
    unfold patterns_ computeEuclideanPattern
    rw [if_pos]
    have : ((hits - 1).toNat : ℤ) = hits - 1 := Int.toNat_of_nonneg (by omega)
    have h2 : ((hits.toNat : ℕ) : ℤ) = hits := Int.toNat_of_nonneg (by omega)
    omega

/-- C3 (counterexample): for length 16 and 16 hits the 32-bit pattern has 32 set bits,
not `min 16 16 = 16`. -/
theorem euclid_popcount_counterexample :
    ¬ (popCount32 (getPattern 16 16) = min 16 16) := by decide

/-- C3 (amended): for every length in [1,32] and hits ≥ 0, the pattern has exactly
`min hits length` hits among its slots `0 .. length-1`; below `length` hits these are all
the set bits of the 32-bit word (exactly `hits`, none for `hits = 0`), and from `length`
hits on the word is `0xFFFFFFFF`, with all 32 bits set. -/
theorem euclid_popcount_amended (length hits : ℤ) (h1 : 1 ≤ length) (h32 : length ≤ 32)
    (hh : 0 ≤ hits) :
    (hitSlots length.toNat (getPattern length hits)).length = min hits.toNat length.toNat ∧
    (hits < length → popCount32 (getPattern length hits) = hits.toNat) ∧
    (hits = 0 → popCount32 (getPattern length hits) = 0) ∧
    (length ≤ hits → getPattern length hits = 0xFFFFFFFF ∧
      popCount32 (getPattern length hits) = 32) := by
  obtain ⟨n, rfl⟩ := Int.eq_ofNat_of_zero_le (by omega : 0 ≤ length)
  obtain ⟨h, rfl⟩ := Int.eq_ofNat_of_zero_le hh
  simp only [Int.toNat_ofNat]
  have hn1 : 1 ≤ n := by omega
  have hn32 : n ≤ 32 := by omega
  have hlt : ∀ (_ : h < n), popCount32 (getPattern n h) = h ∧
      (hitSlots n (getPattern n h)).length = h := by
    intro hlt
    have k := countOk_of_range hn1 hn32 hlt
    unfold countOk at k
    rw [Bool.and_eq_true, decide_eq_true_eq, decide_eq_true_eq] at k
    exact k
  have hfull : ∀ (_ : n ≤ h), getPattern n h = 0xFFFFFFFF :=
    fun hle => getPattern_full n h h1 h32 (by omega)
  refine ⟨?_, ?_, ?_, ?_⟩
  · by_cases hc : h < n
    · rw [(hlt hc).2]; omega
    · rw [hfull (by omega), fullOk_of_range hn32]; omega
  · intro hc
    exact (hlt (by omega)).1
  · intro hc
    have h0 : h = 0 := by omega
    subst h0
    exact (hlt (by omega)).1
  · intro hc
    have := hfull (by omega)
    refine ⟨this, ?_⟩
    rw [this]
    decide

/-- Witness for C3 (amended): length 16 with 8 hits gives 8 set bits, all in the first
16 slots. -/
theorem euclid_popcount_amended_witness :
    (1 : ℤ) ≤ 16 ∧ (16 : ℤ) ≤ 32 ∧ (0 : ℤ) ≤ 8 ∧
    (hitSlots (16 : ℤ).toNat (getPattern 16 8)).length = min (8 : ℤ).toNat (16 : ℤ).toNat ∧
    popCount32 (getPattern 16 8) = (8 : ℤ).toNat :=
  ⟨by decide, by decide, by decide,
    (euclid_popcount_amended 16 8 (by decide) (by decide) (by decide)).1,
    (euclid_popcount_amended 16 8 (by decide) (by decide) (by decide)).2.1 (by decide)⟩

/-- C4: for every length in [1,32] and hits in [1,length], the hits of the pattern are
spread evenly over the cycle of `length` slots: there is one cyclic gap per hit and each
gap is `floor (length / hits)` or `ceil (length / hits)`. -/
theorem euclid_gaps_even (length hits : ℤ) (h1 : 1 ≤ length) (h32 : length ≤ 32)
    (hh1 : 1 ≤ hits) (hhl : hits ≤ length) :
    (cyclicGaps length.toNat (hitSlots length.toNat (getPattern length hits))).length
      = hits.toNat ∧
    ∀ g ∈ cyclicGaps length.toNat (hitSlots length.toNat (getPattern length hits)),
      g = length.toNat / hits.toNat ∨ g = (length.toNat + hits.toNat - 1) / hits.toNat := by
  obtain ⟨n, rfl⟩ := Int.eq_ofNat_of_zero_le (by omega : 0 ≤ length)
  obtain ⟨h, rfl⟩ := Int.eq_ofNat_of_zero_le (by omega : 0 ≤ hits)
  simp only [Int.toNat_ofNat]
  have k := gapsOk_of_range (by omega : 1 ≤ n) (by omega : n ≤ 32) (by omega : 1 ≤ h)
    (by omega : h ≤ n)
  unfold gapsOk at k
  simp only [Bool.and_eq_true, decide_eq_true_eq, List.all_eq_true] at k
  exact k

/-- Witness for C4: length 16 with 8 hits has 8 gaps and the gap 2 is `16 / 8`. -/
theorem euclid_gaps_even_witness :
    (1 : ℤ) ≤ 16 ∧ (16 : ℤ) ≤ 32 ∧ (1 : ℤ) ≤ 8 ∧ (8 : ℤ) ≤ 16 ∧
    (cyclicGaps (16 : ℤ).toNat (hitSlots (16 : ℤ).toNat (getPattern 16 8))).length
      = (8 : ℤ).toNat ∧
    (2 = (16 : ℤ).toNat / (8 : ℤ).toNat ∨
      2 = ((16 : ℤ).toNat + (8 : ℤ).toNat - 1) / (8 : ℤ).toNat) :=
  ⟨by decide, by decide, by decide, by decide,
    (euclid_gaps_even 16 8 (by decide) (by decide) (by decide) (by decide)).1,
    (euclid_gaps_even 16 8 (by decide) (by decide) (by decide) (by decide)).2 2 (by decide)⟩

end EuclideanTables

namespace GridsEngine

theorem applyDensity_zero (value : ℕ) : applyDensity value 0 = false := by
  unfold applyDensity
  rw [if_pos (le_refl _)]

theorem chaosIfDense_zero (e : GridsEngine) (trigger : Bool) :
    chaosIfDense e 0 trigger = (trigger, e) := by
  unfold chaosIfDense
  rw [if_neg (lt_irrefl _)]

/-- C2: after `evaluateDrums`, at every pattern position, step, node table, chaos amount
and for all random draws, a voice whose density is exactly 0 has no trigger and no
accent. -/
theorem evaluateDrums_density_zero (node_table : NodeTable) (e : GridsEngine) :
    (e.bdDensity_ = 0 → (evaluateDrums node_table e).bdTrigger_ = false ∧
      (evaluateDrums node_table e).bdAccent_ = false) ∧
    (e.sdDensity_ = 0 → (evaluateDrums node_table e).sdTrigger_ = false ∧
      (evaluateDrums node_table e).sdAccent_ = false) ∧
    (e.hhDensity_ = 0 → (evaluateDrums node_table e).hhTrigger_ = false ∧
      (evaluateDrums node_table e).hhAccent_ = false) := by
  refine ⟨?_, ?_, ?_⟩
  · intro h
    simp only [evaluateDrums, h, applyDensity_zero, chaosIfDense_zero, ite_self,
      Bool.and_false, and_self]
  · intro h
    simp only [evaluateDrums, h, applyDensity_zero, chaosIfDense_zero, ite_self,
      Bool.and_false, and_self]
  · intro h
    simp only [evaluateDrums, h, applyDensity_zero, chaosIfDense_zero, ite_self,
      Bool.and_false, and_self]

/-- Witness for C2: bass-drum density 0 under full chaos, on a
table of full intensity. -/
theorem evaluateDrums_density_zero_witness :
    Example.silentBD.bdDensity_ = 0 ∧
    (evaluateDrums Example.fullTable Example.silentBD).bdTrigger_ = false ∧
    (evaluateDrums Example.fullTable Example.silentBD).bdAccent_ = false :=
  ⟨rfl, (evaluateDrums_density_zero Example.fullTable Example.silentBD).1 rfl⟩

end GridsEngine

namespace GridsEngine

end GridsEngine

namespace Processor

theorem velocity_bounds_of_range {velocityRange : ℚ} (h0 : 0 ≤ velocityRange)
    (h1 : velocityRange ≤ 1) :
    40 ≤ truncQ (80 - velocityRange * 40) ∧ truncQ (80 - velocityRange * 40) ≤ 80 ∧
    100 ≤ truncQ (100 + velocityRange * 27) ∧ truncQ (100 + velocityRange * 27) ≤ 127 := by
  have a0 : (0 : ℚ) ≤ 80 - velocityRange * 40 := by linarith
  have b0 : (0 : ℚ) ≤ 100 + velocityRange * 27 := by linarith
  refine ⟨le_truncQ_of_le a0 ?_, truncQ_le_of_le a0 ?_, le_truncQ_of_le b0 ?_,
    truncQ_le_of_le b0 ?_⟩
  · push_cast; linarith
  · push_cast; linarith
  · push_cast; linarith
  · push_cast; linarith

theorem velocity_of_bounds (isBD isAccent : Bool) (chaos draw : ℚ) (minVel maxVel : ℤ)
    (ha : 40 ≤ minVel) (hb : minVel ≤ 80) (hc : 100 ≤ maxVel) (hd : maxVel ≤ 127)
    (v : ℤ)
    (hv : v = if isAccent then maxVel else
      (if isBD then jmin 127
          ((if chaos > 0 then jlimit minVel maxVel ((minVel + maxVel).tdiv 2 +
              truncQ ((draw - 1 / 2) * ((maxVel - minVel : ℤ) : ℚ) * chaos * (3 / 10)))
            else (minVel + maxVel).tdiv 2) + 10)
        else (if chaos > 0 then jlimit minVel maxVel ((minVel + maxVel).tdiv 2 +
              truncQ ((draw - 1 / 2) * ((maxVel - minVel : ℤ) : ℚ) * chaos * (3 / 10)))
            else (minVel + maxVel).tdiv 2))) :
    0 ≤ v ∧ v ≤ 127 := by
  have hdiv : (minVel + maxVel).tdiv 2 = (minVel + maxVel) / 2 :=
    Int.tdiv_eq_ediv (by omega) (by decide)
  have hl := @jlimit_le minVel maxVel ((minVel + maxVel).tdiv 2 +
    truncQ ((draw - 1 / 2) * ((maxVel - minVel : ℤ) : ℚ) * chaos * (3 / 10))) (by omega)
  have hg := @le_jlimit minVel maxVel ((minVel + maxVel).tdiv 2 +
    truncQ ((draw - 1 / 2) * ((maxVel - minVel : ℤ) : ℚ) * chaos * (3 / 10))) (by omega)
  subst hv
  unfold jmin
  split_ifs <;> omega

theorem calculateVelocitySystem_bounds (b : Build) (modulation : Destination → ℚ)
    (s : Processor) (isBD isAccent : Bool) (voice : Voice)
    (hbd : 0 ≤ s.parameters.velocity_1_bd ∧ s.parameters.velocity_1_bd ≤ 1)
    (hsd : 0 ≤ s.parameters.velocity_2_sd ∧ s.parameters.velocity_2_sd ≤ 1)
    (hhh : 0 ≤ s.parameters.velocity_3_hh ∧ s.parameters.velocity_3_hh ≤ 1) :
    0 ≤ (calculateVelocitySystem b modulation s isBD isAccent voice).1 ∧
    (calculateVelocitySystem b modulation s isBD isAccent voice).1 ≤ 127 := by
  have key : ∀ velocityRange0 velocityModulation : ℚ,
      0 ≤ velocityRange0 ∧ velocityRange0 ≤ 1 →
      0 ≤ (if b.ENABLE_MODULATION_MATRIX = true then
          jlimit 0 1 (velocityRange0 + velocityModulation) else velocityRange0) ∧
      (if b.ENABLE_MODULATION_MATRIX = true then
          jlimit 0 1 (velocityRange0 + velocityModulation) else velocityRange0) ≤ 1 := by
    intro r m hr
    split_ifs
    · exact jlimitQ_mem (by norm_num)
    · exact hr
  cases voice
  · obtain ⟨r0, r1⟩ := key s.parameters.velocity_1_bd (modulation Destination.BD_VELOCITY) hbd
    obtain ⟨ha, hb, hc, hd⟩ := velocity_bounds_of_range r0 r1
    refine velocity_of_bounds isBD isAccent s.parameters.chaos (s.systemRandom 0) _ _
      ha hb hc hd _ ?_
    simp only [calculateVelocitySystem]
    split_ifs <;> rfl
  · obtain ⟨r0, r1⟩ := key s.parameters.velocity_2_sd (modulation Destination.SD_VELOCITY) hsd
    obtain ⟨ha, hb, hc, hd⟩ := velocity_bounds_of_range r0 r1
    refine velocity_of_bounds isBD isAccent s.parameters.chaos (s.systemRandom 0) _ _
      ha hb hc hd _ ?_
    simp only [calculateVelocitySystem]
    split_ifs <;> rfl
  · obtain ⟨r0, r1⟩ := key s.parameters.velocity_3_hh (modulation Destination.HH_VELOCITY) hhh
    obtain ⟨ha, hb, hc, hd⟩ := velocity_bounds_of_range r0 r1
    refine velocity_of_bounds isBD isAccent s.parameters.chaos (s.systemRandom 0) _ _
      ha hb hc hd _ ?_
    simp only [calculateVelocitySystem]
    split_ifs <;> rfl

theorem calculateVelocityFixed_bounds (isBD isAccent : Bool) (voice : Voice) :
    0 ≤ calculateVelocityFixed isBD isAccent voice ∧
    calculateVelocityFixed isBD isAccent voice ≤ 127 := by
  unfold calculateVelocityFixed
  split_ifs <;> decide

/-- C7: in the velocity-system build and in the fixed-velocity fallback build alike, for
every voice, accent flag, velocity range in [0,1], chaos amount and random draw,
`calculateVelocity` returns an integer in [0,127]. -/
theorem calculateVelocity_in_midi_range (b : Build) (modulation : Destination → ℚ)
    (s : Processor) (isBD isAccent : Bool) (voice : Voice)
    (hbd : 0 ≤ s.parameters.velocity_1_bd ∧ s.parameters.velocity_1_bd ≤ 1)
    (hsd : 0 ≤ s.parameters.velocity_2_sd ∧ s.parameters.velocity_2_sd ≤ 1)
    (hhh : 0 ≤ s.parameters.velocity_3_hh ∧ s.parameters.velocity_3_hh ≤ 1) :
    0 ≤ (calculateVelocity b modulation s isBD isAccent voice).1 ∧
    (calculateVelocity b modulation s isBD isAccent voice).1 ≤ 127 := by
  unfold calculateVelocity
  split_ifs
  · exact calculateVelocitySystem_bounds b modulation s isBD isAccent voice hbd hsd hhh
  · exact calculateVelocityFixed_bounds isBD isAccent voice

/-- Witness for C7: an accented bass drum with the default parameters. -/
theorem calculateVelocity_in_midi_range_witness :
    (0 ≤ Example.start.parameters.velocity_1_bd ∧ Example.start.parameters.velocity_1_bd ≤ 1) ∧
    (0 ≤ Example.start.parameters.velocity_2_sd ∧ Example.start.parameters.velocity_2_sd ≤ 1) ∧
    (0 ≤ Example.start.parameters.velocity_3_hh ∧ Example.start.parameters.velocity_3_hh ≤ 1) ∧
    0 ≤ (calculateVelocity Example.build (fun _ => 0) Example.start true true Voice.bd).1 ∧
    (calculateVelocity Example.build (fun _ => 0) Example.start true true Voice.bd).1 ≤ 127 :=
  ⟨by decide!, by decide!, by decide!,
    calculateVelocity_in_midi_range Example.build (fun _ => 0) Example.start true true
      Voice.bd (by decide!) (by decide!) (by decide!)⟩

/-- C9 (the code at the failing input): with swing 1 a sample at PPQ 0.25, the second
sixteenth of the beat, is moved to PPQ 0.30: a displacement of 0.05 beats, twice the
bound `0.1 * 0.25 = 0.025` that the claim and the comment in the code give. -/
theorem swingAdjust_exceeds_bound :
    swingAdjust 1 (1 / 4) = 3 / 10 ∧
    ¬ (|swingAdjust 1 (1 / 4) - 1 / 4| ≤ (1 / 10 : ℚ) * (1 / 4)) := by
  decide!

end Processor

namespace Processor

theorem LoopFrame.refl (s : Processor) : LoopFrame s s :=
  ⟨s.gridsEngine, s.currentPatternStep, s.sampleCounter, s.systemRandom, rfl⟩

theorem LoopFrame.trans {s t u : Processor} (h1 : LoopFrame s t) (h2 : LoopFrame t u) :
    LoopFrame s u := by
  obtain ⟨e1, c1, k1, r1, rfl⟩ := h1
  obtain ⟨e2, c2, k2, r2, rfl⟩ := h2
  exact ⟨e2, c2, k2, r2, rfl⟩

theorem calculateVelocity_frame (b : Build) (modulation : Destination → ℚ) (s : Processor)
    (isBD isAccent : Bool) (voice : Voice) :
    ∃ r, (calculateVelocity b modulation s isBD isAccent voice).2 =
      { s with systemRandom := r } := by
  unfold calculateVelocity calculateVelocitySystem
  simp only []
  split_ifs <;> first | exact ⟨s.systemRandom, rfl⟩ | exact ⟨_, rfl⟩

theorem noteOnIf_frame (b : Build) (modulation : Destination → ℚ) (sample : ℤ)
    (trigger accent isBD : Bool) (voice : Voice) (noteNumber : ℤ)
    (st : Processor × MidiBuffer) :
    ∃ r, (noteOnIf b modulation sample trigger accent isBD voice noteNumber st).1 =
      { st.1 with systemRandom := r } := by
  unfold noteOnIf
  split_ifs
  · exact calculateVelocity_frame b modulation st.1 isBD accent voice
  · exact ⟨st.1.systemRandom, rfl⟩

theorem emitNoteOns_frame (b : Build) (modulation : Destination → ℚ) (sample : ℤ)
    (st : Processor × MidiBuffer) :
    ∃ r, (emitNoteOns b modulation sample st).1 = { st.1 with systemRandom := r } := by
  unfold emitNoteOns
  obtain ⟨r1, h1⟩ := noteOnIf_frame b modulation sample st.1.gridsEngine.bdTrigger_
    st.1.gridsEngine.bdAccent_ true Voice.bd st.1.bdNote st
  obtain ⟨r2, h2⟩ := noteOnIf_frame b modulation sample st.1.gridsEngine.sdTrigger_
    st.1.gridsEngine.sdAccent_ false Voice.sd st.1.sdNote
    (noteOnIf b modulation sample st.1.gridsEngine.bdTrigger_
      st.1.gridsEngine.bdAccent_ true Voice.bd st.1.bdNote st)
  obtain ⟨r3, h3⟩ := noteOnIf_frame b modulation sample st.1.gridsEngine.hhTrigger_
    st.1.gridsEngine.hhAccent_ false Voice.hh st.1.hhNote
    (noteOnIf b modulation sample st.1.gridsEngine.sdTrigger_
      st.1.gridsEngine.sdAccent_ false Voice.sd st.1.sdNote
      (noteOnIf b modulation sample st.1.gridsEngine.bdTrigger_
        st.1.gridsEngine.bdAccent_ true Voice.bd st.1.bdNote st))
  refine ⟨r3, ?_⟩
  simp only [] at h1 h2 h3 ⊢
  rw [h3, h2, h1]

theorem stepForPpq_range (hasResetOffset : Bool) (ppqOffsetAtReset adjustedPpq : ℚ) :
    0 ≤ stepForPpq hasResetOffset ppqOffsetAtReset adjustedPpq ∧
    stepForPpq hasResetOffset ppqOffsetAtReset adjustedPpq < 32 := by
  unfold stepForPpq
  simp only []
  split_ifs with h1 h2 h2
  · exact ⟨le_refl _, by decide⟩
  · exact ⟨not_lt.mp h2, Int.tmod_lt_of_pos _ (by decide)⟩
  · exact ⟨le_refl _, by decide⟩
  · exact ⟨not_lt.mp h2, Int.tmod_lt_of_pos _ (by decide)⟩

theorem ppqSample_frame (b : Build) (node_table : NodeTable) (modulation : Destination → ℚ)
    (currentPpq ppqPerSample : ℚ) (justExitedCountIn : Bool)
    (st : Processor × MidiBuffer) (sample : ℕ) :
    LoopFrame st.1
      (ppqSample b node_table modulation currentPpq ppqPerSample justExitedCountIn st sample).1 ∧
    (StepInRange st.1 → StepInRange
      (ppqSample b node_table modulation currentPpq ppqPerSample justExitedCountIn st
        sample).1) := by
  unfold ppqSample
  simp only []
  split_ifs with h
  · obtain ⟨r, hr⟩ := emitNoteOns_frame b modulation sample
      ({ st.1 with
          gridsEngine := (st.1.gridsEngine.setCurrentStep
            (stepForPpq st.1.hasResetOffset st.1.ppqOffsetAtReset
              (swingAdjust st.1.parameters.swing
                (currentPpq + (sample : ℚ) * ppqPerSample)))).evaluateDrums node_table
          currentPatternStep := stepForPpq st.1.hasResetOffset st.1.ppqOffsetAtReset
              (swingAdjust st.1.parameters.swing
                (currentPpq + (sample : ℚ) * ppqPerSample)) },
        emitNoteOffs _ st.2 sample st.1.gridsEngine.bdTrigger_ st.1.gridsEngine.sdTrigger_
          st.1.gridsEngine.hhTrigger_)
    rw [hr]
    exact ⟨⟨_, _, _, _, rfl⟩, fun _ => stepForPpq_range _ _ _⟩
  · exact ⟨LoopFrame.refl _, fun h => h⟩

theorem fallbackSample_frame (b : Build) (node_table : NodeTable)
    (modulation : Destination → ℚ) (st : Processor × MidiBuffer) (sample : ℕ) :
    LoopFrame st.1 (fallbackSample b node_table modulation st sample).1 ∧
    (StepInRange st.1 → StepInRange (fallbackSample b node_table modulation st sample).1) := by
  unfold fallbackSample
  simp only []
  split_ifs with h1 h2
  · obtain ⟨r, hr⟩ := emitNoteOns_frame b modulation sample
      ({ st.1 with
          sampleCounter := 0
          gridsEngine := st.1.gridsEngine.tick node_table
          currentPatternStep := (st.1.currentPatternStep + 1).tmod 32 },
        emitNoteOffs _ st.2 sample st.1.gridsEngine.bdTrigger_ st.1.gridsEngine.sdTrigger_
          st.1.gridsEngine.hhTrigger_)
    rw [hr]
    refine ⟨⟨_, _, _, _, rfl⟩, fun hs => ⟨?_, ?_⟩⟩
    · exact Int.tmod_nonneg _ (by have := hs.1; omega)
    · exact Int.tmod_lt_of_pos _ (by decide)
  · exact ⟨⟨_, _, _, _, rfl⟩, fun h => h⟩
  · exact ⟨LoopFrame.refl _, fun h => h⟩

theorem foldl_frame (f : Processor × MidiBuffer → ℕ → Processor × MidiBuffer)
    (hf : ∀ st n, LoopFrame st.1 (f st n).1 ∧ (StepInRange st.1 → StepInRange (f st n).1))
    (samples : List ℕ) (st : Processor × MidiBuffer) :
    LoopFrame st.1 (samples.foldl f st).1 ∧
    (StepInRange st.1 → StepInRange (samples.foldl f st).1) := by
  induction samples generalizing st with
  | nil => exact ⟨LoopFrame.refl _, fun h => h⟩
  | cons n rest ih =>
    rw [List.foldl_cons]
    obtain ⟨h1, h2⟩ := hf st n
    obtain ⟨h3, h4⟩ := ih (f st n)
    exact ⟨LoopFrame.trans h1 h3, fun h => h4 (h2 h)⟩

theorem sampleLoops_frame (b : Build) (node_table : NodeTable) (modulation : Destination → ℚ)
    (numSamples : ℕ) (pos : PositionInfo) (justExitedCountIn : Bool)
    (st : Processor × MidiBuffer) :
    LoopFrame st.1
      (sampleLoops b node_table modulation numSamples pos justExitedCountIn st).1 ∧
    (StepInRange st.1 → StepInRange
      (sampleLoops b node_table modulation numSamples pos justExitedCountIn st).1) := by
  unfold sampleLoops
  split
  · split_ifs
    · exact foldl_frame _ (ppqSample_frame b node_table modulation _ _ justExitedCountIn) _ st
    · exact foldl_frame _ (fallbackSample_frame b node_table modulation) _ st
  · exact foldl_frame _ (fallbackSample_frame b node_table modulation) _ st

end Processor

namespace Processor

theorem handleIncoming_frame (s : Processor) (midiMessages : MidiBuffer) :
    ∃ v c l, handleIncoming s midiMessages = { s with
      parameters := { s.parameters with reset := v }, resetMidiCC := c,
      midiLearnActive := l } := by
  induction midiMessages generalizing s with
  | nil => exact ⟨s.parameters.reset, s.resetMidiCC, s.midiLearnActive, rfl⟩
  | cons ev rest ih =>
    unfold handleIncoming
    simp only []
    split
    · split_ifs
      · obtain ⟨v, c, l, h⟩ := ih { s with resetMidiCC := _, midiLearnActive := false }
        exact ⟨v, c, l, h⟩
      · obtain ⟨v, c, l, h⟩ := ih { s with parameters := { s.parameters with reset := _ } }
        exact ⟨v, c, l, h⟩
      · exact ih s
    · exact ih s

theorem executeReset_frame (position : Option PositionInfo) (s : Processor) :
    ∃ p h r w, executeReset position s = { s with
      gridsEngine := s.gridsEngine.reset, sampleCounter := 0, currentPatternStep := 0,
      ppqOffsetAtReset := p, hasResetOffset := h, shouldRetrigger := r,
      resetOccurred := true, wasRetrigger := w, resetCount := s.resetCount + 1 } := by
  unfold executeReset notifyReset
  rcases position with _ | pos
  · simp only []
    split_ifs
    · exact ⟨_, _, _, _, rfl⟩
    · exact ⟨s.ppqOffsetAtReset, s.hasResetOffset, s.shouldRetrigger, _, rfl⟩
  · rcases hp : pos.ppqPosition with _ | p
    · simp only [hp]
      split_ifs
      · exact ⟨_, _, _, _, rfl⟩
      · exact ⟨s.ppqOffsetAtReset, s.hasResetOffset, s.shouldRetrigger, _, rfl⟩
    · simp only [hp]
      split_ifs
      · exact ⟨_, _, _, _, rfl⟩
      · exact ⟨_, _, s.shouldRetrigger, _, rfl⟩

theorem isQuantizePoint_frame (s : Processor) (posInfo : PositionInfo)
    (quantize : QuantizeValue) :
    ∃ q, (isQuantizePoint s posInfo quantize).2 = { s with quantizePhase := q } := by
  unfold isQuantizePoint
  split_ifs
  · exact ⟨s.quantizePhase, rfl⟩
  · split
    · exact ⟨s.quantizePhase, rfl⟩
    · split
      · exact ⟨s.quantizePhase, rfl⟩
      · exact ⟨_, rfl⟩

theorem isQuantizePoint_stepInRange (s : Processor) (posInfo : PositionInfo)
    (quantize : QuantizeValue) (hs : StepInRange s) :
    StepInRange (isQuantizePoint s posInfo quantize).2 := by
  obtain ⟨q, hq⟩ := isQuantizePoint_frame s posInfo quantize
  rw [hq]
  exact hs

theorem executeReset_stepInRange (position : Option PositionInfo) (s : Processor) :
    StepInRange (executeReset position s) := by
  obtain ⟨p, h, r, w, he⟩ := executeReset_frame position s
  rw [he]
  show (0 : ℤ) ≤ 0 ∧ (0 : ℤ) < 32
  decide

theorem edgeStage_stepInRange (b : Build) (env : BlockEnv) (s : Processor)
    (hs : StepInRange s) : StepInRange (edgeStage b env s) := by
  unfold edgeStage
  split_ifs
  · exact hs
  · exact executeReset_stepInRange _ _
  · exact hs

theorem armedStage_stepInRange (env : BlockEnv) (pos : PositionInfo) (s : Processor)
    (hs : StepInRange s) : StepInRange (armedStage env pos s) := by
  unfold armedStage
  simp only []
  split_ifs
  · exact executeReset_stepInRange env.position _
  · exact isQuantizePoint_stepInRange _ _ _ hs
  · exact hs

theorem resetStage_stepInRange (b : Build) (env : BlockEnv) (pos : PositionInfo)
    (s : Processor) (hs : StepInRange s) : StepInRange (resetStage b env pos s) := by
  have h := armedStage_stepInRange env pos _ (edgeStage_stepInRange b env s hs)
  unfold resetStage
  simp only []
  split_ifs
  · exact h
  · exact h

theorem updateTiming_frame (s : Processor) (posInfo : PositionInfo) :
    ∃ k, updateTiming s posInfo = { s with samplesPerClock := k } := by
  unfold updateTiming
  split
  · split_ifs
    · exact ⟨_, rfl⟩
    · exact ⟨s.samplesPerClock, rfl⟩
  · exact ⟨s.samplesPerClock, rfl⟩

theorem transportStage_frame (pos : PositionInfo) (justExitedCountIn liveMode : Bool)
    (s : Processor) :
    (∃ e k c h p pl lp spc, transportStage pos justExitedCountIn liveMode s = { s with
      gridsEngine := e, sampleCounter := k, currentPatternStep := c, hasResetOffset := h,
      ppqOffsetAtReset := p, isPlaying := pl, lastPpqPosition := lp,
      samplesPerClock := spc }) ∧
    (StepInRange s → StepInRange (transportStage pos justExitedCountIn liveMode s)) := by
  unfold transportStage
  simp only []
  rcases hp : pos.ppqPosition with _ | p
  · simp only []
    split_ifs
    · obtain ⟨k, hk⟩ := updateTiming_frame
        { s with gridsEngine := s.gridsEngine.reset, sampleCounter := 0,
                 currentPatternStep := 0, hasResetOffset := false, ppqOffsetAtReset := 0,
                 isPlaying := pos.isPlaying || pos.isRecording || liveMode } pos
      rw [hk]
      exact ⟨⟨_, _, _, _, _, _, s.lastPpqPosition, _, rfl⟩, fun _ => by
        show (0 : ℤ) ≤ 0 ∧ (0 : ℤ) < 32
        decide⟩
    · obtain ⟨k, hk⟩ := updateTiming_frame
        { s with isPlaying := pos.isPlaying || pos.isRecording || liveMode } pos
      rw [hk]
      exact ⟨⟨s.gridsEngine, s.sampleCounter, s.currentPatternStep, s.hasResetOffset,
        s.ppqOffsetAtReset, _, s.lastPpqPosition, _, rfl⟩, fun h => h⟩
  · simp only []
    split_ifs
    · obtain ⟨k, hk⟩ := updateTiming_frame
        { s with gridsEngine := s.gridsEngine.reset, sampleCounter := 0,
                 currentPatternStep := 0, hasResetOffset := false, ppqOffsetAtReset := 0,
                 isPlaying := pos.isPlaying || pos.isRecording || liveMode,
                 lastPpqPosition := p } pos
      rw [hk]
      exact ⟨⟨_, _, _, _, _, _, _, _, rfl⟩, fun _ => by
        show (0 : ℤ) ≤ 0 ∧ (0 : ℤ) < 32
        decide⟩
    · obtain ⟨k, hk⟩ := updateTiming_frame
        { s with isPlaying := pos.isPlaying || pos.isRecording || liveMode,
                 lastPpqPosition := p } pos
      rw [hk]
      exact ⟨⟨s.gridsEngine, s.sampleCounter, s.currentPatternStep, s.hasResetOffset,
        s.ppqOffsetAtReset, _, _, _, rfl⟩, fun h => h⟩

theorem retriggerStage_frame (b : Build) (node_table : NodeTable)
    (modulation : Destination → ℚ) (st : Processor × MidiBuffer) :
    ∃ e sr r, (retriggerStage b node_table modulation st).1 = { st.1 with
      gridsEngine := e, shouldRetrigger := sr, systemRandom := r } := by
  unfold retriggerStage
  simp only []
  split_ifs
  · obtain ⟨r, hr⟩ := emitNoteOns_frame b modulation 0
      ({ st.1 with gridsEngine := st.1.gridsEngine.evaluateDrums node_table }, st.2)
    rw [hr]
    exact ⟨_, _, _, rfl⟩
  · exact ⟨st.1.gridsEngine, st.1.shouldRetrigger, st.1.systemRandom, rfl⟩

theorem runBlock_frame (b : Build) (node_table : NodeTable) (env : BlockEnv)
    (pos : PositionInfo) (justExitedCountIn liveMode : Bool) (s : Processor)
    (midiMessages : MidiBuffer) :
    RunFrame s
      (runBlock b node_table env pos justExitedCountIn liveMode s midiMessages).1 ∧
    (StepInRange s → StepInRange
      (runBlock b node_table env pos justExitedCountIn liveMode s midiMessages).1) := by
  unfold runBlock
  simp only []
  obtain ⟨⟨e1, k1, c1, h1, p1, pl1, lp1, spc1, ht⟩, hts⟩ :=
    transportStage_frame pos justExitedCountIn liveMode s
  generalize transportStage pos justExitedCountIn liveMode s = s4 at ht hts ⊢
  generalize (if (!decide (s4.parameters.midi_thru > 1 / 2)) = true then
    ([] : MidiBuffer) else midiMessages) = midi1
  obtain ⟨e2, sr2, r2, hr⟩ := retriggerStage_frame b node_table (modulationInBlock env pos)
    (loadParameters b (modulationInBlock env pos) s4, midi1)
  obtain ⟨⟨e3, c3, k3, r3, hl⟩, hls⟩ := sampleLoops_frame b node_table
    (modulationInBlock env pos) env.numSamples pos justExitedCountIn
    (retriggerStage b node_table (modulationInBlock env pos)
      (loadParameters b (modulationInBlock env pos) s4, midi1))
  constructor
  · rw [hl, hr]
    subst ht
    exact ⟨_, _, _, _, _, _, _, _, _, _, _, _, _, _, rfl⟩
  · intro hs
    apply hls
    rw [hr]
    exact hts hs

theorem countInExit_stepInRange (s : Processor) (inCountIn : Bool) (hs : StepInRange s) :
    StepInRange (countInExit s inCountIn) := by
  unfold countInExit
  simp only []
  split_ifs
  · show (0 : ℤ) ≤ 0 ∧ (0 : ℤ) < 32
    decide
  · exact hs

theorem countInHold_stepInRange (s : Processor) (inCountIn : Bool) (hs : StepInRange s) :
    StepInRange (countInHold s inCountIn) := by
  unfold countInHold
  simp only []
  split_ifs
  · exact hs
  · exact hs

/-- The pattern step stays in range over one call of `processBlock`. -/
theorem processBlock_stepInRange (b : Build) (node_table : NodeTable) (env : BlockEnv)
    (s : Processor) (midiMessages : MidiBuffer) (hs : StepInRange s) :
    StepInRange (processBlock b node_table env s midiMessages).1 := by
  obtain ⟨v, c, l, hh⟩ := handleIncoming_frame s midiMessages
  have h0 : StepInRange (handleIncoming s midiMessages) := by
    rw [hh]
    exact hs
  unfold processBlock
  simp only []
  generalize handleIncoming s midiMessages = s0 at h0
  split
  · exact h0
  · rename_i pos _
    have h3 := resetStage_stepInRange b env pos _
      (countInExit_stepInRange s0 (inCountInOf pos) h0)
    split_ifs
    · exact countInHold_stepInRange s0 _ h0
    · exact h3
    · exact (runBlock_frame b node_table env pos _ _ _ midiMessages).2 h3

theorem step_stepInRange (b : Build) (node_table : NodeTable) (s : Processor) (a : Action)
    (hs : StepInRange s) : StepInRange (step b node_table s a) := by
  cases a with
  | block env midiMessages => exact processBlock_stepInRange b node_table env s midiMessages hs
  | prepare sampleRate => exact hs
  | setParameters p => exact hs
  | setQuantize value => exact hs
  | pollReset => exact hs
  | startMidiLearn => exact hs
  | stopLearn => exact hs
  | setMidiCC cc => exact hs

theorem run_stepInRange (b : Build) (node_table : NodeTable) (actions : List Action)
    (s : Processor) (hs : StepInRange s) : StepInRange (run b node_table s actions) := by
  induction actions generalizing s with
  | nil => exact hs
  | cons a rest ih =>
    unfold run
    rw [List.foldl_cons]
    exact ih _ (step_stepInRange b node_table s a hs)

/-- C8: in every reachable scheduler state, after any sequence of `processBlock` calls
(PPQ-synced or free-running, negative PPQ in live mode, reset offsets, executed resets,
loops, count-in exits) interleaved with any parameter and settings changes,
`currentPatternStep` is in [0,32). -/
theorem currentPatternStep_in_range (b : Build) (node_table : NodeTable)
    (rng systemRandom : ℕ → ℚ) (actions : List Action) :
    0 ≤ (run b node_table (init rng systemRandom) actions).currentPatternStep ∧
    (run b node_table (init rng systemRandom) actions).currentPatternStep < 32 :=
  run_stepInRange b node_table actions (init rng systemRandom)
    (show (0 : ℤ) ≤ 0 ∧ (0 : ℤ) < 32 by decide)

end Processor

namespace Processor

theorem isQuantizePoint_off (s : Processor) (posInfo : PositionInfo) :
    isQuantizePoint s posInfo QuantizeValue.QUANTIZE_OFF = (true, s) := by
  unfold isQuantizePoint
  rw [if_pos rfl]

theorem edgeStage_off (b : Build) (env : BlockEnv) (s : Processor)
    (hq : s.resetQuantize = QuantizeValue.QUANTIZE_OFF) :
    (edgeStage b env s).resetCount = s.resetCount +
        (if s.lastResetValue < 1 / 2 ∧ observedResetValue b env s ≥ 1 / 2 then 1 else 0) ∧
    (edgeStage b env s).resetArmed = s.resetArmed ∧
    (edgeStage b env s).resetQuantize = QuantizeValue.QUANTIZE_OFF := by
  unfold edgeStage
  by_cases hedge : s.lastResetValue < 1 / 2 ∧ observedResetValue b env s ≥ 1 / 2
  · rw [if_pos hedge, if_pos hedge, if_neg (not_not.mpr hq)]
    obtain ⟨p, h, r, w, he⟩ := executeReset_frame env.position s
    rw [he]
    exact ⟨rfl, rfl, hq⟩
  · rw [if_neg hedge, if_neg hedge]
    exact ⟨rfl, rfl, hq⟩

theorem armedStage_off (env : BlockEnv) (pos : PositionInfo) (s : Processor)
    (hq : s.resetQuantize = QuantizeValue.QUANTIZE_OFF) :
    (armedStage env pos s).resetCount = s.resetCount + (if s.resetArmed then 1 else 0) ∧
    (armedStage env pos s).resetArmed = false ∧
    (armedStage env pos s).resetQuantize = QuantizeValue.QUANTIZE_OFF ∧
    (armedStage env pos s).lastResetValue = s.lastResetValue := by
  unfold armedStage
  simp only []
  rw [hq, isQuantizePoint_off]
  by_cases ha : s.resetArmed = true
  · rw [if_pos ha, if_pos ha, if_pos rfl]
    obtain ⟨p, h, r, w, he⟩ := executeReset_frame env.position s
    rw [he]
    exact ⟨rfl, rfl, hq, rfl⟩
  · rw [if_neg ha, if_neg ha]
    simp only [Bool.not_eq_true] at ha
    exact ⟨rfl, ha, hq, rfl⟩

theorem edgeStage_lastResetValue (b : Build) (env : BlockEnv) (s : Processor) :
    (edgeStage b env s).lastResetValue = s.lastResetValue := by
  unfold edgeStage
  split_ifs
  · rfl
  · obtain ⟨p, h, r, w, he⟩ := executeReset_frame env.position s
    rw [he]
  · rfl

theorem resetStage_fields (b : Build) (env : BlockEnv) (pos : PositionInfo) (s : Processor) :
    (resetStage b env pos s).resetCount = (armedStage env pos (edgeStage b env s)).resetCount ∧
    (resetStage b env pos s).lastResetValue = observedResetValue b env s ∧
    (resetStage b env pos s).resetArmed = (armedStage env pos (edgeStage b env s)).resetArmed ∧
    (resetStage b env pos s).resetQuantize =
      (armedStage env pos (edgeStage b env s)).resetQuantize := by
  unfold resetStage
  simp only []
  split_ifs
  · exact ⟨rfl, rfl, rfl, rfl⟩
  · exact ⟨rfl, rfl, rfl, rfl⟩

theorem resetStage_off (b : Build) (env : BlockEnv) (pos : PositionInfo) (s : Processor)
    (hq : s.resetQuantize = QuantizeValue.QUANTIZE_OFF) :
    (resetStage b env pos s).resetCount = s.resetCount +
        (if s.lastResetValue < 1 / 2 ∧ observedResetValue b env s ≥ 1 / 2 then 1 else 0) +
        (if s.resetArmed then 1 else 0) ∧
    (resetStage b env pos s).lastResetValue = observedResetValue b env s ∧
    (resetStage b env pos s).resetArmed = false ∧
    (resetStage b env pos s).resetQuantize = QuantizeValue.QUANTIZE_OFF := by
  obtain ⟨e1, e2, e3⟩ := edgeStage_off b env s hq
  obtain ⟨a1, a2, a3, _⟩ := armedStage_off env pos (edgeStage b env s) e3
  rw [e1, e2] at a1
  obtain ⟨f1, f2, f3, f4⟩ := resetStage_fields b env pos s
  exact ⟨f1.trans a1, f2, f3.trans a2, f4.trans a3⟩

theorem countInExit_control (s : Processor) (inCountIn : Bool) :
    (countInExit s inCountIn).resetCount = s.resetCount ∧
    (countInExit s inCountIn).lastResetValue = s.lastResetValue ∧
    (countInExit s inCountIn).resetArmed = s.resetArmed ∧
    (countInExit s inCountIn).resetQuantize = s.resetQuantize ∧
    (countInExit s inCountIn).parameters = s.parameters := by
  unfold countInExit
  simp only []
  split_ifs
  · exact ⟨rfl, rfl, rfl, rfl, rfl⟩
  · exact ⟨rfl, rfl, rfl, rfl, rfl⟩

theorem observedResetValue_congr (b : Build) (env : BlockEnv) {s t : Processor}
    (h : t.parameters = s.parameters) :
    observedResetValue b env t = observedResetValue b env s := by
  unfold observedResetValue
  rw [h]

/-- A block that reaches the reset check leaves the reset count, the edge memory and the
armed flag as its reset section leaves them. -/
theorem processBlock_control (b : Build) (node_table : NodeTable) (env : BlockEnv)
    (s : Processor) (midiMessages : MidiBuffer)
    (hreach : reachesResetCheck env s midiMessages = true) :
    ∃ pos, env.position = some pos ∧
      (processBlock b node_table env s midiMessages).1.resetCount =
        (resetStage b env pos
          (countInExit (handleIncoming s midiMessages) (inCountInOf pos))).resetCount ∧
      (processBlock b node_table env s midiMessages).1.lastResetValue =
        (resetStage b env pos
          (countInExit (handleIncoming s midiMessages) (inCountInOf pos))).lastResetValue ∧
      (processBlock b node_table env s midiMessages).1.resetArmed =
        (resetStage b env pos
          (countInExit (handleIncoming s midiMessages) (inCountInOf pos))).resetArmed := by
  unfold reachesResetCheck at hreach
  unfold processBlock
  simp only []
  generalize handleIncoming s midiMessages = s0 at hreach ⊢
  rcases hpos : env.position with _ | pos
  · rw [hpos] at hreach
    exact absurd hreach Bool.false_ne_true
  · rw [hpos] at hreach
    simp only [] at hreach ⊢
    refine ⟨pos, rfl, ?_⟩
    have hnot : ¬ ((inCountInOf pos && !decide (s0.parameters.live_mode > 1 / 2)) = true) := by
      intro hc
      rw [hc] at hreach
      exact absurd hreach Bool.false_ne_true
    rw [if_neg hnot]
    split_ifs
    · exact ⟨rfl, rfl, rfl⟩
    · obtain ⟨⟨e, k, c, h, p, pl, lp, spc, bn, sn, hn, mc, sr, r, hrun⟩, _⟩ :=
        runBlock_frame b node_table env pos (s0.wasInCountIn && !inCountInOf pos)
          (decide (s0.parameters.live_mode > 1 / 2))
          (resetStage b env pos (countInExit s0 (inCountInOf pos))) midiMessages
      rw [hrun]
      exact ⟨rfl, rfl, rfl⟩

/-- A block that does not reach the reset check (no playhead position, or suppressed as
count-in) executes no reset and keeps the edge memory. -/
theorem processBlock_unreached (b : Build) (node_table : NodeTable) (env : BlockEnv)
    (s : Processor) (midiMessages : MidiBuffer)
    (hreach : reachesResetCheck env s midiMessages = false) :
    (processBlock b node_table env s midiMessages).1.resetCount = s.resetCount ∧
    (processBlock b node_table env s midiMessages).1.lastResetValue = s.lastResetValue := by
  obtain ⟨v, c, l, hh⟩ := handleIncoming_frame s midiMessages
  have hc0 : (handleIncoming s midiMessages).resetCount = s.resetCount := by rw [hh]
  have hl0 : (handleIncoming s midiMessages).lastResetValue = s.lastResetValue := by rw [hh]
  unfold reachesResetCheck at hreach
  unfold processBlock
  simp only []
  generalize handleIncoming s midiMessages = s0 at hreach hc0 hl0 ⊢
  rcases hpos : env.position with _ | pos
  · exact ⟨hc0, hl0⟩
  · rw [hpos] at hreach
    simp only [Bool.not_eq_false_eq_eq_true] at hreach ⊢
    rw [if_pos hreach]
    unfold countInHold
    simp only []
    split_ifs
    · exact ⟨hc0, hl0⟩
    · exact ⟨hc0, hl0⟩

/-- C10 (counterexample): a reset armed under 1-bar quantization is still pending when
the quantization is switched to Off; the next block then runs with quantization Off,
observes the reset value 0, so no rising edge, and executes a reset all the same. -/
theorem reset_off_counterexample :
    Example.armedThenOff.resetQuantize = QuantizeValue.QUANTIZE_OFF ∧
    reachesResetCheck (Example.stoppedAt 2) Example.armedThenOff [] = true ∧
    observedResetValue Example.build (Example.stoppedAt 2)
      (handleIncoming Example.armedThenOff []) = 0 ∧
    (processBlock Example.build Example.fullTable (Example.stoppedAt 2)
      Example.armedThenOff []).1.resetCount = Example.armedThenOff.resetCount + 1 ∧
    ¬ ((processBlock Example.build Example.fullTable (Example.stoppedAt 2)
          Example.armedThenOff []).1.resetCount > Example.armedThenOff.resetCount ↔
        (observedResetValue Example.build (Example.stoppedAt 2)
            (handleIncoming Example.armedThenOff []) ≥ 1 / 2 ∧
          Example.armedThenOff.lastResetValue < 1 / 2)) := by
  decide!

/-- C10 (amended): with reset quantization Off, a block that reaches the reset check
(playhead position available, not suppressed by count-in) executes in that same block one
reset if the reset value it observes is at least 0.5 while the previously observed value
was below 0.5, and one more if a reset was still armed when the block began; so with no
reset armed it executes a reset if and only if it observes that rising edge, and then
exactly one, whether or not the transport is playing.  The block stores the observed value
as the previous value and leaves no reset armed, so a value held at or above 0.5 fires
once. -/
theorem reset_off_fires_on_edge (b : Build) (node_table : NodeTable) (env : BlockEnv)
    (s : Processor) (midiMessages : MidiBuffer)
    (hreach : reachesResetCheck env s midiMessages = true)
    (hq : s.resetQuantize = QuantizeValue.QUANTIZE_OFF) :
    (processBlock b node_table env s midiMessages).1.resetCount = s.resetCount +
        (if s.lastResetValue < 1 / 2 ∧
            observedResetValue b env (handleIncoming s midiMessages) ≥ 1 / 2 then 1 else 0) +
        (if s.resetArmed then 1 else 0) ∧
    (s.resetArmed = false →
      ((processBlock b node_table env s midiMessages).1.resetCount > s.resetCount ↔
        (observedResetValue b env (handleIncoming s midiMessages) ≥ 1 / 2 ∧
          s.lastResetValue < 1 / 2)) ∧
      (processBlock b node_table env s midiMessages).1.resetCount ≤ s.resetCount + 1) ∧
    (processBlock b node_table env s midiMessages).1.lastResetValue =
      observedResetValue b env (handleIncoming s midiMessages) ∧
    (processBlock b node_table env s midiMessages).1.resetArmed = false := by
  obtain ⟨v, c, l, hh⟩ := handleIncoming_frame s midiMessages
  have hc0 : (handleIncoming s midiMessages).resetCount = s.resetCount := by rw [hh]
  have hl0 : (handleIncoming s midiMessages).lastResetValue = s.lastResetValue := by rw [hh]
  have ha0 : (handleIncoming s midiMessages).resetArmed = s.resetArmed := by rw [hh]
  have hq0 : (handleIncoming s midiMessages).resetQuantize = s.resetQuantize := by rw [hh]
  have main :
      (processBlock b node_table env s midiMessages).1.resetCount = s.resetCount +
        (if s.lastResetValue < 1 / 2 ∧
            observedResetValue b env (handleIncoming s midiMessages) ≥ 1 / 2 then 1 else 0) +
        (if s.resetArmed then 1 else 0) ∧
      (processBlock b node_table env s midiMessages).1.lastResetValue =
        observedResetValue b env (handleIncoming s midiMessages) ∧
      (processBlock b node_table env s midiMessages).1.resetArmed = false := by
    obtain ⟨pos, _, p1, p2, p3⟩ := processBlock_control b node_table env s midiMessages hreach
    obtain ⟨x1, x2, x3, x4, x5⟩ :=
      countInExit_control (handleIncoming s midiMessages) (inCountInOf pos)
    obtain ⟨r1, r2, r3, _⟩ := resetStage_off b env pos
      (countInExit (handleIncoming s midiMessages) (inCountInOf pos))
      (by rw [x4, hq0, hq])
    rw [x1, x2, x3, observedResetValue_congr b env x5, hc0, hl0, ha0] at r1
    rw [observedResetValue_congr b env x5] at r2
    exact ⟨p1.trans r1, p2.trans r2, p3.trans r3⟩
  obtain ⟨m1, m2, m3⟩ := main
  refine ⟨m1, ?_, m2, m3⟩
  intro harm
  rw [m1, harm]
  by_cases hedge : s.lastResetValue < 1 / 2 ∧
      observedResetValue b env (handleIncoming s midiMessages) ≥ 1 / 2
  · rw [if_pos hedge]
    simp only [Bool.false_eq_true, if_false, add_zero]
    exact ⟨⟨fun _ => ⟨hedge.2, hedge.1⟩, fun _ => Nat.lt_succ_self _⟩, le_refl _⟩
  · rw [if_neg hedge]
    simp only [Bool.false_eq_true, if_false, add_zero]
    exact ⟨⟨fun h => absurd h (lt_irrefl _), fun h => absurd ⟨h.2, h.1⟩ hedge⟩,
      Nat.le_succ _⟩

/-- Witness for C10 (amended): the reset control raised to 1 on a stopped
transport, quantization Off, nothing armed; one reset is executed. -/
theorem reset_off_fires_on_edge_witness :
    reachesResetCheck (Example.stoppedAt 0) Example.resetRaised [] = true ∧
    Example.resetRaised.resetQuantize = QuantizeValue.QUANTIZE_OFF ∧
    (processBlock Example.build Example.fullTable (Example.stoppedAt 0)
      Example.resetRaised []).1.resetCount = Example.resetRaised.resetCount + 1 :=
  ⟨by decide!, by decide!,
    ((reset_off_fires_on_edge Example.build Example.fullTable (Example.stoppedAt 0)
      Example.resetRaised [] (by decide!) (by decide!)).1).trans (by decide!)⟩

end Processor

namespace Processor

/-- C1 (the code at the failing input): a playing block at PPQ 0.5 emits the note-ons of
step 2; the next block arrives at PPQ 0.25 (the host looped back), the loop reset clears
the trigger flags of the engine without any note-off, and the step then evaluated emits
the note-ons again.  The output holds two note-ons of the bass drum (note 36) with no
note-off between them. -/
theorem note_on_twice_after_loop :
    sessionOutput Example.build Example.fullTable Example.start
        [Action.block (Example.playingAt (1 / 2)) [],
         Action.block (Example.playingAt (1 / 4)) []] =
      [⟨MidiMessage.noteOn 1 36 113, 0⟩, ⟨MidiMessage.noteOn 1 38 113, 0⟩,
       ⟨MidiMessage.noteOn 1 42 113, 0⟩, ⟨MidiMessage.noteOn 1 36 113, 0⟩,
       ⟨MidiMessage.noteOn 1 38 113, 0⟩, ⟨MidiMessage.noteOn 1 42 113, 0⟩] ∧
    pairedFrom 36 false
      (sessionOutput Example.build Example.fullTable Example.start
        [Action.block (Example.playingAt (1 / 2)) [],
         Action.block (Example.playingAt (1 / 4)) []]) = false := by
  decide!

end Processor

namespace GridsEngine

theorem applyDensity_one (value : ℕ) : applyDensity value 1 = decide (value > 0) := by
  unfold applyDensity
  rw [if_neg (by norm_num)]
  have h : toUInt8 ((1 - 1) * 254) = 0 := by decide!
  simp only [h]

/-- C20: with chaos 0, a voice whose density is exactly 1 triggers at a step if and only
if its interpolated intensity there is greater than 0; this holds for every step,
position and node table, and for each of the three voices. -/
theorem evaluateDrums_density_one (node_table : NodeTable) (e : GridsEngine)
    (hc : e.chaos_ = 0) :
    (e.bdDensity_ = 1 → ((evaluateDrums node_table e).bdTrigger_ = true ↔
      readDrumMap node_table e 0 e.currentStep_ > 0)) ∧
    (e.sdDensity_ = 1 → ((evaluateDrums node_table e).sdTrigger_ = true ↔
      readDrumMap node_table e 1 e.currentStep_ > 0)) ∧
    (e.hhDensity_ = 1 → ((evaluateDrums node_table e).hhTrigger_ = true ↔
      readDrumMap node_table e 2 e.currentStep_ > 0)) := by
  have hno : ¬ (e.chaos_ > 0) := by rw [hc]; exact lt_irrefl _
  refine ⟨?_, ?_, ?_⟩
  · intro h
    simp only [evaluateDrums, if_neg hno, h, applyDensity_one, decide_eq_true_eq]
  · intro h
    simp only [evaluateDrums, if_neg hno, h, applyDensity_one, decide_eq_true_eq]
  · intro h
    simp only [evaluateDrums, if_neg hno, h, applyDensity_one, decide_eq_true_eq]

/-- Witness for C20: the engine as constructed (all densities 1, chaos 0) on the table of
full intensity: the bass drum triggers. -/
theorem evaluateDrums_density_one_witness :
    (GridsEngine.init (fun _ => 0)).chaos_ = 0 ∧
    (GridsEngine.init (fun _ => 0)).bdDensity_ = 1 ∧
    ((evaluateDrums Example.fullTable (GridsEngine.init (fun _ => 0))).bdTrigger_ = true ↔
      readDrumMap Example.fullTable (GridsEngine.init (fun _ => 0)) 0
        (GridsEngine.init (fun _ => 0)).currentStep_ > 0) :=
  ⟨rfl, rfl,
    (evaluateDrums_density_one Example.fullTable (GridsEngine.init (fun _ => 0)) rfl).1 rfl⟩

end GridsEngine

namespace Processor

end Processor

namespace EuclideanEngine

theorem valid_init : Valid init := by
  unfold Valid init
  decide

theorem valid_loadDefaults : Valid (loadDefaults init 16 12 8) := by
  unfold Valid loadDefaults init
  decide

theorem valid_reset (e : EuclideanEngine) (h : Valid e) : Valid (reset e) := by
  intro i
  obtain ⟨h1, h2, _⟩ := h i
  refine ⟨h1, h2, ?_⟩
  have hz : (reset e).step_ i = 0 := by
    unfold reset
    fin_cases i <;> rfl
  rw [hz]
  exact h1

theorem tick_step (e : EuclideanEngine) (i : Fin 3) (h1 : 1 ≤ e.length_ i)
    (h32 : e.length_ i ≤ 32) (hs : e.step_ i < e.length_ i) :
    (tick e).step_ i = (e.step_ i + 1) % e.length_ i ∧ (tick e).length_ = e.length_ := by
  refine ⟨?_, rfl⟩
  show (if (e.step_ i + 1) % 256 ≥ e.length_ i then 0 else (e.step_ i + 1) % 256) = _
  have hsmall : (e.step_ i + 1) % 256 = e.step_ i + 1 := Nat.mod_eq_of_lt (by omega)
  rw [hsmall]
  by_cases hc : e.step_ i + 1 ≥ e.length_ i
  · rw [if_pos hc]
    have : e.step_ i + 1 = e.length_ i := by omega
    rw [this, Nat.mod_self]
  · rw [if_neg hc, Nat.mod_eq_of_lt (by omega)]

theorem valid_tick (e : EuclideanEngine) (h : Valid e) : Valid (tick e) := by
  intro i
  obtain ⟨h1, h2, h3⟩ := h i
  obtain ⟨t1, t2⟩ := tick_step e i h1 h2 h3
  rw [t1, t2]
  exact ⟨h1, h2, Nat.mod_lt _ (by omega)⟩

theorem jlimit_nat_range (n : ℕ) :
    jlimit 1 32 n = max 1 (min 32 n) ∧ 1 ≤ jlimit 1 32 n ∧ jlimit 1 32 n ≤ 32 := by
  unfold jlimit
  split_ifs <;> omega

theorem setLength_voice (e : EuclideanEngine) (instrument : ℤ) (n : ℕ) (i : Fin 3)
    (hv : voiceIndex instrument = some i) :
    (setLength e instrument n).length_ i = max 1 (min 32 (n % 256)) ∧
    (setLength e instrument n).step_ i < (setLength e instrument n).length_ i ∧
    (∀ j, j ≠ i → (setLength e instrument n).length_ j = e.length_ j ∧
      (setLength e instrument n).step_ j = e.step_ j) := by
  obtain ⟨c1, c2, c3⟩ := jlimit_nat_range (n % 256)
  unfold setLength
  simp only [hv, Function.update_same]
  split_ifs with hc
  · refine ⟨by simp only [Function.update_same]; exact c1, ?_, ?_⟩
    · simp only [Function.update_same]
      omega
    · intro j hj
      simp only [Function.update_noteq hj]
      exact ⟨trivial, trivial⟩
  · refine ⟨by simp only [Function.update_same]; exact c1, ?_, ?_⟩
    · simp only [Function.update_same]
      omega
    · intro j hj
      simp only [Function.update_noteq hj]
      exact ⟨trivial, trivial⟩

theorem valid_setLength (e : EuclideanEngine) (instrument : ℤ) (n : ℕ) (h : Valid e) :
    Valid (setLength e instrument n) := by
  rcases hv : voiceIndex instrument with _ | i
  · have : setLength e instrument n = e := by
      unfold setLength
      simp only [hv]
    rw [this]
    exact h
  · obtain ⟨s1, s2, s3⟩ := setLength_voice e instrument n i hv
    intro j
    by_cases hj : j = i
    · subst hj
      rw [s1] at s2 ⊢
      exact ⟨le_max_left _ _, max_le (by decide) (min_le_left _ _), s2⟩
    · obtain ⟨l1, l2⟩ := s3 j hj
      rw [l1, l2]
      exact h j

/-- C15: the per-voice invariant of the Euclidean engine (`1 ≤ length ≤ 32` and
`step < length`) holds for the default lengths 16, 12, 8 and is preserved by `reset`,
`tick` and `setLength`; for a valid voice and any `n`, `setLength` sets the length of that
voice to the 8-bit value of `n` clamped into [1,32] and returns with its step below the
new length, while the lengths and steps of the other voices are unchanged. -/
theorem euclidean_invariant :
    Valid init ∧ Valid (loadDefaults init 16 12 8) ∧
    (∀ e : EuclideanEngine, Valid e →
      Valid (reset e) ∧ Valid (tick e) ∧ ∀ instrument n, Valid (setLength e instrument n)) ∧
    (∀ (e : EuclideanEngine) (instrument : ℤ) (n : ℕ) (i : Fin 3),
      voiceIndex instrument = some i →
      (setLength e instrument n).length_ i = max 1 (min 32 (n % 256)) ∧
      (setLength e instrument n).step_ i < (setLength e instrument n).length_ i ∧
      (∀ j, j ≠ i → (setLength e instrument n).length_ j = e.length_ j ∧
        (setLength e instrument n).step_ j = e.step_ j)) :=
  ⟨valid_init, valid_loadDefaults,
    fun e h => ⟨valid_reset e h, valid_tick e h, fun instrument n =>
      valid_setLength e instrument n h⟩,
    setLength_voice⟩

/-- Witness for C15: shortening the snare cycle of the default engine, 11 ticks in, to 4. -/
theorem euclidean_invariant_witness :
    Valid init ∧ voiceIndex 1 = some 1 ∧
    (setLength (ticks 11 init) 1 4).length_ 1 = max 1 (min 32 (4 % 256)) ∧
    (setLength (ticks 11 init) 1 4).step_ 1 < (setLength (ticks 11 init) 1 4).length_ 1 :=
  ⟨euclidean_invariant.1, by decide,
    (euclidean_invariant.2.2.2 (ticks 11 init) 1 4 1 (by decide)).1,
    (euclidean_invariant.2.2.2 (ticks 11 init) 1 4 1 (by decide)).2.1⟩

theorem shouldTrigger_eq_testBit (pattern n : ℕ) :
    EuclideanTables.shouldTrigger pattern (n : ℤ) = pattern.testBit (n % 32) := by
  unfold EuclideanTables.shouldTrigger
  have h : (((n : ℤ).tmod 32).toNat) = n % 32 := by
    rw [Int.tmod_eq_emod (by omega) (by decide)]
    omega
  rw [h, Nat.testBit_to_div_mod, Nat.and_one_is_mod, Nat.shiftRight_eq_div_pow]

end EuclideanEngine

namespace Processor

/-- C12 (the code at the failing input): after a playing block at PPQ 7.75, whose
note-ons of step 31 are outstanding, the host loops to PPQ 0.  The loop block resets the
pattern step to 0 and clears the trigger flags, and its output is empty: none of the three
outstanding note-ons receives a note-off, in that block or in the next one at PPQ 0.25,
which only emits the note-ons of step 1. -/
theorem loop_leaves_notes_unterminated :
    (processBlock Example.build Example.fullTable (Example.playingAt (31 / 4))
        Example.start []).2 =
      [⟨MidiMessage.noteOn 1 36 113, 0⟩, ⟨MidiMessage.noteOn 1 38 113, 0⟩,
       ⟨MidiMessage.noteOn 1 42 113, 0⟩] ∧
    (processBlock Example.build Example.fullTable (Example.playingAt 0)
        Example.playedStep31 []).2 = [] ∧
    (processBlock Example.build Example.fullTable (Example.playingAt 0)
        Example.playedStep31 []).1.currentPatternStep = 0 ∧
    (processBlock Example.build Example.fullTable (Example.playingAt 0)
        Example.playedStep31 []).1.gridsEngine.bdTrigger_ = false ∧
    sessionOutput Example.build Example.fullTable Example.start
        [Action.block (Example.playingAt (31 / 4)) [],
         Action.block (Example.playingAt 0) [],
         Action.block (Example.playingAt (1 / 4)) []] =
      [⟨MidiMessage.noteOn 1 36 113, 0⟩, ⟨MidiMessage.noteOn 1 38 113, 0⟩,
       ⟨MidiMessage.noteOn 1 42 113, 0⟩, ⟨MidiMessage.noteOn 1 36 113, 0⟩,
       ⟨MidiMessage.noteOn 1 38 113, 0⟩, ⟨MidiMessage.noteOn 1 42 113, 0⟩] := by
  decide!

/-- C19 (the code at the failing input): with MIDI thru disabled, a block of a stopped
transport returns before the MIDI thru section and leaves the incoming note in the
buffer; the same block of a playing transport removes it. -/
theorem thru_off_keeps_incoming_when_stopped :
    ¬ (Example.thruOff.parameters.midi_thru > 1 / 2) ∧
    (processBlock Example.build Example.fullTable (Example.stoppedAt 0) Example.thruOff
      [Example.incomingNote]).2 = [Example.incomingNote] ∧
    (processBlock Example.build Example.fullTable (Example.playingAt 0) Example.thruOff
      [Example.incomingNote]).2 = [] := by
  decide!

end Processor

namespace Processor

theorem fmodQ_of_range {x y : ℚ} (h0 : 0 ≤ x) (hlt : x < y) : fmodQ x y = x := by
  unfold fmodQ
  have hy : 0 < y := lt_of_le_of_lt h0 hlt
  have hq0 : 0 ≤ x / y := div_nonneg h0 hy.le
  have hq1 : x / y < 1 := (div_lt_one hy).mpr hlt
  rw [truncQ_of_nonneg hq0, Int.floor_eq_zero_iff.mpr ⟨hq0, hq1⟩]
  simp

theorem fmodQ_four_of_nonneg {p : ℚ} (h0 : 0 ≤ p) : fmodQ p 4 = p - 4 * (⌊p / 4⌋ : ℚ) := by
  unfold fmodQ
  rw [truncQ_of_nonneg (div_nonneg h0 (by norm_num))]

/-- For positions that advance by less than a bar, the crossing test of `isQuantizePoint`
holds exactly when a bar line lies after the previous position and not after the current
one. -/
theorem bar_line_between {p q : ℚ} (hq0 : 0 ≤ q) (hqp : q ≤ p) (hlt : p - q < 4)
    (hcross : fmodQ (p - q) 4 > fmodQ p 4) :
    ∃ k : ℤ, q < 4 * (k : ℚ) ∧ 4 * (k : ℚ) ≤ p := by
  have hp0 : 0 ≤ p := le_trans hq0 hqp
  rw [fmodQ_of_range (by linarith) hlt, fmodQ_four_of_nonneg hp0] at hcross
  refine ⟨⌊p / 4⌋, by linarith, ?_⟩
  have := Int.floor_le (p / 4)
  linarith

theorem executeReset_offset (pos : PositionInfo) (p : ℚ) (s : Processor)
    (hp : pos.ppqPosition = some p) :
    (executeReset (some pos) s).ppqOffsetAtReset = p ∧
    (executeReset (some pos) s).hasResetOffset = true ∧
    (executeReset (some pos) s).resetCount = s.resetCount + 1 := by
  unfold executeReset notifyReset
  simp only [hp]
  split_ifs
  · exact ⟨rfl, rfl, rfl⟩
  · exact ⟨rfl, rfl, rfl⟩

theorem edgeStage_quantized (b : Build) (env : BlockEnv) (s : Processor)
    (hq : s.resetQuantize ≠ QuantizeValue.QUANTIZE_OFF) :
    (edgeStage b env s).resetCount = s.resetCount ∧
    (edgeStage b env s).resetQuantize = s.resetQuantize ∧
    (edgeStage b env s).quantizePhase = s.quantizePhase := by
  unfold edgeStage
  split_ifs
  · exact ⟨rfl, rfl, rfl⟩
  · exact ⟨rfl, rfl, rfl⟩

theorem armedStage_one_bar (env : BlockEnv) (pos : PositionInfo) (s : Processor)
    (henv : env.position = some pos) (hq : s.resetQuantize = QuantizeValue.QUANTIZE_1_BAR) :
    (armedStage env pos s).resetCount = s.resetCount ∨
    ∃ p, pos.ppqPosition = some p ∧
      (fmodQ (p - s.quantizePhase) 4 > fmodQ p 4 ∨ fmodQ p 4 < 1 / 100) ∧
      (armedStage env pos s).resetCount = s.resetCount + 1 ∧
      (armedStage env pos s).ppqOffsetAtReset = p ∧
      (armedStage env pos s).hasResetOffset = true := by
  unfold armedStage
  by_cases ha : s.resetArmed = true
  · rw [if_pos ha]
    rcases hp : pos.ppqPosition with _ | p
    · left
      have hr : isQuantizePoint s pos s.resetQuantize = (false, s) := by
        unfold isQuantizePoint
        rw [hq, if_neg (by decide)]
        simp only [hp]
      simp only [hr]
      rfl
    · have hr : isQuantizePoint s pos s.resetQuantize =
          (decide (fmodQ (p - s.quantizePhase) 4 > fmodQ p 4) || decide (fmodQ p 4 < 1 / 100),
            { s with quantizePhase := p }) := by
        unfold isQuantizePoint
        rw [hq, if_neg (by decide)]
        simp only [hp, quantumOf]
      simp only [hr]
      by_cases hfire : (decide (fmodQ (p - s.quantizePhase) 4 > fmodQ p 4) ||
          decide (fmodQ p 4 < 1 / 100)) = true
      · right
        rw [if_pos hfire, henv]
        obtain ⟨o1, o2, o3⟩ := executeReset_offset pos p { s with quantizePhase := p } hp
        refine ⟨p, rfl, ?_, o3, o1, o2⟩
        rw [Bool.or_eq_true, decide_eq_true_eq, decide_eq_true_eq] at hfire
        exact hfire
      · left
        rw [if_neg hfire]
  · left
    rw [if_neg ha]

theorem resetStage_offset (b : Build) (env : BlockEnv) (pos : PositionInfo) (s : Processor) :
    (resetStage b env pos s).ppqOffsetAtReset =
      (armedStage env pos (edgeStage b env s)).ppqOffsetAtReset ∧
    (resetStage b env pos s).hasResetOffset =
      (armedStage env pos (edgeStage b env s)).hasResetOffset := by
  unfold resetStage
  simp only []
  split_ifs
  · exact ⟨rfl, rfl⟩
  · exact ⟨rfl, rfl⟩

/-- C11 (counterexample): under 1-bar quantization a reset armed and tested at PPQ 3.75
is executed in the next block, at host PPQ 4.125: 0.125 beats past the bar line, not a
multiple of 4, and 4.125 is the PPQ offset recorded at the reset. -/
theorem one_bar_reset_counterexample :
    Example.armedOneBar.resetQuantize = QuantizeValue.QUANTIZE_1_BAR ∧
    Example.armedOneBar.resetArmed = true ∧
    (processBlock Example.build Example.fullTable (Example.stoppedAt (33 / 8))
      Example.armedOneBar []).1.resetCount = Example.armedOneBar.resetCount + 1 ∧
    (processBlock Example.build Example.fullTable (Example.stoppedAt (33 / 8))
      Example.armedOneBar []).1.ppqOffsetAtReset = 33 / 8 ∧
    fmodQ (33 / 8) 4 = 1 / 8 ∧
    ¬ (fmodQ ((processBlock Example.build Example.fullTable (Example.stoppedAt (33 / 8))
      Example.armedOneBar []).1.ppqOffsetAtReset) 4 = 0) := by
  decide!

/-- C11 (amended): with reset quantization set to 1 bar, a block executes a reset only
when the host reports a PPQ position `p` that passes the crossing test against the
position `q` stored by the previous test: `fmod (p - q, 4) > fmod (p, 4)`, or
`fmod (p, 4) < 0.01`.  For `0 ≤ q ≤ p` with `p - q` less than a bar this means that a bar
line lies in `(q, p]` or that `p` is less than 0.01 past a bar line: the reset is executed
in the first tested block at or after the bar line, not at the bar line itself.  The block
executes one reset, and the PPQ offset recorded at the reset is `p`, the position of that
block. -/
theorem one_bar_reset_at_crossing (b : Build) (node_table : NodeTable) (env : BlockEnv)
    (s : Processor) (midiMessages : MidiBuffer)
    (hq : s.resetQuantize = QuantizeValue.QUANTIZE_1_BAR)
    (hfire : (processBlock b node_table env s midiMessages).1.resetCount ≠ s.resetCount) :
    ∃ pos p, env.position = some pos ∧ pos.ppqPosition = some p ∧
      (fmodQ (p - s.quantizePhase) 4 > fmodQ p 4 ∨ fmodQ p 4 < 1 / 100) ∧
      (0 ≤ s.quantizePhase → s.quantizePhase ≤ p → p - s.quantizePhase < 4 →
        ((∃ k : ℤ, s.quantizePhase < 4 * (k : ℚ) ∧ 4 * (k : ℚ) ≤ p) ∨ fmodQ p 4 < 1 / 100)) ∧
      (processBlock b node_table env s midiMessages).1.resetCount = s.resetCount + 1 ∧
      (resetStage b env pos
        (countInExit (handleIncoming s midiMessages) (inCountInOf pos))).ppqOffsetAtReset = p ∧
      (resetStage b env pos
        (countInExit (handleIncoming s midiMessages) (inCountInOf pos))).hasResetOffset
          = true := by
  by_cases hreach : reachesResetCheck env s midiMessages = true
  · obtain ⟨pos, hpos, p1, _, _⟩ := processBlock_control b node_table env s midiMessages hreach
    obtain ⟨v, c, l, hh⟩ := handleIncoming_frame s midiMessages
    have hc0 : (handleIncoming s midiMessages).resetCount = s.resetCount := by rw [hh]
    have hq0 : (handleIncoming s midiMessages).resetQuantize = s.resetQuantize := by rw [hh]
    have hp0 : (handleIncoming s midiMessages).quantizePhase = s.quantizePhase := by rw [hh]
    obtain ⟨x1, _, _, x4, _⟩ :=
      countInExit_control (handleIncoming s midiMessages) (inCountInOf pos)
    have x6 : (countInExit (handleIncoming s midiMessages) (inCountInOf pos)).quantizePhase =
        (handleIncoming s midiMessages).quantizePhase := by
      unfold countInExit
      simp only []
      split_ifs <;> rfl
    generalize hs2 : countInExit (handleIncoming s midiMessages) (inCountInOf pos) = s2
      at p1 x1 x4 x6
    have hq2 : s2.resetQuantize = QuantizeValue.QUANTIZE_1_BAR := by rw [x4, hq0, hq]
    obtain ⟨e1, e2, e3⟩ := edgeStage_quantized b env s2 (by rw [hq2]; decide)
    obtain ⟨f1, _, _, _⟩ := resetStage_fields b env pos s2
    obtain ⟨g1, g2⟩ := resetStage_offset b env pos s2
    rcases armedStage_one_bar env pos (edgeStage b env s2) hpos (by rw [e2, hq2]) with hno | hyes
    · exfalso
      apply hfire
      rw [p1, f1, hno, e1, x1, hc0]
    · obtain ⟨p, hp, hcond, a1, a2, a3⟩ := hyes
      rw [e3, x6, hp0] at hcond
      refine ⟨pos, p, hpos, hp, hcond, ?_, ?_, ?_, ?_⟩
      · intro k0 k1 k2
        rcases hcond with hcross | hnear
        · exact Or.inl (bar_line_between k0 k1 k2 hcross)
        · exact Or.inr hnear
      · rw [p1, f1, a1, e1, x1, hc0]
      · rw [hs2, g1, a2]
      · rw [hs2, g2, a3]
  · exfalso
    apply hfire
    exact (processBlock_unreached b node_table env s midiMessages
      (by simpa only [Bool.not_eq_true] using hreach)).1

/-- Witness for C11 (amended): the reset armed at PPQ 3.75 is executed in the block at
PPQ 4.125. -/
theorem one_bar_reset_at_crossing_witness :
    Example.armedOneBar.resetQuantize = QuantizeValue.QUANTIZE_1_BAR ∧
    (processBlock Example.build Example.fullTable (Example.stoppedAt (33 / 8))
      Example.armedOneBar []).1.resetCount ≠ Example.armedOneBar.resetCount ∧
    ∃ pos p, (Example.stoppedAt (33 / 8)).position = some pos ∧ pos.ppqPosition = some p ∧
      (fmodQ (p - Example.armedOneBar.quantizePhase) 4 > fmodQ p 4 ∨ fmodQ p 4 < 1 / 100) ∧
      (processBlock Example.build Example.fullTable (Example.stoppedAt (33 / 8))
        Example.armedOneBar []).1.resetCount = Example.armedOneBar.resetCount + 1 :=
  ⟨by decide!, by decide!,
    (one_bar_reset_at_crossing Example.build Example.fullTable (Example.stoppedAt (33 / 8))
      Example.armedOneBar [] (by decide!) (by decide!)).elim
      (fun pos h => h.elim (fun p hp => ⟨pos, p, hp.1, hp.2.1, hp.2.2.1, hp.2.2.2.2.1⟩))⟩

end Processor

namespace Processor

end Processor

namespace Processor

theorem processBlock_running (b : Build) (node_table : NodeTable) (env : BlockEnv)
    (s : Processor) (midiMessages : MidiBuffer) (pos : PositionInfo)
    (hpos : env.position = some pos)
    (hreach : reachesResetCheck env s midiMessages = true)
    (hplay : pos.isPlaying = true) :
    processBlock b node_table env s midiMessages =
      sampleLoops b node_table (modulationInBlock env pos) env.numSamples pos
        ((handleIncoming s midiMessages).wasInCountIn && !inCountInOf pos)
        (retriggerStage b node_table (modulationInBlock env pos)
          (blockEntry b env pos s midiMessages, bufferEntry b env pos s midiMessages)) := by
  unfold reachesResetCheck at hreach
  rw [hpos] at hreach
  simp only [] at hreach
  have hnot : ¬ ((inCountInOf pos &&
      !decide ((handleIncoming s midiMessages).parameters.live_mode > 1 / 2)) = true) := by
    intro hc
    rw [hc] at hreach
    exact absurd hreach Bool.false_ne_true
  have hgen : ¬ ((!pos.isPlaying && !pos.isRecording &&
      !decide ((handleIncoming s midiMessages).parameters.live_mode > 1 / 2)) = true) := by
    rw [hplay]
    simp
  unfold processBlock
  simp only [hpos]
  rw [if_neg hnot, if_neg hgen]
  rfl

end Processor

namespace Processor

theorem chaosIfDense_currentStep (e : GridsEngine) (density : ℚ) (trigger : Bool) :
    (GridsEngine.chaosIfDense e density trigger).2.currentStep_ = e.currentStep_ := by
  unfold GridsEngine.chaosIfDense GridsEngine.applyChaos
  simp only []
  split_ifs <;> rfl

theorem evaluateDrums_currentStep (node_table : NodeTable) (e : GridsEngine) :
    (GridsEngine.evaluateDrums node_table e).currentStep_ = e.currentStep_ := by
  by_cases hc : e.chaos_ > 0
  · simp only [GridsEngine.evaluateDrums, if_pos hc, chaosIfDense_currentStep]
  · simp only [GridsEngine.evaluateDrums, if_neg hc]

theorem emitNoteOns_engine (b : Build) (modulation : Destination → ℚ) (sample : ℤ)
    (st : Processor × MidiBuffer) :
    (emitNoteOns b modulation sample st).1.gridsEngine = st.1.gridsEngine ∧
    (emitNoteOns b modulation sample st).1.currentPatternStep = st.1.currentPatternStep := by
  obtain ⟨r, hr⟩ := emitNoteOns_frame b modulation sample st
  rw [hr]
  exact ⟨rfl, rfl⟩

theorem ppqSample_cases (b : Build) (node_table : NodeTable) (modulation : Destination → ℚ)
    (currentPpq ppqPerSample : ℚ) (justExitedCountIn : Bool)
    (st : Processor × MidiBuffer) (sample : ℕ) :
    ppqSample b node_table modulation currentPpq ppqPerSample justExitedCountIn st sample = st ∨
    ∃ e, (ppqSample b node_table modulation currentPpq ppqPerSample justExitedCountIn st
        sample).1.gridsEngine = GridsEngine.evaluateDrums node_table e ∧
      e.currentStep_ = (ppqSample b node_table modulation currentPpq ppqPerSample
        justExitedCountIn st sample).1.currentPatternStep := by
  unfold ppqSample
  simp only []
  split_ifs with h
  · right
    obtain ⟨g1, g2⟩ := emitNoteOns_engine b modulation sample
      ({ st.1 with
          gridsEngine := (st.1.gridsEngine.setCurrentStep
            (stepForPpq st.1.hasResetOffset st.1.ppqOffsetAtReset
              (swingAdjust st.1.parameters.swing
                (currentPpq + (sample : ℚ) * ppqPerSample)))).evaluateDrums node_table
          currentPatternStep := stepForPpq st.1.hasResetOffset st.1.ppqOffsetAtReset
              (swingAdjust st.1.parameters.swing
                (currentPpq + (sample : ℚ) * ppqPerSample)) },
        emitNoteOffs _ st.2 sample st.1.gridsEngine.bdTrigger_ st.1.gridsEngine.sdTrigger_
          st.1.gridsEngine.hhTrigger_)
    refine ⟨_, g1, ?_⟩
    rw [g2]
    obtain ⟨r0, r1⟩ := stepForPpq_range st.1.hasResetOffset st.1.ppqOffsetAtReset
      (swingAdjust st.1.parameters.swing (currentPpq + (sample : ℚ) * ppqPerSample))
    show (stepForPpq st.1.hasResetOffset st.1.ppqOffsetAtReset
      (swingAdjust st.1.parameters.swing (currentPpq + (sample : ℚ) * ppqPerSample))).tmod 32
      = _
    rw [Int.tmod_eq_emod r0 (by decide)]
    exact Int.emod_eq_of_lt r0 r1
  · left
    rfl

theorem ppqLoop_cases (b : Build) (node_table : NodeTable) (modulation : Destination → ℚ)
    (currentPpq ppqPerSample : ℚ) (justExitedCountIn : Bool) (samples : List ℕ)
    (st : Processor × MidiBuffer) :
    samples.foldl
        (ppqSample b node_table modulation currentPpq ppqPerSample justExitedCountIn) st = st ∨
    ∃ e, (samples.foldl
          (ppqSample b node_table modulation currentPpq ppqPerSample justExitedCountIn)
          st).1.gridsEngine = GridsEngine.evaluateDrums node_table e ∧
      e.currentStep_ = (samples.foldl
          (ppqSample b node_table modulation currentPpq ppqPerSample justExitedCountIn)
          st).1.currentPatternStep := by
  induction samples using List.reverseRecOn with
  | nil => exact Or.inl rfl
  | append_singleton rest n ih =>
    rw [List.foldl_append, List.foldl_cons, List.foldl_nil]
    rcases ppqSample_cases b node_table modulation currentPpq ppqPerSample justExitedCountIn
      (rest.foldl
        (ppqSample b node_table modulation currentPpq ppqPerSample justExitedCountIn) st)
      n with hsame | hev
    · rw [hsame]
      exact ih
    · exact Or.inr hev

theorem fallbackSample_cases (b : Build) (node_table : NodeTable)
    (modulation : Destination → ℚ) (st : Processor × MidiBuffer) (sample : ℕ) :
    ((fallbackSample b node_table modulation st sample).1.gridsEngine = st.1.gridsEngine ∧
      (fallbackSample b node_table modulation st sample).1.currentPatternStep =
        st.1.currentPatternStep ∧
      (fallbackSample b node_table modulation st sample).2 = st.2) ∨
    ((fallbackSample b node_table modulation st sample).1.gridsEngine =
        GridsEngine.tick node_table st.1.gridsEngine ∧
      (fallbackSample b node_table modulation st sample).1.currentPatternStep =
        (st.1.currentPatternStep + 1).tmod 32) := by
  unfold fallbackSample
  simp only []
  split_ifs
  · right
    obtain ⟨g1, g2⟩ := emitNoteOns_engine b modulation sample
      ({ st.1 with
          sampleCounter := 0
          gridsEngine := st.1.gridsEngine.tick node_table
          currentPatternStep := (st.1.currentPatternStep + 1).tmod 32 },
        emitNoteOffs _ st.2 sample st.1.gridsEngine.bdTrigger_ st.1.gridsEngine.sdTrigger_
          st.1.gridsEngine.hhTrigger_)
    exact ⟨g1, g2⟩
  · exact Or.inl ⟨rfl, rfl, rfl⟩
  · exact Or.inl ⟨rfl, rfl, rfl⟩

theorem tick_currentStep (node_table : NodeTable) (e : GridsEngine) :
    (GridsEngine.tick node_table e).currentStep_ = (e.currentStep_ + 1).tmod 32 := by
  unfold GridsEngine.tick
  simp only [evaluateDrums_currentStep]

theorem fallbackLoop_cases (b : Build) (node_table : NodeTable)
    (modulation : Destination → ℚ) (samples : List ℕ) (st : Processor × MidiBuffer) :
    (((samples.foldl (fallbackSample b node_table modulation) st).1.gridsEngine =
          st.1.gridsEngine ∧
        (samples.foldl (fallbackSample b node_table modulation) st).1.currentPatternStep =
          st.1.currentPatternStep ∧
        (samples.foldl (fallbackSample b node_table modulation) st).2 = st.2) ∨
      ∃ e, (samples.foldl (fallbackSample b node_table modulation) st).1.gridsEngine =
          GridsEngine.tick node_table e ∧
        (st.1.currentPatternStep = st.1.gridsEngine.currentStep_ →
          (samples.foldl (fallbackSample b node_table modulation) st).1.currentPatternStep =
            (e.currentStep_ + 1).tmod 32)) ∧
    (st.1.currentPatternStep = st.1.gridsEngine.currentStep_ →
      (samples.foldl (fallbackSample b node_table modulation) st).1.currentPatternStep =
        (samples.foldl (fallbackSample b node_table modulation) st).1.gridsEngine.currentStep_)
    := by
  induction samples using List.reverseRecOn with
  | nil => exact ⟨Or.inl ⟨rfl, rfl, rfl⟩, fun h => h⟩
  | append_singleton rest n ih =>
    rw [List.foldl_append, List.foldl_cons, List.foldl_nil]
    obtain ⟨ih1, ih2⟩ := ih
    rcases fallbackSample_cases b node_table modulation
      (rest.foldl (fallbackSample b node_table modulation) st) n with
      ⟨s1, s2, s3⟩ | ⟨t1, t2⟩
    · rw [s1, s2, s3]
      exact ⟨ih1, ih2⟩
    · refine ⟨Or.inr ⟨_, t1, fun hsync => ?_⟩, fun hsync => ?_⟩
      · rw [t2, ih2 hsync]
      · rw [t1, t2, tick_currentStep, ih2 hsync]

/-- C17 (counterexample): a free-running block of 400 samples (300 BPM at 8000 Hz, no PPQ
position) ticks once, at sample 399.  The tick evaluates step 0, where the bass drum has
intensity 255 and triggers, and leaves `currentPatternStep` at 1, a step whose intensity
is 0: `currentPatternStep` is not the step of the most recent trigger evaluation. -/
theorem step_after_tick_counterexample :
    (processBlock Example.build Example.firstStepTable Example.freeRunning
      Example.start8k []).2 = [⟨MidiMessage.noteOn 1 36 113, 399⟩] ∧
    (processBlock Example.build Example.firstStepTable Example.freeRunning
      Example.start8k []).1.gridsEngine.bdTrigger_ = true ∧
    GridsEngine.readDrumMap Example.firstStepTable (processBlock Example.build
      Example.firstStepTable Example.freeRunning Example.start8k []).1.gridsEngine 0 0 = 255 ∧
    GridsEngine.readDrumMap Example.firstStepTable (processBlock Example.build
      Example.firstStepTable Example.freeRunning Example.start8k []).1.gridsEngine 0 1 = 0 ∧
    (processBlock Example.build Example.firstStepTable Example.freeRunning
      Example.start8k []).1.currentPatternStep = 1 := by
  decide!

/-- C17 (amended): over the sample loops of a block, in PPQ-synced mode either no step is
evaluated and nothing changes, or `currentPatternStep` equals the pattern-source step
index used for the most recent trigger evaluation.  In free-running mode either no tick
happens and engine, step and buffer are unchanged, or the engine is the result of a tick:
the most recent evaluation used the engine step `k` before that tick, and when
`currentPatternStep` and the engine step were equal at loop entry they are equal
afterwards, both `(k + 1) mod 32`, the successor of the step evaluated. -/
theorem step_tracks_evaluation (b : Build) (node_table : NodeTable)
    (modulation : Destination → ℚ) (numSamples : ℕ) (pos : PositionInfo)
    (justExitedCountIn : Bool) (st : Processor × MidiBuffer) :
    (∀ p bpm, pos.ppqPosition = some p → pos.bpm = some bpm → bpm > 0 →
      (sampleLoops b node_table modulation numSamples pos justExitedCountIn st = st ∨
        ∃ e, (sampleLoops b node_table modulation numSamples pos justExitedCountIn
            st).1.gridsEngine = GridsEngine.evaluateDrums node_table e ∧
          e.currentStep_ = (sampleLoops b node_table modulation numSamples pos
            justExitedCountIn st).1.currentPatternStep)) ∧
    ((pos.ppqPosition = none ∨ pos.bpm = none ∨ ∃ bpm, pos.bpm = some bpm ∧ ¬ bpm > 0) →
      (((sampleLoops b node_table modulation numSamples pos justExitedCountIn
              st).1.gridsEngine = st.1.gridsEngine ∧
          (sampleLoops b node_table modulation numSamples pos justExitedCountIn
              st).1.currentPatternStep = st.1.currentPatternStep ∧
          (sampleLoops b node_table modulation numSamples pos justExitedCountIn st).2
            = st.2) ∨
        ∃ e, (sampleLoops b node_table modulation numSamples pos justExitedCountIn
            st).1.gridsEngine = GridsEngine.tick node_table e ∧
          (st.1.currentPatternStep = st.1.gridsEngine.currentStep_ →
            (sampleLoops b node_table modulation numSamples pos justExitedCountIn
              st).1.currentPatternStep = (e.currentStep_ + 1).tmod 32)) ∧
      (st.1.currentPatternStep = st.1.gridsEngine.currentStep_ →
        (sampleLoops b node_table modulation numSamples pos justExitedCountIn
            st).1.currentPatternStep =
          (sampleLoops b node_table modulation numSamples pos justExitedCountIn
            st).1.gridsEngine.currentStep_)) := by
  constructor
  · intro p bpm hp hb hpos
    unfold sampleLoops
    simp only [hp, hb, if_pos hpos]
    exact ppqLoop_cases b node_table modulation _ _ justExitedCountIn _ st
  · intro hfree
    have hloop : sampleLoops b node_table modulation numSamples pos justExitedCountIn st =
        (List.range numSamples).foldl (fallbackSample b node_table modulation) st := by
      unfold sampleLoops
      rcases hfree with h | h | ⟨bpm, h1, h2⟩
      · simp only [h]
      · rcases hp : pos.ppqPosition with _ | p
        · simp only [h]
        · simp only [h]
      · rcases hp : pos.ppqPosition with _ | p
        · simp only [h1]
        · simp only [h1, if_neg h2]
    rw [hloop]
    exact fallbackLoop_cases b node_table modulation _ st

/-- Witness for C17 (amended): a one-sample PPQ-synced block at PPQ 0.25 from the
processor `start`: step 1 is evaluated and is the pattern step afterwards. -/
theorem step_tracks_evaluation_witness :
    (Example.playingAt (1 / 4)).position = some ⟨some (1 / 4), some 120, true, false⟩ ∧
    ((120 : ℚ) > 0) ∧
    (sampleLoops Example.build Example.fullTable (fun _ => 0) 1
        ⟨some (1 / 4), some 120, true, false⟩ false (Example.start, []) =
          (Example.start, []) ∨
      ∃ e, (sampleLoops Example.build Example.fullTable (fun _ => 0) 1
          ⟨some (1 / 4), some 120, true, false⟩ false (Example.start, [])).1.gridsEngine =
            GridsEngine.evaluateDrums Example.fullTable e ∧
        e.currentStep_ = (sampleLoops Example.build Example.fullTable (fun _ => 0) 1
          ⟨some (1 / 4), some 120, true, false⟩ false
          (Example.start, [])).1.currentPatternStep) :=
  ⟨rfl, by norm_num,
    (step_tracks_evaluation Example.build Example.fullTable (fun _ => 0) 1
      ⟨some (1 / 4), some 120, true, false⟩ false (Example.start, [])).1 (1 / 4) 120 rfl rfl
      (by norm_num)⟩

end Processor

namespace Processor

theorem stepForPpq_first_sixteenth (offset a : ℚ) (h0 : 0 ≤ a) (h1 : a < 1 / 4) :
    stepForPpq false offset a = 0 := by
  unfold stepForPpq
  have hz : truncQ (a * 4) = 0 := by
    rw [truncQ_of_nonneg (by linarith)]
    exact Int.floor_eq_zero_iff.mpr ⟨by linarith, by linarith⟩
  simp [hz]

theorem swingAdjust_of_early (swing p : ℚ) (h0 : 0 ≤ p) (h1 : p < 1 / 4)
    (h : swing = 1 / 2 ∨ p ≤ 1 / 5) : swingAdjust swing p = p := by
  unfold swingAdjust
  rcases h with h | h
  · rw [if_neg (not_not.mpr h)]
  · have hw : ¬ ((fmodQ p 1 > 1 / 5 ∧ fmodQ p 1 < 3 / 10) ∨
        (fmodQ p 1 > 7 / 10 ∧ fmodQ p 1 < 4 / 5)) := by
      rw [fmodQ_of_range h0 (by linarith)]
      intro hc
      rcases hc with ⟨hw1, _⟩ | ⟨hw1, _⟩ <;> linarith
    simp only [if_neg hw, ite_self]

theorem countIn_block_sets_flag (b : Build) (node_table : NodeTable) (envPrev : BlockEnv)
    (sPrev : Processor) (midiPrev : MidiBuffer) (posPrev : PositionInfo) (pPrev : ℚ)
    (hprev : envPrev.position = some posPrev) (hpPrev : posPrev.ppqPosition = some pPrev)
    (hneg : pPrev < 0)
    (hlive : ¬ ((handleIncoming sPrev midiPrev).parameters.live_mode > 1 / 2)) :
    (processBlock b node_table envPrev sPrev midiPrev).1.wasInCountIn = true := by
  have hin : inCountInOf posPrev = true := by
    unfold inCountInOf
    simp only [hpPrev, decide_eq_true_eq]
    exact hneg
  unfold processBlock
  simp only [hprev, hin]
  rw [if_pos (by simp only [Bool.true_and, Bool.not_eq_true', decide_eq_false_iff_not]; exact hlive)]
  unfold countInHold
  simp only []

/-- C18 (counterexample): with swing at 1 and after a count-in block, the first block
begins at PPQ 0.234375, inside the first sixteenth.  Swing moves its first sample to
0.284375, so the step evaluated at sample 0 is step 1, not step 0: on a table where only
step 0 of the bass drum sounds the block emits nothing and ends on step 1, while the same
block at PPQ 0 emits the bass-drum note-on of step 0. -/
theorem first_step_after_count_in_counterexample :
    Example.swungAfterCountIn.wasInCountIn = true ∧
    (processBlock Example.build Example.firstStepTable (Example.playingAt (15 / 64))
      Example.swungAfterCountIn []).2 = [] ∧
    (processBlock Example.build Example.firstStepTable (Example.playingAt (15 / 64))
      Example.swungAfterCountIn []).1.currentPatternStep = 1 ∧
    (processBlock Example.build Example.firstStepTable (Example.playingAt (15 / 64))
      Example.swungAfterCountIn []).1.gridsEngine.currentStep_ = 1 ∧
    (processBlock Example.build Example.firstStepTable (Example.playingAt 0)
      Example.swungAfterCountIn []).2 = [⟨MidiMessage.noteOn 1 36 113, 0⟩] := by
  decide!

/-- C18 (amended): on the first block after count-in (the previous block had negative
host PPQ with live mode off, the current block has PPQ `p ≥ 0`), in every state the
pattern-source step, `currentPatternStep` and the sample counter are 0 after the count-in
check at the start of the block, and the block is handled as having just left count-in.
When the transport is playing the block runs the sample loops from its loop entry state,
beginning with sample 0; and when the block begins within the first sixteenth
(`p < 0.25`), no reset offset is active at loop entry and the swing-adjusted position of
the first sample is still within the first sixteenth (as it is for swing 0.5 and for
`p ≤ 0.20`), the loop body at sample offset 0 evaluates step 0. -/
theorem first_block_after_count_in (b : Build) (node_table : NodeTable)
    (envPrev env : BlockEnv) (sPrev : Processor) (midiPrev midiMessages : MidiBuffer)
    (posPrev pos : PositionInfo) (pPrev p : ℚ)
    (hprev : envPrev.position = some posPrev) (hpPrev : posPrev.ppqPosition = some pPrev)
    (hneg : pPrev < 0)
    (hlive : ¬ ((handleIncoming sPrev midiPrev).parameters.live_mode > 1 / 2))
    (hpos : env.position = some pos) (hp : pos.ppqPosition = some p) (hp0 : 0 ≤ p) :
    (countInExit (handleIncoming (processBlock b node_table envPrev sPrev midiPrev).1
        midiMessages) (inCountInOf pos)).gridsEngine.currentStep_ = 0 ∧
    (countInExit (handleIncoming (processBlock b node_table envPrev sPrev midiPrev).1
        midiMessages) (inCountInOf pos)).currentPatternStep = 0 ∧
    (countInExit (handleIncoming (processBlock b node_table envPrev sPrev midiPrev).1
        midiMessages) (inCountInOf pos)).sampleCounter = 0 ∧
    (pos.isPlaying = true →
      processBlock b node_table env (processBlock b node_table envPrev sPrev midiPrev).1
          midiMessages =
        sampleLoops b node_table (modulationInBlock env pos) env.numSamples pos true
          (loopEntry b node_table env pos (processBlock b node_table envPrev sPrev midiPrev).1
            midiMessages)) ∧
    (∀ (bpm : ℚ) (n : ℕ) (st : Processor × MidiBuffer), pos.bpm = some bpm → bpm > 0 →
      sampleLoops b node_table (modulationInBlock env pos) (n + 1) pos true st =
        (List.map Nat.succ (List.range n)).foldl
          (ppqSample b node_table (modulationInBlock env pos) p
            ((bpm / 60) / st.1.currentSampleRate) true)
          (ppqSample b node_table (modulationInBlock env pos) p
            ((bpm / 60) / st.1.currentSampleRate) true st 0)) ∧
    (∀ (ppqPerSample : ℚ) (st : Processor × MidiBuffer), p < 1 / 4 →
      st.1.hasResetOffset = false →
      0 ≤ swingAdjust st.1.parameters.swing p → swingAdjust st.1.parameters.swing p < 1 / 4 →
      ppqSample b node_table (modulationInBlock env pos) p ppqPerSample true st 0 =
        evaluatedAt b node_table (modulationInBlock env pos) 0 0 st) ∧
    (∀ swing : ℚ, p < 1 / 4 → (swing = 1 / 2 ∨ p ≤ 1 / 5) → swingAdjust swing p = p) := by
  have hflag := countIn_block_sets_flag b node_table envPrev sPrev midiPrev posPrev pPrev
    hprev hpPrev hneg hlive
  generalize (processBlock b node_table envPrev sPrev midiPrev).1 = s at hflag ⊢
  obtain ⟨v, c, l, hh⟩ := handleIncoming_frame s midiMessages
  have hw : (handleIncoming s midiMessages).wasInCountIn = true := by
    rw [hh]
    exact hflag
  have hout : inCountInOf pos = false := by
    unfold inCountInOf
    simp only [hp, decide_eq_false_iff_not, not_lt]
    exact hp0
  have hexit : countInExit (handleIncoming s midiMessages) (inCountInOf pos) =
      { handleIncoming s midiMessages with
        gridsEngine := (handleIncoming s midiMessages).gridsEngine.reset
        sampleCounter := 0
        currentPatternStep := 0
        wasInCountIn := false } := by
    unfold countInExit
    simp only [hw, hout, Bool.not_false, Bool.and_self, if_true]
  refine ⟨by rw [hexit]; rfl, by rw [hexit], by rw [hexit], ?_, ?_, ?_, ?_⟩
  · intro hplay
    have hreach : reachesResetCheck env s midiMessages = true := by
      unfold reachesResetCheck
      simp only [hpos, hout, Bool.false_and, Bool.not_false]
    rw [processBlock_running b node_table env s midiMessages pos hpos hreach hplay, hw, hout]
    rfl
  · intro bpm n st hb hbpos
    unfold sampleLoops
    simp only [hp, hb, if_pos hbpos]
    rw [List.range_succ_eq_map, List.foldl_cons]
  · intro ppqPerSample st hlt hoff ha0 ha1
    have hsample : p + ((0 : ℕ) : ℚ) * ppqPerSample = p := by
      rw [Nat.cast_zero, zero_mul, add_zero]
    have htarget : stepForPpq st.1.hasResetOffset st.1.ppqOffsetAtReset
        (swingAdjust st.1.parameters.swing (p + ((0 : ℕ) : ℚ) * ppqPerSample)) = 0 := by
      rw [hsample, hoff]
      exact stepForPpq_first_sixteenth _ _ ha0 ha1
    unfold ppqSample evaluatedAt
    simp only []
    rw [htarget]
    split_ifs with hc
    · rfl
    · exfalso
      apply hc
      simp
  · intro swing hlt hsw
    exact swingAdjust_of_early swing p hp0 hlt hsw

/-- Witness for C18 (amended): a count-in block at PPQ -1 followed by a playing block at
PPQ 0, default parameters. -/
theorem first_block_after_count_in_witness :
    (Example.playingAt (-1)).position = some ⟨some (-1), some 120, true, false⟩ ∧
    ((-1 : ℚ) < 0) ∧
    ¬ ((handleIncoming Example.start []).parameters.live_mode > 1 / 2) ∧
    (Example.playingAt 0).position = some ⟨some 0, some 120, true, false⟩ ∧
    ((0 : ℚ) ≤ 0) ∧
    (countInExit (handleIncoming (processBlock Example.build Example.firstStepTable
        (Example.playingAt (-1)) Example.start []).1 [])
      (inCountInOf ⟨some 0, some 120, true, false⟩)).currentPatternStep = 0 :=
  ⟨rfl, by norm_num, by decide!, rfl, le_refl _,
    (first_block_after_count_in Example.build Example.firstStepTable (Example.playingAt (-1))
      (Example.playingAt 0) Example.start [] [] ⟨some (-1), some 120, true, false⟩
      ⟨some 0, some 120, true, false⟩ (-1) 0 rfl rfl (by norm_num) (by decide!) rfl rfl
      (le_refl _)).2.1⟩

end Processor

namespace EuclideanTables

set_option maxRecDepth 100000 in
theorem allEndsOk_true : allEndsOk = true := by decide!

theorem endsOk_of_range {n h : ℕ} (hn32 : n ≤ 32) (hh : 0 < h) (hhn : h < n) :
    endsOk n h = true := by
  have key := allEndsOk_true
  unfold allEndsOk at key
  rw [List.all_eq_true] at key
  have k1 := key n (List.mem_range.mpr (by omega))
  rw [List.all_eq_true] at k1
  have k2 := k1 h (List.mem_range.mpr (by omega))
  rw [Bool.or_eq_true, decide_eq_true_eq] at k2
  rcases k2 with k2 | k2
  · omega
  · exact k2

/-- C28: for every length in [2,32] and every hits with `0 < hits < length`, the generated
pattern has no hit on slot 0 and a hit on the last slot `length - 1` (in the computed
word, in the cached table, and as answered by `shouldTrigger`); and for every length in
[1,32] and `hits ≥ 0`, slot 0 is a hit exactly for the all-hits pattern
(`hits ≥ length`). -/
theorem euclid_first_last (length hits : ℤ) (h1 : 1 ≤ length) (h32 : length ≤ 32)
    (hh : 0 ≤ hits) :
    (0 < hits → hits < length →
      (computeEuclideanPattern hits length).testBit 0 = false ∧
      (computeEuclideanPattern hits length).testBit (length - 1).toNat = true ∧
      getPattern length hits = computeEuclideanPattern hits length ∧
      shouldTrigger (getPattern length hits) 0 = false ∧
      shouldTrigger (getPattern length hits) (length - 1) = true) ∧
    ((computeEuclideanPattern hits length).testBit 0 = true ↔ length ≤ hits) := by
  obtain ⟨n, rfl⟩ := Int.eq_ofNat_of_zero_le (by omega : 0 ≤ length)
  obtain ⟨h, rfl⟩ := Int.eq_ofNat_of_zero_le hh
  have hn32 : n ≤ 32 := by omega
  have hn1 : 1 ≤ n := by omega
  have hends : ∀ (_ : 0 < h) (_ : h < n),
      (computeEuclideanPattern h n).testBit 0 = false ∧
      (computeEuclideanPattern h n).testBit (n - 1) = true := by
    intro hpos hlt
    have k := endsOk_of_range hn32 hpos hlt
    unfold endsOk at k
    rw [Bool.and_eq_true, Bool.not_eq_true'] at k
    exact k
  have hcache : getPattern n h = computeEuclideanPattern h n ∨ n < h := by
    by_cases hgt : n < h
    · exact Or.inr hgt
    · left
      unfold getPattern
      rw [if_neg (by omega), if_neg (by omega), if_neg (by omega)]
      unfold patterns_
      have e1 : (((n : ℤ) - 1).toNat : ℤ) = (n : ℤ) - 1 := Int.toNat_of_nonneg (by omega)
      rw [Int.toNat_ofNat, e1]
      congr 1
      omega
  constructor
  · intro hpos hlt
    have hpos' : 0 < h := by omega
    have hlt' : h < n := by omega
    obtain ⟨a, c⟩ := hends hpos' hlt'
    have hg : getPattern n h = computeEuclideanPattern h n := by
      rcases hcache with hc | hc
      · exact hc
      · omega
    have e1 : ((n : ℤ) - 1).toNat = n - 1 := by omega
    refine ⟨a, ?_, hg, ?_, ?_⟩
    · rw [e1]; exact c
    · rw [hg]
      have k := EuclideanEngine.shouldTrigger_eq_testBit (computeEuclideanPattern h n) 0
      rw [Nat.cast_zero, Nat.zero_mod] at k
      rw [k, a]
    · rw [hg]
      have k := EuclideanEngine.shouldTrigger_eq_testBit (computeEuclideanPattern h n) (n - 1)
      have e2 : ((n - 1 : ℕ) : ℤ) = (n : ℤ) - 1 := by omega
      have e3 : (n - 1) % 32 = n - 1 := Nat.mod_eq_of_lt (by omega)
      rw [e2, e3] at k
      rw [k, c]
  · constructor
    · intro hbit
      by_contra hnot
      have hlt : h < n := by omega
      by_cases h0 : h = 0
      · subst h0
        unfold computeEuclideanPattern at hbit
        rw [if_neg (by omega), if_pos (by rfl)] at hbit
        simp at hbit
      · have := (hends (by omega) hlt).1
        rw [this] at hbit
        exact Bool.false_ne_true hbit
    · intro hle
      unfold computeEuclideanPattern
      rw [if_pos (by omega)]
      decide

end EuclideanTables

namespace EuclideanTables

/-- Witness for C28: 5 hits on 13 slots. -/
theorem euclid_first_last_witness :
    (1 : ℤ) ≤ 13 ∧ (13 : ℤ) ≤ 32 ∧ (0 : ℤ) ≤ 5 ∧
    (computeEuclideanPattern 5 13).testBit 0 = false ∧
    (computeEuclideanPattern 5 13).testBit ((13 : ℤ) - 1).toNat = true ∧
    ((computeEuclideanPattern 5 13).testBit 0 = true ↔ (13 : ℤ) ≤ 5) :=
  ⟨by decide, by decide, by decide,
    ((euclid_first_last 13 5 (by decide) (by decide) (by decide)).1 (by decide) (by decide)).1,
    ((euclid_first_last 13 5 (by decide) (by decide) (by decide)).1 (by decide)
      (by decide)).2.1,
    (euclid_first_last 13 5 (by decide) (by decide) (by decide)).2⟩

end EuclideanTables

namespace EuclideanEngine

theorem voiceIndex_none (instrument : ℤ) (h : instrument < 0 ∨ 3 ≤ instrument) :
    voiceIndex instrument = none := by
  unfold voiceIndex
  rw [dif_neg (by omega)]

/-- C22: for every voice index outside {0,1,2}, every engine state and every argument,
`shouldTrigger` returns false, `getLength` returns 16, `getStep` returns 0, `getPattern`
returns 0 and `setLength` returns the engine unchanged (no length or step changes). -/
theorem euclidean_out_of_range (e : EuclideanEngine) (instrument : ℤ) (density : ℚ)
    (length : ℕ) (h : instrument < 0 ∨ 3 ≤ instrument) :
    shouldTrigger e instrument density = false ∧
    getLength e instrument = 16 ∧
    getStep e instrument = 0 ∧
    getPattern e instrument density = 0 ∧
    setLength e instrument length = e := by
  have hv := voiceIndex_none instrument h
  simp only [shouldTrigger, getLength, getStep, getPattern, setLength, hv, and_self]

/-- Witness for C22: voice index 3 and voice index -1 on the engine after five ticks. -/
theorem euclidean_out_of_range_witness :
    ((3 : ℤ) < 0 ∨ (3 : ℤ) ≤ 3) ∧
    shouldTrigger (ticks 5 init) 3 1 = false ∧
    getLength (ticks 5 init) 3 = 16 ∧
    getStep (ticks 5 init) 3 = 0 ∧
    getPattern (ticks 5 init) 3 1 = 0 ∧
    setLength (ticks 5 init) 3 7 = ticks 5 init :=
  ⟨by decide, euclidean_out_of_range (ticks 5 init) 3 1 7 (by decide)⟩

end EuclideanEngine
namespace GridsEngine

theorem readDrumMap_interpolate (node_table : NodeTable) (e : GridsEngine)
    (instrument step : ℤ) :
    readDrumMap node_table e instrument step =
      toUInt8 (interpolate node_table (truncQ (e.x_ * 4)) (truncQ (e.y_ * 4))
        (min (truncQ (e.x_ * 4) + 1) 4) (min (truncQ (e.y_ * 4) + 1) 4)
        (e.x_ * 4 - (truncQ (e.x_ * 4) : ℚ)) (e.y_ * 4 - (truncQ (e.y_ * 4) : ℚ))
        (instrument * 32 + step)) := rfl

theorem truncQ_scaled_cell {x : ℚ} {k : ℤ} (hk : 1 ≤ k) (h0 : ((k : ℚ) - 1) / 4 ≤ x)
    (h1 : x < (k : ℚ) / 4) : truncQ (x * 4) = k - 1 := by
  have hk' : (1 : ℚ) ≤ (k : ℚ) := by exact_mod_cast hk
  have hn : (0 : ℚ) ≤ x * 4 := by linarith
  rw [truncQ_of_nonneg hn, Int.floor_eq_iff]
  push_cast
  constructor <;> linarith

theorem truncQ_scaled_node (k : ℤ) (hk : 0 ≤ k) : truncQ ((k : ℚ) / 4 * 4) = k := by
  have e : (k : ℚ) / 4 * 4 = (k : ℚ) := by ring
  have hk' : (0 : ℚ) ≤ (k : ℚ) := by exact_mod_cast hk
  rw [e, truncQ_of_nonneg hk', Int.floor_intCast]

theorem toUInt8_readNode (node_table : NodeTable) (node offset : ℤ) :
    toUInt8 (readNode node_table node offset : ℚ) = readNode node_table node offset := by
  have h : readNode node_table node offset < 256 := Nat.mod_lt _ (by decide)
  have h0 : (0 : ℚ) ≤ (readNode node_table node offset : ℚ) := Nat.cast_nonneg _
  unfold toUInt8
  rw [truncQ_of_nonneg h0]
  have e : ⌊((readNode node_table node offset : ℕ) : ℚ)⌋ =
      ((readNode node_table node offset : ℕ) : ℤ) := by
    exact_mod_cast Int.floor_natCast (readNode node_table node offset)
  rw [e]
  omega

/-- C21: the bilinear interpolation of `readDrumMap` has no jump at the cell boundaries.
For every interior boundary `x = k/4` (`k = 1, 2, 3`), every `y`, voice, step and node
table: left of the boundary the code interpolates in the cell `k - 1` and on the boundary
in the cell `k` with `fx = 0`; the interpolation of the left cell at `fx = 1` equals the
one of the right cell at `fx = 0`, and both are the interpolation of the two boundary
nodes along `y`.  The same holds for the boundaries `y = k/4`.  At a grid node
(`x = i/4`, `y = j/4`, `0 ≤ i, j ≤ 4`) the result is the stored intensity of that node. -/
theorem readDrumMap_continuous (node_table : NodeTable) (e : GridsEngine)
    (instrument step k : ℤ) (hk1 : 1 ≤ k) (hk3 : k ≤ 3) :
    (∀ (y0 y1 : ℤ) (fy : ℚ),
      interpolate node_table (k - 1) y0 k y1 1 fy (instrument * 32 + step) =
        interpolate node_table k y0 (k + 1) y1 0 fy (instrument * 32 + step) ∧
      interpolate node_table k y0 (k + 1) y1 0 fy (instrument * 32 + step) =
        (readNode node_table (y0 * 5 + k) (instrument * 32 + step) : ℚ) * (1 - fy) +
        (readNode node_table (y1 * 5 + k) (instrument * 32 + step) : ℚ) * fy) ∧
    (∀ (x0 x1 : ℤ) (fx : ℚ),
      interpolate node_table x0 (k - 1) x1 k fx 1 (instrument * 32 + step) =
        interpolate node_table x0 k x1 (k + 1) fx 0 (instrument * 32 + step) ∧
      interpolate node_table x0 k x1 (k + 1) fx 0 (instrument * 32 + step) =
        (readNode node_table (k * 5 + x0) (instrument * 32 + step) : ℚ) * (1 - fx) +
        (readNode node_table (k * 5 + x1) (instrument * 32 + step) : ℚ) * fx) ∧
    (∀ x : ℚ, ((k : ℚ) - 1) / 4 ≤ x → x < (k : ℚ) / 4 →
      readDrumMap node_table { e with x_ := x } instrument step =
        toUInt8 (interpolate node_table (k - 1) (truncQ (e.y_ * 4)) k
          (min (truncQ (e.y_ * 4) + 1) 4) (x * 4 - ((k : ℚ) - 1))
          (e.y_ * 4 - (truncQ (e.y_ * 4) : ℚ)) (instrument * 32 + step))) ∧
    readDrumMap node_table { e with x_ := (k : ℚ) / 4 } instrument step =
      toUInt8 (interpolate node_table k (truncQ (e.y_ * 4)) (k + 1)
        (min (truncQ (e.y_ * 4) + 1) 4) 0
        (e.y_ * 4 - (truncQ (e.y_ * 4) : ℚ)) (instrument * 32 + step)) ∧
    (∀ y : ℚ, ((k : ℚ) - 1) / 4 ≤ y → y < (k : ℚ) / 4 →
      readDrumMap node_table { e with y_ := y } instrument step =
        toUInt8 (interpolate node_table (truncQ (e.x_ * 4)) (k - 1)
          (min (truncQ (e.x_ * 4) + 1) 4) k (e.x_ * 4 - (truncQ (e.x_ * 4) : ℚ))
          (y * 4 - ((k : ℚ) - 1)) (instrument * 32 + step))) ∧
    readDrumMap node_table { e with y_ := (k : ℚ) / 4 } instrument step =
      toUInt8 (interpolate node_table (truncQ (e.x_ * 4)) k
        (min (truncQ (e.x_ * 4) + 1) 4) (k + 1) (e.x_ * 4 - (truncQ (e.x_ * 4) : ℚ)) 0
        (instrument * 32 + step)) ∧
    (∀ i j : ℤ, 0 ≤ i → i ≤ 4 → 0 ≤ j → j ≤ 4 →
      readDrumMap node_table { e with x_ := (i : ℚ) / 4, y_ := (j : ℚ) / 4 } instrument step =
        readNode node_table (j * 5 + i) (instrument * 32 + step)) := by
  have hmin : min (k - 1 + 1) 4 = k := by
    rw [min_eq_left (by omega)]; omega
  have hmin2 : min (k + 1) 4 = k + 1 := min_eq_left (by omega)
  have hnode := truncQ_scaled_node k (by omega)
  have hfrac : (k : ℚ) / 4 * 4 - (k : ℚ) = 0 := by ring
  refine ⟨?_, ?_, ?_, ?_, ?_, ?_, ?_⟩
  · intro y0 y1 fy
    constructor <;> simp only [interpolate] <;> ring
  · intro x0 x1 fx
    constructor <;> simp only [interpolate] <;> ring
  · intro x h0 h1
    rw [readDrumMap_interpolate]
    simp only [truncQ_scaled_cell hk1 h0 h1, hmin]
    push_cast
    rfl
  · rw [readDrumMap_interpolate]
    simp only [hnode, hmin2, hfrac]
  · intro y h0 h1
    rw [readDrumMap_interpolate]
    simp only [truncQ_scaled_cell hk1 h0 h1, hmin]
    push_cast
    rfl
  · rw [readDrumMap_interpolate]
    simp only [hnode, hmin2, hfrac]
  · intro i j hi0 hi4 hj0 hj4
    rw [readDrumMap_interpolate]
    have fi : (i : ℚ) / 4 * 4 - (i : ℚ) = 0 := by ring
    have fj : (j : ℚ) / 4 * 4 - (j : ℚ) = 0 := by ring
    simp only [truncQ_scaled_node i hi0, truncQ_scaled_node j hj0, fi, fj]
    have hval : ∀ x1 y1 : ℤ, interpolate node_table i j x1 y1 0 0 (instrument * 32 + step) =
        (readNode node_table (j * 5 + i) (instrument * 32 + step) : ℚ) := by
      intro x1 y1
      simp only [interpolate]
      ring
    rw [hval, toUInt8_readNode]

/-- Witness for C21: the boundary `x = 2/4` on the ramp table, for the snare at step 5. -/
theorem readDrumMap_continuous_witness :
    (1 : ℤ) ≤ 2 ∧ (2 : ℤ) ≤ 3 ∧
    interpolate Example.rampTable (2 - 1) 1 2 2 1 (1 / 3) (1 * 32 + 5) =
      interpolate Example.rampTable 2 1 (2 + 1) 2 0 (1 / 3) (1 * 32 + 5) ∧
    readDrumMap Example.rampTable
      { Example.silentBD with x_ := ((2 : ℤ) : ℚ) / 4, y_ := ((3 : ℤ) : ℚ) / 4 } 1 5 =
      readNode Example.rampTable (3 * 5 + 2) (1 * 32 + 5) :=
  ⟨by decide, by decide,
    ((readDrumMap_continuous Example.rampTable Example.silentBD 1 5 2 (by decide)
      (by decide)).1 1 2 (1 / 3)).1,
    (readDrumMap_continuous Example.rampTable Example.silentBD 1 5 2 (by decide)
      (by decide)).2.2.2.2.2.2 2 3 (by decide) (by decide) (by decide) (by decide)⟩

end GridsEngine
namespace Processor

end Processor
namespace Processor

theorem wrapForward_of_nonneg {d : ℚ} (h : 0 ≤ d) : wrapForward d = d := by
  rw [wrapForward, if_neg (not_lt.mpr h)]

theorem wrapForward_of_neg {d : ℚ} (h : d < 0) : wrapForward d = wrapForward (d + 8) := by
  rw [wrapForward, if_pos h]

theorem floor_add_eight (d : ℚ) : ⌊(d + 8) / 8⌋ = ⌊d / 8⌋ + 1 := by
  rw [show (d + 8) / 8 = d / 8 + ((1 : ℤ) : ℚ) by push_cast; ring, Int.floor_add_int]

/-- The wrap loop of the step mapping ends for every start value, with the non-negative
remainder modulo 8 when the start value is negative. -/
theorem wrapForward_eq_mod (n : ℕ) : ∀ d : ℚ, -(8 * (n : ℚ)) ≤ d → d < 0 →
    wrapForward d = d - 8 * (⌊d / 8⌋ : ℚ) := by
  induction n with
  | zero =>
    intro d h0 h1
    simp only [Nat.cast_zero, mul_zero, neg_zero] at h0
    exact absurd h1 (not_lt.mpr h0)
  | succ n ih =>
    intro d h0 h1
    rw [wrapForward_of_neg h1]
    by_cases hd : d + 8 < 0
    · have h := ih (d + 8) (by push_cast at h0; linarith) hd
      rw [h, floor_add_eight]
      push_cast
      ring
    · rw [wrapForward_of_nonneg (not_lt.mp hd)]
      have hf : ⌊d / 8⌋ = -1 := by
        rw [Int.floor_eq_iff]
        push_cast
        constructor <;> linarith [not_lt.mp hd]
      rw [hf]
      push_cast
      ring

theorem wrapForward_closed (d : ℚ) :
    wrapForward d = if d < 0 then d - 8 * (⌊d / 8⌋ : ℚ) else d := by
  by_cases h : d < 0
  · rw [if_pos h]
    have hb : -(8 * ((⌈-d / 8⌉.toNat : ℕ) : ℚ)) ≤ d := by
      have h1 : 0 ≤ ⌈-d / 8⌉ := Int.ceil_nonneg (by linarith)
      have h2 : ((⌈-d / 8⌉.toNat : ℕ) : ℤ) = ⌈-d / 8⌉ := Int.toNat_of_nonneg h1
      have h3 : ((⌈-d / 8⌉.toNat : ℕ) : ℚ) = (⌈-d / 8⌉ : ℚ) := by exact_mod_cast h2
      have h4 := Int.le_ceil (-d / 8)
      rw [h3]
      linarith
    exact wrapForward_eq_mod _ d hb h
  · rw [if_neg h]
    exact wrapForward_of_nonneg (not_lt.mp h)

theorem mod_eight_range (d : ℚ) :
    0 ≤ d - 8 * (⌊d / 8⌋ : ℚ) ∧ d - 8 * (⌊d / 8⌋ : ℚ) < 8 := by
  have h1 := Int.floor_le (d / 8)
  have h2 := Int.lt_floor_add_one (d / 8)
  constructor <;> linarith

theorem floor_four_mod (d : ℚ) :
    ⌊4 * (d - 8 * (⌊d / 8⌋ : ℚ))⌋ = ⌊4 * d⌋ - 32 * ⌊d / 8⌋ := by
  rw [show 4 * (d - 8 * (⌊d / 8⌋ : ℚ)) = 4 * d - ((32 * ⌊d / 8⌋ : ℤ) : ℚ) by push_cast; ring,
    Int.floor_sub_int]

theorem floor_four_emod (d : ℚ) : ⌊4 * d⌋ % 32 = ⌊4 * d⌋ - 32 * ⌊d / 8⌋ := by
  obtain ⟨h1, h2⟩ := mod_eight_range d
  have a1 : 32 * ⌊d / 8⌋ ≤ ⌊4 * d⌋ := by
    rw [Int.le_floor]
    push_cast
    linarith
  have a2 : ⌊4 * d⌋ < 32 * ⌊d / 8⌋ + 32 := by
    rw [Int.floor_lt]
    push_cast
    linarith
  omega

theorem tmod_of_nonneg (m : ℤ) (h : 0 ≤ m) : m.tmod 32 = m % 32 :=
  Int.tmod_eq_emod h (by decide)

theorem stepForPpq_offset (p a : ℚ) :
    stepForPpq true p a = ⌊4 * ((a - p) - 8 * (⌊(a - p) / 8⌋ : ℚ))⌋ := by
  obtain ⟨h1, h2⟩ := mod_eight_range (a - p)
  unfold stepForPpq
  simp only [if_true]
  rw [wrapForward_closed]
  by_cases hd : a - p < 0
  · rw [if_pos hd, truncQ_of_nonneg (by linarith), mul_comm _ (4 : ℚ)]
    have b1 : 0 ≤ ⌊4 * (a - p - 8 * (⌊(a - p) / 8⌋ : ℚ))⌋ := Int.floor_nonneg.mpr (by linarith)
    have b2 : ⌊4 * (a - p - 8 * (⌊(a - p) / 8⌋ : ℚ))⌋ < 32 := by
      rw [Int.floor_lt]
      push_cast
      linarith
    rw [tmod_of_nonneg _ b1, Int.emod_eq_of_lt b1 b2, if_neg (not_lt.mpr b1)]
  · rw [if_neg hd, truncQ_of_nonneg (by linarith [not_lt.mp hd]), mul_comm _ (4 : ℚ)]
    have b1 : 0 ≤ ⌊4 * (a - p)⌋ := Int.floor_nonneg.mpr (by linarith [not_lt.mp hd])
    rw [tmod_of_nonneg _ b1, if_neg (not_lt.mpr (Int.emod_nonneg _ (by decide))),
      floor_four_emod, floor_four_mod]

end Processor
namespace Processor

end Processor
namespace Processor

set_option maxRecDepth 100000 in
/-- C23 (the code at the failing input): with a node table that triggers every voice at
every step, a transport that starts at PPQ 0 evaluates nothing in its first block: a
one-sample block at PPQ 0 on the processor as prepared, or after a block of the stopped
transport, leaves the buffer empty with the pattern step at 0; and over the whole first
sixteenth and one sample more (at 8000 Hz and 300 BPM a block of 200 samples from PPQ 0
and a block of 201 samples from PPQ 0.125) the output holds nothing but the note-ons of
step 1, at sample 200 of the second block, the 401st sample.  The same happens when the
host loops back to PPQ 0 after step 31.  The block at PPQ 0 that follows a count-in does
evaluate step 0 and emits its note-ons at sample 0. -/
theorem transport_start_skips_step_zero :
    (processBlock Example.build Example.fullTable (Example.playingAt 0) Example.start []).2
      = [] ∧
    (processBlock Example.build Example.fullTable (Example.playingAt 0)
      Example.start []).1.currentPatternStep = 0 ∧
    sessionOutput Example.build Example.fullTable Example.start
      [Action.block (Example.stoppedAt 0) [], Action.block (Example.playingAt 0) []] = [] ∧
    sessionOutput Example.build Example.fullTable Example.start8k
      [Action.block (Example.playing8k 200 0) [],
        Action.block (Example.playing8k 201 (1 / 8)) []] =
      [⟨MidiMessage.noteOn 1 36 113, 200⟩, ⟨MidiMessage.noteOn 1 38 113, 200⟩,
        ⟨MidiMessage.noteOn 1 42 113, 200⟩] ∧
    (processBlock Example.build Example.fullTable (Example.playingAt 0)
      Example.playedStep31 []).2 = [] ∧
    (processBlock Example.build Example.fullTable (Example.playingAt 0)
      Example.afterCountIn []).2 =
      [⟨MidiMessage.noteOn 1 36 113, 0⟩, ⟨MidiMessage.noteOn 1 38 113, 0⟩,
        ⟨MidiMessage.noteOn 1 42 113, 0⟩] := by
  decide!

end Processor
namespace Processor

theorem executeReset_resetAt (pos : PositionInfo) (p : ℚ) (s : Processor)
    (hp : pos.ppqPosition = some p) :
    ResetAt p (executeReset (some pos) s) ∧ SameTransport s (executeReset (some pos) s) ∧
    (executeReset (some pos) s).resetCount = s.resetCount + 1 := by
  unfold executeReset notifyReset
  simp only [hp]
  split_ifs
  · exact ⟨⟨rfl, rfl, rfl, rfl, rfl⟩, ⟨rfl, rfl, rfl, rfl, rfl, rfl⟩, rfl⟩
  · exact ⟨⟨rfl, rfl, rfl, rfl, rfl⟩, ⟨rfl, rfl, rfl, rfl, rfl, rfl⟩, rfl⟩

theorem sameTransport_trans {s t u : Processor} (h1 : SameTransport s t)
    (h2 : SameTransport t u) : SameTransport s u := by
  obtain ⟨a1, a2, a3, a4, a5, a6⟩ := h1
  obtain ⟨c1, c2, c3, c4, c5, c6⟩ := h2
  exact ⟨c1.trans a1, c2.trans a2, c3.trans a3, c4.trans a4, c5.trans a5, c6.trans a6⟩

theorem samePattern_trans {s t u : Processor} (h1 : SamePattern s t)
    (h2 : SamePattern t u) : SamePattern s u := by
  obtain ⟨a1, a2, a3, a4, a5⟩ := h1
  obtain ⟨c1, c2, c3, c4, c5⟩ := h2
  exact ⟨c1.trans a1, c2.trans a2, c3.trans a3, c4.trans a4, c5.trans a5⟩

theorem resetAt_of_same {p : ℚ} {s t : Processor} (h1 : ResetAt p s) (h2 : SamePattern s t) :
    ResetAt p t := by
  obtain ⟨a1, a2, a3, a4, a5⟩ := h1
  obtain ⟨c1, c2, c3, c4, c5⟩ := h2
  exact ⟨c1.trans a1, c2.trans a2, c3.trans a3, by rw [c4]; exact a4, c5.trans a5⟩

/-- The edge statement of the reset section either executes a reset or leaves the pattern
position alone; the parameters and the transport bookkeeping stay as they are. -/
theorem edgeStage_cases (b : Build) (env : BlockEnv) (pos : PositionInfo) (p : ℚ)
    (s : Processor) (hpos : env.position = some pos) (hp : pos.ppqPosition = some p) :
    SameTransport s (edgeStage b env s) ∧
    (((edgeStage b env s).resetCount = s.resetCount ∧ SamePattern s (edgeStage b env s)) ∨
      ((edgeStage b env s).resetCount = s.resetCount + 1 ∧ ResetAt p (edgeStage b env s))) := by
  unfold edgeStage
  split_ifs
  · exact ⟨⟨rfl, rfl, rfl, rfl, rfl, rfl⟩, Or.inl ⟨rfl, rfl, rfl, rfl, rfl, rfl⟩⟩
  · rw [hpos]
    obtain ⟨h1, h2, h3⟩ := executeReset_resetAt pos p s hp
    exact ⟨h2, Or.inr ⟨h3, h1⟩⟩
  · exact ⟨⟨rfl, rfl, rfl, rfl, rfl, rfl⟩, Or.inl ⟨rfl, rfl, rfl, rfl, rfl, rfl⟩⟩

/-- The armed statement of the reset section either executes a reset or leaves the pattern
position alone; the parameters and the transport bookkeeping stay as they are. -/
theorem armedStage_cases (env : BlockEnv) (pos : PositionInfo) (p : ℚ) (s : Processor)
    (hpos : env.position = some pos) (hp : pos.ppqPosition = some p) :
    SameTransport s (armedStage env pos s) ∧
    (((armedStage env pos s).resetCount = s.resetCount ∧ SamePattern s (armedStage env pos s)) ∨
      ((armedStage env pos s).resetCount = s.resetCount + 1 ∧
        ResetAt p (armedStage env pos s))) := by
  unfold armedStage
  obtain ⟨q, hq⟩ := isQuantizePoint_frame s pos s.resetQuantize
  by_cases ha : s.resetArmed = true
  · rw [if_pos ha]
    simp only []
    by_cases hf : (isQuantizePoint s pos s.resetQuantize).1 = true
    · rw [if_pos hf, hpos, hq]
      obtain ⟨h1, h2, h3⟩ := executeReset_resetAt pos p { s with quantizePhase := q } hp
      exact ⟨h2, Or.inr ⟨h3, h1⟩⟩
    · rw [if_neg hf, hq]
      exact ⟨⟨rfl, rfl, rfl, rfl, rfl, rfl⟩, Or.inl ⟨rfl, rfl, rfl, rfl, rfl, rfl⟩⟩
  · rw [if_neg ha]
    exact ⟨⟨rfl, rfl, rfl, rfl, rfl, rfl⟩, Or.inl ⟨rfl, rfl, rfl, rfl, rfl, rfl⟩⟩

/-- The reset section of a block: the swing parameter and the transport bookkeeping stay
as they are, and when the reset count changes the pattern position is that of a reset
executed at the host PPQ of the block. -/
theorem resetStage_cases (b : Build) (env : BlockEnv) (pos : PositionInfo) (p : ℚ)
    (s : Processor) (hpos : env.position = some pos) (hp : pos.ppqPosition = some p) :
    (resetStage b env pos s).parameters.swing = s.parameters.swing ∧
    (resetStage b env pos s).isPlaying = s.isPlaying ∧
    (resetStage b env pos s).lastPpqPosition = s.lastPpqPosition ∧
    ((resetStage b env pos s).resetCount ≠ s.resetCount → ResetAt p (resetStage b env pos s)) := by
  obtain ⟨e1, e2⟩ := edgeStage_cases b env pos p s hpos hp
  obtain ⟨a1, a2⟩ := armedStage_cases env pos p (edgeStage b env s) hpos hp
  obtain ⟨t1, t2, t3, _, _, _⟩ := sameTransport_trans e1 a1
  have hfields : ∀ u : Processor, ResetAt p u →
      ResetAt p (resetStage b env pos s) ∨ u ≠ armedStage env pos (edgeStage b env s) := by
    intro u hu
    by_cases h : u = armedStage env pos (edgeStage b env s)
    · left
      subst h
      unfold resetStage
      simp only []
      split_ifs
      · exact hu
      · exact hu
    · exact Or.inr h
  have hcount : (resetStage b env pos s).resetCount =
      (armedStage env pos (edgeStage b env s)).resetCount :=
    (resetStage_fields b env pos s).1
  have hframe : (resetStage b env pos s).parameters.swing =
      (armedStage env pos (edgeStage b env s)).parameters.swing ∧
      (resetStage b env pos s).isPlaying =
        (armedStage env pos (edgeStage b env s)).isPlaying ∧
      (resetStage b env pos s).lastPpqPosition =
        (armedStage env pos (edgeStage b env s)).lastPpqPosition := by
    unfold resetStage
    simp only []
    split_ifs
    · exact ⟨rfl, rfl, rfl⟩
    · exact ⟨rfl, rfl, rfl⟩
  refine ⟨by rw [hframe.1, t1], hframe.2.1.trans t2, hframe.2.2.trans t3, ?_⟩
  intro hne
  rw [hcount] at hne
  have hreset : ResetAt p (armedStage env pos (edgeStage b env s)) := by
    rcases a2 with ⟨c1, same⟩ | ⟨_, r⟩
    · rcases e2 with ⟨c2, _⟩ | ⟨_, r⟩
      · exact absurd (c1.trans c2) hne
      · exact resetAt_of_same r same
    · exact r
  rcases hfields _ hreset with h | h
  · exact h
  · exact absurd rfl h

end Processor
namespace Processor

theorem transportStage_keep (pos : PositionInfo) (p : ℚ) (justExitedCountIn liveMode : Bool)
    (s : Processor) (hp : pos.ppqPosition = some p)
    (hkeep : justExitedCountIn = true ∨ (s.isPlaying = true ∧ s.lastPpqPosition ≤ p)) :
    transportStage pos justExitedCountIn liveMode s =
      updateTiming { s with
        isPlaying := pos.isPlaying || pos.isRecording || liveMode
        lastPpqPosition := p } pos := by
  have hcond : ¬ ((!justExitedCountIn && (!s.isPlaying || decide (p < s.lastPpqPosition)))
      = true) := by
    rcases hkeep with h | ⟨h1, h2⟩
    · rw [h]
      simp
    · rw [h1, decide_eq_false (not_lt.mpr h2)]
      simp
  unfold transportStage
  simp only [hp]
  rw [if_neg hcond]

theorem swingAdjust_late (swing p : ℚ)
    (h : (1 / 2 ≤ swing ∧ swing ≤ 1) ∨
      ¬ ((fmodQ p 1 > 1 / 5 ∧ fmodQ p 1 < 3 / 10) ∨ (fmodQ p 1 > 7 / 10 ∧ fmodQ p 1 < 4 / 5))) :
    0 ≤ swingAdjust swing p - p ∧ swingAdjust swing p - p < 1 / 4 := by
  unfold swingAdjust
  simp only []
  split_ifs with h1 h2
  · rcases h with ⟨a, c⟩ | h
    · constructor <;> linarith
    · exact absurd h2 h
  · constructor <;> norm_num
  · constructor <;> norm_num

theorem stepForPpq_at_reset (p a : ℚ) (h0 : 0 ≤ a - p) (h1 : a - p < 1 / 4) :
    stepForPpq true p a = 0 := by
  rw [stepForPpq_offset]
  have hf : ⌊(a - p) / 8⌋ = 0 := Int.floor_eq_zero_iff.mpr ⟨by linarith, by linarith⟩
  rw [hf]
  exact Int.floor_eq_zero_iff.mpr ⟨by push_cast; linarith, by push_cast; linarith⟩

theorem countInExit_transport (s : Processor) (inCountIn : Bool) :
    (countInExit s inCountIn).isPlaying = s.isPlaying ∧
    (countInExit s inCountIn).lastPpqPosition = s.lastPpqPosition := by
  unfold countInExit
  simp only []
  split_ifs
  · exact ⟨rfl, rfl⟩
  · exact ⟨rfl, rfl⟩

/-- C24 (counterexample): with swing 0, a reset that fires in a playing block at host
PPQ 0.25 records the offset 0.25, and the sample at offset 0 of that block is evaluated
as step 31: the swing moves it to 0.20, before the reset instant, and the wrap loop turns
that into 7.95.  And a reset that fires in the block in which the transport starts (at
PPQ 0.5) has its offset cleared by the transport start, so that sample 0 is evaluated as
step 2. -/
theorem reset_alignment_counterexample :
    Example.earlySwingReset.isPlaying = true ∧
    (processBlock Example.build Example.fullTable (Example.playingAt (1 / 4))
      Example.earlySwingReset []).1.resetCount = Example.earlySwingReset.resetCount + 1 ∧
    (processBlock Example.build Example.fullTable (Example.playingAt (1 / 4))
      Example.earlySwingReset []).1.ppqOffsetAtReset = 1 / 4 ∧
    (processBlock Example.build Example.fullTable (Example.playingAt (1 / 4))
      Example.earlySwingReset []).1.currentPatternStep = 31 ∧
    (processBlock Example.build Example.fullTable (Example.playingAt (1 / 4))
      Example.earlySwingReset []).2 =
      [⟨MidiMessage.noteOn 1 36 113, 0⟩, ⟨MidiMessage.noteOn 1 38 113, 0⟩,
        ⟨MidiMessage.noteOn 1 42 113, 0⟩] ∧
    stepForPpq true (1 / 4) (swingAdjust 0 (1 / 4)) = 31 ∧
    (processBlock Example.build Example.fullTable (Example.playingAt (1 / 2))
      Example.resetRaised []).1.resetCount = Example.resetRaised.resetCount + 1 ∧
    (processBlock Example.build Example.fullTable (Example.playingAt (1 / 2))
      Example.resetRaised []).1.hasResetOffset = false ∧
    (processBlock Example.build Example.fullTable (Example.playingAt (1 / 2))
      Example.resetRaised []).1.currentPatternStep = 2 := by
  decide!

/-- C24 (amended): when a reset is executed in the reset section of a block at host PPQ
`p` and the block is not one in which the transport starts or the host position has gone
back (either the block follows a count-in, or the processor was playing and `p` is not
before the last position), then at the entry of the sample loops the reset offset is
active and equal to `p` and the pattern step is 0.  If moreover the swing is in [0.5, 1],
or `p` lies outside the two swing windows of its beat, the sample at offset 0 (host PPQ
`p`) maps to step 0, so the loop body at that sample either evaluates nothing or
evaluates step 0; on a playing transport the block runs the sample loops from that
state. -/
theorem reset_aligns_step_zero (b : Build) (node_table : NodeTable) (env : BlockEnv)
    (s : Processor) (midiMessages : MidiBuffer) (pos : PositionInfo) (p : ℚ)
    (hpos : env.position = some pos) (hp : pos.ppqPosition = some p)
    (hfire : (resetStage b env pos (countInExit (handleIncoming s midiMessages)
      (inCountInOf pos))).resetCount ≠ s.resetCount)
    (hkeep : (s.wasInCountIn = true ∧ 0 ≤ p) ∨ (s.isPlaying = true ∧ s.lastPpqPosition ≤ p))
    (hswing : (1 / 2 ≤ s.parameters.swing ∧ s.parameters.swing ≤ 1) ∨
      ¬ ((fmodQ p 1 > 1 / 5 ∧ fmodQ p 1 < 3 / 10) ∨
        (fmodQ p 1 > 7 / 10 ∧ fmodQ p 1 < 4 / 5))) :
    (loopEntry b node_table env pos s midiMessages).1.hasResetOffset = true ∧
    (loopEntry b node_table env pos s midiMessages).1.ppqOffsetAtReset = p ∧
    (loopEntry b node_table env pos s midiMessages).1.currentPatternStep = 0 ∧
    (loopEntry b node_table env pos s midiMessages).1.parameters.swing = s.parameters.swing ∧
    stepForPpq (loopEntry b node_table env pos s midiMessages).1.hasResetOffset
      (loopEntry b node_table env pos s midiMessages).1.ppqOffsetAtReset
      (swingAdjust (loopEntry b node_table env pos s midiMessages).1.parameters.swing p) = 0 ∧
    (∀ (ppqPerSample : ℚ) (justExitedCountIn : Bool),
      ppqSample b node_table (modulationInBlock env pos) p ppqPerSample justExitedCountIn
          (loopEntry b node_table env pos s midiMessages) 0 =
        loopEntry b node_table env pos s midiMessages ∨
      ppqSample b node_table (modulationInBlock env pos) p ppqPerSample justExitedCountIn
          (loopEntry b node_table env pos s midiMessages) 0 =
        evaluatedAt b node_table (modulationInBlock env pos) 0 0
          (loopEntry b node_table env pos s midiMessages)) ∧
    (reachesResetCheck env s midiMessages = true → pos.isPlaying = true →
      processBlock b node_table env s midiMessages =
        sampleLoops b node_table (modulationInBlock env pos) env.numSamples pos
          ((handleIncoming s midiMessages).wasInCountIn && !inCountInOf pos)
          (loopEntry b node_table env pos s midiMessages)) := by
  obtain ⟨v, c, l, hh⟩ := handleIncoming_frame s midiMessages
  have h0w : (handleIncoming s midiMessages).wasInCountIn = s.wasInCountIn := by rw [hh]
  have h0p : (handleIncoming s midiMessages).isPlaying = s.isPlaying := by rw [hh]
  have h0l : (handleIncoming s midiMessages).lastPpqPosition = s.lastPpqPosition := by rw [hh]
  have h0s : (handleIncoming s midiMessages).parameters.swing = s.parameters.swing := by rw [hh]
  have h0c : (handleIncoming s midiMessages).resetCount = s.resetCount := by rw [hh]
  obtain ⟨x1, _, _, _, x5⟩ := countInExit_control (handleIncoming s midiMessages)
    (inCountInOf pos)
  obtain ⟨y1, y2⟩ := countInExit_transport (handleIncoming s midiMessages) (inCountInOf pos)
  obtain ⟨r1, r2, r3, r4⟩ := resetStage_cases b env pos p
    (countInExit (handleIncoming s midiMessages) (inCountInOf pos)) hpos hp
  have hreset := r4 (by rw [x1, h0c]; exact hfire)
  have hkeep2 : ((handleIncoming s midiMessages).wasInCountIn && !inCountInOf pos) = true ∨
      ((resetStage b env pos (countInExit (handleIncoming s midiMessages)
          (inCountInOf pos))).isPlaying = true ∧
        (resetStage b env pos (countInExit (handleIncoming s midiMessages)
          (inCountInOf pos))).lastPpqPosition ≤ p) := by
    rcases hkeep with ⟨k1, k2⟩ | ⟨k1, k2⟩
    · left
      rw [h0w, k1]
      unfold inCountInOf
      simp only [hp, decide_eq_false (not_lt.mpr k2), Bool.not_false, Bool.and_self]
    · right
      rw [r2, r3, y1, y2, h0p, h0l]
      exact ⟨k1, k2⟩
  have htrans := transportStage_keep pos p
    ((handleIncoming s midiMessages).wasInCountIn && !inCountInOf pos)
    (decide ((handleIncoming s midiMessages).parameters.live_mode > 1 / 2))
    (resetStage b env pos (countInExit (handleIncoming s midiMessages) (inCountInOf pos)))
    hp hkeep2
  obtain ⟨k, hk⟩ := updateTiming_frame
    { resetStage b env pos (countInExit (handleIncoming s midiMessages) (inCountInOf pos)) with
      isPlaying := pos.isPlaying || pos.isRecording ||
        decide ((handleIncoming s midiMessages).parameters.live_mode > 1 / 2)
      lastPpqPosition := p } pos
  obtain ⟨e, sr, r, hretr⟩ := retriggerStage_frame b node_table (modulationInBlock env pos)
    (blockEntry b env pos s midiMessages, bufferEntry b env pos s midiMessages)
  have hentry : blockEntry b env pos s midiMessages =
      loadParameters b (modulationInBlock env pos)
        { resetStage b env pos (countInExit (handleIncoming s midiMessages)
            (inCountInOf pos)) with
          isPlaying := pos.isPlaying || pos.isRecording ||
            decide ((handleIncoming s midiMessages).parameters.live_mode > 1 / 2)
          lastPpqPosition := p
          samplesPerClock := k } := by
    unfold blockEntry
    simp only []
    rw [htrans, hk]
  obtain ⟨q1, q2, q3, _, _⟩ := hreset
  have f1 : (loopEntry b node_table env pos s midiMessages).1.hasResetOffset = true := by
    unfold loopEntry
    rw [hretr, hentry]
    exact q1
  have f2 : (loopEntry b node_table env pos s midiMessages).1.ppqOffsetAtReset = p := by
    unfold loopEntry
    rw [hretr, hentry]
    exact q2
  have f3 : (loopEntry b node_table env pos s midiMessages).1.currentPatternStep = 0 := by
    unfold loopEntry
    rw [hretr, hentry]
    exact q3
  have f4 : (loopEntry b node_table env pos s midiMessages).1.parameters.swing =
      s.parameters.swing := by
    unfold loopEntry
    rw [hretr, hentry]
    show (resetStage b env pos (countInExit (handleIncoming s midiMessages)
      (inCountInOf pos))).parameters.swing = _
    rw [r1, x5, h0s]
  have f5 : stepForPpq (loopEntry b node_table env pos s midiMessages).1.hasResetOffset
      (loopEntry b node_table env pos s midiMessages).1.ppqOffsetAtReset
      (swingAdjust (loopEntry b node_table env pos s midiMessages).1.parameters.swing p)
      = 0 := by
    rw [f1, f2, f4]
    obtain ⟨a0, a1⟩ := swingAdjust_late s.parameters.swing p hswing
    exact stepForPpq_at_reset p _ a0 a1
  refine ⟨f1, f2, f3, f4, f5, ?_, ?_⟩
  · intro ppqPerSample justExitedCountIn
    have hsample : p + ((0 : ℕ) : ℚ) * ppqPerSample = p := by
      rw [Nat.cast_zero, zero_mul, add_zero]
    unfold ppqSample evaluatedAt
    simp only []
    rw [hsample, f5, f3]
    split_ifs with hc
    · right
      rfl
    · left
      rfl
  · intro hreach hplay
    exact processBlock_running b node_table env s midiMessages pos hpos hreach hplay

/-- Witness for C24 (amended): the processor that has played a block at PPQ 0, with the
swing then set to 1 and the reset control raised, in a playing block at PPQ 0.25. -/
theorem reset_aligns_step_zero_witness :
    (loopEntry Example.build Example.fullTable (Example.playingAt (1 / 4))
      ⟨some (1 / 4), some 120, true, false⟩
      { Example.earlySwingReset with
        parameters := { Parameters.defaults with swing := 1, reset := 1 } }
      []).1.currentPatternStep = 0 ∧
    stepForPpq
      (loopEntry Example.build Example.fullTable (Example.playingAt (1 / 4))
        ⟨some (1 / 4), some 120, true, false⟩
        { Example.earlySwingReset with
          parameters := { Parameters.defaults with swing := 1, reset := 1 } }
        []).1.hasResetOffset
      (loopEntry Example.build Example.fullTable (Example.playingAt (1 / 4))
        ⟨some (1 / 4), some 120, true, false⟩
        { Example.earlySwingReset with
          parameters := { Parameters.defaults with swing := 1, reset := 1 } }
        []).1.ppqOffsetAtReset
      (swingAdjust
        (loopEntry Example.build Example.fullTable (Example.playingAt (1 / 4))
          ⟨some (1 / 4), some 120, true, false⟩
          { Example.earlySwingReset with
            parameters := { Parameters.defaults with swing := 1, reset := 1 } }
          []).1.parameters.swing (1 / 4)) = 0 :=
  ⟨(reset_aligns_step_zero Example.build Example.fullTable (Example.playingAt (1 / 4))
      { Example.earlySwingReset with
        parameters := { Parameters.defaults with swing := 1, reset := 1 } }
      [] ⟨some (1 / 4), some 120, true, false⟩ (1 / 4) rfl rfl (by decide!)
      (Or.inr ⟨by decide!, by decide!⟩) (Or.inl ⟨by decide!, by decide!⟩)).2.2.1,
    (reset_aligns_step_zero Example.build Example.fullTable (Example.playingAt (1 / 4))
      { Example.earlySwingReset with
        parameters := { Parameters.defaults with swing := 1, reset := 1 } }
      [] ⟨some (1 / 4), some 120, true, false⟩ (1 / 4) rfl rfl (by decide!)
      (Or.inr ⟨by decide!, by decide!⟩) (Or.inl ⟨by decide!, by decide!⟩)).2.2.2.2.1⟩

end Processor
namespace Processor

end Processor

namespace Processor

end Processor
namespace Processor

end Processor

namespace Processor

end Processor
namespace Processor

end Processor
namespace Processor

end Processor
namespace Processor

end Processor
namespace Processor

end Processor
namespace Processor

end Processor

namespace Processor

end Processor
namespace Processor

end Processor
end Griddy
